import Mathlib

/-!
# ArduinoModbus: server data store and TCP framing

A shallow embedding of `src/ModbusServer.cpp`, the bounds-checked tables a
Modbus server answers requests from, and of the framing functions of
`src/libmodbus/modbus-tcp.cpp`, together with the properties their
specification states about them.

Modelling conventions.

* A C `int` has `w` bits, `w ≥ 16`: 16 on the AVR boards the sources name, 32
  on most other targets.  Its values are Lean `Int`s; the sum and the difference of
  two `int` variables are the machine's, taken modulo `2 ^ w` (`wrapInt w`), and
  so is the `int` a function returns.  In the range checks of the single
  accessors the test `s < address + 1` is the test `s ≤ address`: the constant
  is folded into the comparison, so `address + 1` is never computed.  The
  section `Wrap` follows the other reading, in which `address + 1` wraps too.
  A `long` holds every value the code gives it.
* `uint8_t` and `uint16_t` are `Fin 256` and `Fin 65536`; a conversion to one of
  them reduces modulo its size.
* A heap buffer is a `List`; the null pointer is the empty list.
* A call returns `none` when it touches memory outside a buffer (undefined
  behaviour in C); otherwise it returns an `Outcome`: the object after the
  call, the value the call assigned to `errno` (if it assigned one) and the
  returned value.
* Code of the repository that is not among the sources (`modbus.c`, the private
  headers) is modelled where a function needs it, and says so.
-/

namespace Modbus

/-! ## C types -/

abbrev uint8_t := Fin 256

abbrev uint16_t := Fin 65536

/-- The error codes the store and the TCP backend assign to `errno`. -/
inductive Errno where
  | EINVAL
  | EMBXILADD
  | EMBBADDATA
  | ETIMEDOUT
  deriving DecidableEq, Repr

/-- The C `struct timeval`. -/
structure timeval where
  tv_sec : Nat
  tv_usec : Nat
  deriving DecidableEq, Repr

/-- The private data of the TCP backend (`modbus_tcp_t`): port and transaction id. -/
structure modbus_tcp_t where
  port : Int
  t_id : Nat
  deriving DecidableEq, Repr

/-- The context `struct _modbus` of `modbus-private.h`. -/
structure modbus_t where
  slave : Int
  s : Int
  debug : Int
  error_recovery : Int
  response_timeout : timeval
  byte_timeout : timeval
  backend_data : modbus_tcp_t
  deriving DecidableEq, Repr

/-- The four tables, `modbus_mapping_t`: for each one its size, its first
address and its buffer. -/
structure modbus_mapping_t where
  nb_bits : Int
  start_bits : Int
  nb_input_bits : Int
  start_input_bits : Int
  nb_input_registers : Int
  start_input_registers : Int
  nb_registers : Int
  start_registers : Int
  tab_bits : List uint8_t
  tab_input_bits : List uint8_t
  tab_input_registers : List uint16_t
  tab_registers : List uint16_t
  deriving DecidableEq, Repr

/-- The object state of `class ModbusServer`: the installed backend context
(`none` for `NULL`) and the tables. -/
structure ModbusServer where
  _mb : Option modbus_t
  _mbMapping : modbus_mapping_t
  deriving DecidableEq, Repr

/-- What a call leaves behind: the object after the call, the value the call's
own code assigned to `errno` (`none` when it assigned nothing) and the value it
returned. -/
structure Outcome (σ : Type) (α : Type) where
  state : σ
  errno : Option Errno
  ret : α
  deriving DecidableEq, Repr

/-! ## Memory -/

/-- The rvalue `tab[i]`. -/
def load {α : Type} (tab : List α) (i : Int) : Option α :=
  if 0 ≤ i then tab[i.toNat]? else none

/-- The assignment `tab[i] = v`. -/
def store {α : Type} (tab : List α) (i : Int) (v : α) : Option (List α) :=
  if 0 ≤ i ∧ i < tab.length then some (tab.set i.toNat v) else none

/-- The call `memcpy(&tab[i], values, sizeof(values[0]) * nb)`, counted in
elements.  A negative `nb` becomes a huge `size_t` and runs off both buffers. -/
def memcpy {α : Type} (tab : List α) (i : Int) (values : List α) (nb : Int) :
    Option (List α) :=
  if 0 ≤ i ∧ 0 ≤ nb ∧ i + nb ≤ tab.length ∧ nb ≤ values.length then
    some (tab.take i.toNat ++ (values.take nb.toNat ++ tab.drop (i.toNat + nb.toNat)))
  else none

/-- The call `memset(tab, c, s)`, with `s` counted in elements. -/
def memset {α : Type} (tab : List α) (c : α) (s : Nat) : List α :=
  List.replicate (min s tab.length) c ++ tab.drop s

/-- What the allocator does at one call: whether it finds a block, and what the
bytes it does not initialise hold. -/
structure Heap (α : Type) where
  succeeds : Bool
  junk : Nat → α

/-- The call `realloc(ptr, s)`, with `s` counted in elements: `none` is `NULL`;
a block keeps the old contents up to the smaller of the two sizes. -/
def realloc {α : Type} (heap : Heap α) (ptr : List α) (s : Nat) : Option (List α) :=
  if heap.succeeds then
    some (List.ofFn fun i : Fin s => (ptr[i.val]?).getD (heap.junk i.val))
  else none

/-- The conversion of a `long` to `uint16_t` at a call. -/
def to_uint16 (x : Int) : uint16_t :=
  Fin.ofNat (x % 65536).toNat

/-- The conversion of an `int` to `uint8_t` at an assignment. -/
def to_uint8 (x : Int) : uint8_t :=
  Fin.ofNat (x % 256).toNat

/-! ## Machine integers -/

/-- The `w`-bit two's complement `int` that the mathematical result `x` becomes. -/
def wrapInt (w : Nat) (x : Int) : Int :=
  (x + 2 ^ (w - 1)) % 2 ^ w - 2 ^ (w - 1)

/-- The mathematical result `x` is a `w`-bit `int`: computing it does not overflow. -/
def Fits (w : Nat) (x : Int) : Prop := -(2 ^ (w - 1)) ≤ x ∧ x < 2 ^ (w - 1)

instance (w : Nat) (x : Int) : Decidable (Fits w x) := by
  unfold Fits; infer_instance

/-! ## TCP backend (`libmodbus/modbus-tcp.cpp`) -/

/-- The request context `sft_t` of `modbus-private.h`. -/
structure sft_t where
  slave : Int
  function : Int
  t_id : Int
  deriving DecidableEq, Repr

/-- The constant `MODBUS_TCP_SLAVE`; its header is not among the sources, the
comment in `_modbus_set_slave` gives the value `0xFF`. -/
def MODBUS_TCP_SLAVE : Int := 0xFF

/-- The constant `UINT16_MAX` of `stdint.h`. -/
def UINT16_MAX : Nat := 65535

/-- Modelled from the spec: the constant `_MODBUS_TCP_PRESET_REQ_LENGTH` of
`modbus-tcp-private.h` is not among the sources; the wire format of section 6
gives 7 header bytes, the function code, the address and the count: 12 bytes. -/
def _MODBUS_TCP_PRESET_REQ_LENGTH : Int := 12

/-- Modelled from the spec: the constant `_MODBUS_TCP_PRESET_RSP_LENGTH` of
`modbus-tcp-private.h` is not among the sources; the wire format of section 6
gives 7 header bytes and the function code: 8 bytes. -/
def _MODBUS_TCP_PRESET_RSP_LENGTH : Int := 8

/-- The function `_modbus_set_slave`, lines 101-116. -/
def _modbus_set_slave (ctx : modbus_t) (slave : Int) : Outcome modbus_t Int :=
  if slave ≥ 0 ∧ slave ≤ 247 then
    { state := { ctx with slave := slave }, errno := none, ret := 0 }
  else if slave = MODBUS_TCP_SLAVE then
    { state := { ctx with slave := slave }, errno := none, ret := 0 }
  else
    { state := ctx, errno := some Errno.EINVAL, ret := -1 }

/-- The function `_modbus_tcp_build_request_basis`, lines 119-152.  The state
it leaves is the context and the buffer `req`. -/
def _modbus_tcp_build_request_basis (ctx : modbus_t) (function addr nb : Int)
    (req : List uint8_t) : Option (Outcome (modbus_t × List uint8_t) Int) := do
  let t_id : Nat :=
    if ctx.backend_data.t_id < UINT16_MAX then ctx.backend_data.t_id + 1 else 0
  let ctx : modbus_t := { ctx with backend_data := { ctx.backend_data with t_id := t_id } }
  let req ← store req 0 (to_uint8 ((t_id : Int) >>> (8 : Nat)))
  let req ← store req 1 (to_uint8 (Int.land (t_id : Int) 0x00ff))
  let req ← store req 2 0
  let req ← store req 3 0
  let req ← store req 6 (to_uint8 ctx.slave)
  let req ← store req 7 (to_uint8 function)
  let req ← store req 8 (to_uint8 (addr >>> (8 : Nat)))
  let req ← store req 9 (to_uint8 (Int.land addr 0x00ff))
  let req ← store req 10 (to_uint8 (nb >>> (8 : Nat)))
  let req ← store req 11 (to_uint8 (Int.land nb 0x00ff))
  pure { state := (ctx, req), errno := none, ret := _MODBUS_TCP_PRESET_REQ_LENGTH }

/-- The function `_modbus_tcp_build_response_basis`, lines 155-175.  The state
it leaves is the buffer `rsp`. -/
def _modbus_tcp_build_response_basis (sft : sft_t) (rsp : List uint8_t) :
    Option (Outcome (List uint8_t) Int) := do
  let rsp ← store rsp 0 (to_uint8 (sft.t_id >>> (8 : Nat)))
  let rsp ← store rsp 1 (to_uint8 (Int.land sft.t_id 0x00ff))
  let rsp ← store rsp 2 0
  let rsp ← store rsp 3 0
  let rsp ← store rsp 6 (to_uint8 sft.slave)
  let rsp ← store rsp 7 (to_uint8 sft.function)
  pure { state := rsp, errno := none, ret := _MODBUS_TCP_PRESET_RSP_LENGTH }

/-- The function `_modbus_tcp_prepare_response_tid`, lines 178-184, where an
`int` has `w` bits; its second parameter is not used.  The bytes are promoted
to `int`, and the function returns the `int` that `(req[0] << 8) + req[1]`
becomes. -/
def _modbus_tcp_prepare_response_tid (w : Nat) (req : List uint8_t) : Option Int := do
  let r0 ← load req 0
  let r1 ← load req 1
  pure (wrapInt w (((r0.val <<< 8 : Nat) : Int) + (r1.val : Int)))

/-- The function `_modbus_tcp_send_msg_pre`, lines 186-195.  The state it
leaves is the buffer `req`. -/
def _modbus_tcp_send_msg_pre (req : List uint8_t) (req_length : Int) :
    Option (Outcome (List uint8_t) Int) := do
  let mbap_length : Int := req_length - 6
  let req ← store req 4 (to_uint8 (mbap_length >>> (8 : Nat)))
  let req ← store req 5 (to_uint8 (Int.land mbap_length 0x00FF))
  pure { state := req, errno := none, ret := req_length }

/-- The function `_modbus_tcp_pre_check_confirmation`, lines 235-262.  Both
buffers are `const`; the state it leaves is the context.  The messages it
prints in debug mode are left out. -/
def _modbus_tcp_pre_check_confirmation (ctx : modbus_t) (req rsp : List uint8_t)
    (_rsp_length : Int) : Option (Outcome modbus_t Int) := do
  let q0 ← load req 0
  let r0 ← load rsp 0
  let mismatch ←
    if q0 ≠ r0 then pure true
    else do
      let q1 ← load req 1
      let r1 ← load rsp 1
      pure (decide (q1 ≠ r1))
  if mismatch then
    pure { state := ctx, errno := some Errno.EMBBADDATA, ret := -1 }
  else
    let r2 ← load rsp 2
    let invalid ←
      if r2 ≠ 0 then do
        let r3 ← load rsp 3
        pure (decide (r3 ≠ 0))
      else pure false
    if invalid then
      pure { state := ctx, errno := some Errno.EMBBADDATA, ret := -1 }
    else
      pure { state := ctx, errno := none, ret := 0 }

/-- One turn of the polling loop of `_modbus_tcp_select`, as the transport
answers it: the byte count `client->available()` returns, the clock reading
`millis()` returns and the flag `client->connected()` returns. -/
structure Poll where
  available : Nat
  millis : Nat
  connected : Bool
  deriving DecidableEq, Repr

/-- The size of `unsigned long` on the Arduino targets: 32 bits. -/
def ULONG_SIZE : Nat := 2 ^ 32

/-- The polling loop of `_modbus_tcp_select`, lines 841-847, run against the
turns `polls` of the transport; it gives the last value of `s_rc`, and `none`
when the turns end before the loop does.  The time elapsed is an
`unsigned long` difference. -/
def _modbus_tcp_select_loop (start wait_time_millis : Nat) (length_to_read : Int) :
    List Poll → Option Int
  | [] => none
  | p :: rest =>
    let s_rc : Int := p.available
    if s_rc ≥ length_to_read then some s_rc
    else if ((p.millis : Int) - (start : Int)) % (ULONG_SIZE : Int) < (wait_time_millis : Int)
        ∧ p.connected = true then
      _modbus_tcp_select_loop start wait_time_millis length_to_read rest
    else some s_rc

/-- The function `_modbus_tcp_select`, lines 830-869, in the branch compiled for
Arduino; its parameter `rset` is not used there.  `tv` is `none` for `NULL`,
`start` is the clock reading taken before the loop and `polls` are the turns of
the transport.  The result is `none` when the turns end before the loop does. -/
def _modbus_tcp_select (ctx : modbus_t) (tv : Option timeval) (length_to_read : Int)
    (start : Nat) (polls : List Poll) : Option (Outcome modbus_t Int) :=
  let wait_time_millis : Nat :=
    match tv with
    | none => 0
    | some tv => ((tv.tv_sec * 1000) + (tv.tv_usec / 1000)) % ULONG_SIZE
  match _modbus_tcp_select_loop start wait_time_millis length_to_read polls with
  | none => none
  | some s_rc =>
    if s_rc = 0 then
      some { state := ctx, errno := some Errno.ETIMEDOUT, ret := -1 }
    else
      some { state := ctx, errno := none, ret := s_rc }

/-- The loop of `_modbus_tcp_flush`, lines 520-522: while `client->available()`
is not zero, `client->read()` takes one byte off the unread input. -/
def _modbus_tcp_flush_loop : List uint8_t → List uint8_t
  | [] => []
  | _ :: rest => _modbus_tcp_flush_loop rest

/-- The function `_modbus_tcp_flush`, lines 515-524, in the branch compiled for
Arduino.  The state it works on and leaves is the unread input of the
connection. -/
def _modbus_tcp_flush (unread : List uint8_t) : Outcome (List uint8_t) Int :=
  { state := _modbus_tcp_flush_loop unread, errno := none, ret := 0 }

/-- Modelled from the spec: `_modbus_init_common` of `modbus.c` is not among the
sources; section 3 gives a closed socket (-1) and response and byte timeouts of
0.5 s (`_RESPONSE_TIMEOUT`, `_BYTE_TIMEOUT`); debug mode and error recovery start
switched off and no unit id is set. -/
def _modbus_init_common (ctx : modbus_t) : modbus_t :=
  { ctx with
    slave := -1, s := -1, debug := 0, error_recovery := 0,
    response_timeout := { tv_sec := 0, tv_usec := 500000 },
    byte_timeout := { tv_sec := 0, tv_usec := 500000 } }

/-- The function `modbus_new_tcp`, lines 923-998, on a target where `malloc`
succeeds.  Every field of the two blocks it allocates is assigned, so what they
held before does not show. -/
def modbus_new_tcp (port : Int) : modbus_t :=
  let ctx : modbus_t :=
    { slave := 0, s := 0, debug := 0, error_recovery := 0,
      response_timeout := { tv_sec := 0, tv_usec := 0 },
      byte_timeout := { tv_sec := 0, tv_usec := 0 },
      backend_data := { port := 0, t_id := 0 } }
  let ctx := _modbus_init_common ctx
  let ctx := { ctx with slave := MODBUS_TCP_SLAVE }
  { ctx with backend_data := { port := port, t_id := 0 } }

/-- Modelled from the spec: `modbus_set_slave` of `modbus.c` is not among the
sources; the engine's set-unit call forwards to the backend's `set_slave`
(section 4.2, `set_unit`). -/
def modbus_set_slave (ctx : modbus_t) (slave : Int) : Outcome modbus_t Int :=
  _modbus_set_slave ctx slave

/-- Modelled from the spec: `modbus_get_slave` of `modbus.c` is not among the
sources; the engine's get-unit call returns the context's unit id. -/
def modbus_get_slave (ctx : modbus_t) : Int :=
  ctx.slave

namespace ModbusServer

/-! ## Construction -/

/-- The constructor `ModbusServer::ModbusServer()`: no backend, and the mapping
set to zero, so every table is unconfigured. -/
def new : ModbusServer :=
  { _mb := none,
    _mbMapping :=
      { nb_bits := 0, start_bits := 0, nb_input_bits := 0, start_input_bits := 0,
        nb_input_registers := 0, start_input_registers := 0, nb_registers := 0,
        start_registers := 0, tab_bits := [], tab_input_bits := [],
        tab_input_registers := [], tab_registers := [] } }

/-! ## Configuration -/

/-- The method `ModbusServer::configureCoils`, lines 67-91.  `heap` says what `realloc` does. -/
def configureCoils (self : ModbusServer) (heap : Heap uint8_t) (startAddress nb : Int) :
    Outcome ModbusServer Int :=
  if startAddress < 0 ∨ nb < 1 then
    { state := self, errno := some Errno.EINVAL, ret := -1 }
  else
    let s : Nat := nb.toNat
    match realloc heap self._mbMapping.tab_bits s with
    | none =>
      { state := { self with _mbMapping :=
          { self._mbMapping with tab_bits := [], start_bits := 0, nb_bits := 0 } },
        errno := none, ret := 0 }
    | some tab =>
      { state := { self with _mbMapping :=
          { self._mbMapping with
            tab_bits := memset tab 0 s, start_bits := startAddress, nb_bits := nb } },
        errno := none, ret := 1 }

/-- The method `ModbusServer::configureDiscreteInputs`, lines 93-117. -/
def configureDiscreteInputs (self : ModbusServer) (heap : Heap uint8_t)
    (startAddress nb : Int) : Outcome ModbusServer Int :=
  if startAddress < 0 ∨ nb < 1 then
    { state := self, errno := some Errno.EINVAL, ret := -1 }
  else
    let s : Nat := nb.toNat
    match realloc heap self._mbMapping.tab_input_bits s with
    | none =>
      { state := { self with _mbMapping :=
          { self._mbMapping with
            tab_input_bits := [], start_input_bits := 0, nb_input_bits := 0 } },
        errno := none, ret := 0 }
    | some tab =>
      { state := { self with _mbMapping :=
          { self._mbMapping with
            tab_input_bits := memset tab 0 s, start_input_bits := startAddress,
            nb_input_bits := nb } },
        errno := none, ret := 1 }

/-- The method `ModbusServer::configureHoldingRegisters`, lines 119-143. -/
def configureHoldingRegisters (self : ModbusServer) (heap : Heap uint16_t)
    (startAddress nb : Int) : Outcome ModbusServer Int :=
  if startAddress < 0 ∨ nb < 1 then
    { state := self, errno := some Errno.EINVAL, ret := -1 }
  else
    let s : Nat := nb.toNat
    match realloc heap self._mbMapping.tab_registers s with
    | none =>
      { state := { self with _mbMapping :=
          { self._mbMapping with tab_registers := [], start_registers := 0, nb_registers := 0 } },
        errno := none, ret := 0 }
    | some tab =>
      { state := { self with _mbMapping :=
          { self._mbMapping with
            tab_registers := memset tab 0 s, start_registers := startAddress,
            nb_registers := nb } },
        errno := none, ret := 1 }

/-- The method `ModbusServer::configureInputRegisters`, lines 145-169. -/
def configureInputRegisters (self : ModbusServer) (heap : Heap uint16_t)
    (startAddress nb : Int) : Outcome ModbusServer Int :=
  if startAddress < 0 ∨ nb < 1 then
    { state := self, errno := some Errno.EINVAL, ret := -1 }
  else
    let s : Nat := nb.toNat
    match realloc heap self._mbMapping.tab_input_registers s with
    | none =>
      { state := { self with _mbMapping :=
          { self._mbMapping with
            tab_input_registers := [], start_input_registers := 0,
            nb_input_registers := 0 } },
        errno := none, ret := 0 }
    | some tab =>
      { state := { self with _mbMapping :=
          { self._mbMapping with
            tab_input_registers := memset tab 0 s, start_input_registers := startAddress,
            nb_input_registers := nb } },
        errno := none, ret := 1 }

/-! ## Reads -/

/-- The method `ModbusServer::coilRead`, lines 171-181, where an `int` has `w`
bits: the sum `start_bits + nb_bits` and the index `address - start_bits` are
taken modulo `2 ^ w`; the test against `address + 1` is the test
`start_bits + nb_bits ≤ address`. -/
def coilRead (w : Nat) (self : ModbusServer) (address : Int) :
    Option (Outcome ModbusServer Int) :=
  if self._mbMapping.start_bits > address ∨
      wrapInt w (self._mbMapping.start_bits + self._mbMapping.nb_bits) < (address + 1) then
    some { state := self, errno := some Errno.EMBXILADD, ret := -1 }
  else
    (load self._mbMapping.tab_bits (wrapInt w (address - self._mbMapping.start_bits))).map
      fun v => { state := self, errno := none, ret := (v.val : Int) }

/-- The method `ModbusServer::discreteInputRead`, lines 183-193, with the `int`
arithmetic of `coilRead`. -/
def discreteInputRead (w : Nat) (self : ModbusServer) (address : Int) :
    Option (Outcome ModbusServer Int) :=
  if self._mbMapping.start_input_bits > address ∨
      wrapInt w (self._mbMapping.start_input_bits + self._mbMapping.nb_input_bits)
        < (address + 1) then
    some { state := self, errno := some Errno.EMBXILADD, ret := -1 }
  else
    (load self._mbMapping.tab_input_bits
        (wrapInt w (address - self._mbMapping.start_input_bits))).map
      fun v => { state := self, errno := none, ret := (v.val : Int) }

/-- The method `ModbusServer::holdingRegisterRead`, lines 195-205, with the
`int` arithmetic of `coilRead`; the result is a `long`. -/
def holdingRegisterRead (w : Nat) (self : ModbusServer) (address : Int) :
    Option (Outcome ModbusServer Int) :=
  if self._mbMapping.start_registers > address ∨
      wrapInt w (self._mbMapping.start_registers + self._mbMapping.nb_registers)
        < (address + 1) then
    some { state := self, errno := some Errno.EMBXILADD, ret := -1 }
  else
    (load self._mbMapping.tab_registers
        (wrapInt w (address - self._mbMapping.start_registers))).map
      fun v => { state := self, errno := none, ret := (v.val : Int) }

/-- The method `ModbusServer::inputRegisterRead`, lines 207-217, with the `int`
arithmetic of `coilRead`; the result is a `long`. -/
def inputRegisterRead (w : Nat) (self : ModbusServer) (address : Int) :
    Option (Outcome ModbusServer Int) :=
  if self._mbMapping.start_input_registers > address ∨
      wrapInt w (self._mbMapping.start_input_registers + self._mbMapping.nb_input_registers)
        < (address + 1) then
    some { state := self, errno := some Errno.EMBXILADD, ret := -1 }
  else
    (load self._mbMapping.tab_input_registers
        (wrapInt w (address - self._mbMapping.start_input_registers))).map
      fun v => { state := self, errno := none, ret := (v.val : Int) }

/-! ## Writes -/

/-- The method `ModbusServer::coilWrite`, lines 219-231, with the `int`
arithmetic of `coilRead`. -/
def coilWrite (w : Nat) (self : ModbusServer) (address : Int) (value : uint8_t) :
    Option (Outcome ModbusServer Int) :=
  if self._mbMapping.start_bits > address ∨
      wrapInt w (self._mbMapping.start_bits + self._mbMapping.nb_bits) < (address + 1) then
    some { state := self, errno := some Errno.EMBXILADD, ret := 0 }
  else
    (store self._mbMapping.tab_bits (wrapInt w (address - self._mbMapping.start_bits))
        value).map
      fun tab =>
        { state := { self with _mbMapping := { self._mbMapping with tab_bits := tab } },
          errno := none, ret := 1 }

/-- The method `ModbusServer::holdingRegisterWrite`, lines 233-245, with the
`int` arithmetic of `coilRead`. -/
def holdingRegisterWrite (w : Nat) (self : ModbusServer) (address : Int) (value : uint16_t) :
    Option (Outcome ModbusServer Int) :=
  if self._mbMapping.start_registers > address ∨
      wrapInt w (self._mbMapping.start_registers + self._mbMapping.nb_registers)
        < (address + 1) then
    some { state := self, errno := some Errno.EMBXILADD, ret := 0 }
  else
    (store self._mbMapping.tab_registers
        (wrapInt w (address - self._mbMapping.start_registers)) value).map
      fun tab =>
        { state := { self with _mbMapping := { self._mbMapping with tab_registers := tab } },
          errno := none, ret := 1 }

/-- The method `ModbusServer::registerMaskWrite`, lines 247-263: read, mask the `long`, write
it back converted to `uint16_t`. -/
def registerMaskWrite (w : Nat) (self : ModbusServer) (address : Int)
    (andMask orMask : uint16_t) : Option (Outcome ModbusServer Int) :=
  match holdingRegisterRead w self address with
  | none => none
  | some r =>
    let value : Int := r.ret
    if value < 0 then
      some { state := r.state, errno := r.errno, ret := 0 }
    else
      let value := Int.land value andMask.val
      let value := Int.lor value orMask.val
      match holdingRegisterWrite w r.state address (to_uint16 value) with
      | none => none
      | some q =>
        if q.ret = 0 then
          some { state := q.state, errno := q.errno <|> r.errno, ret := 0 }
        else
          some { state := q.state, errno := q.errno <|> r.errno, ret := 1 }

/-- The method `ModbusServer::writeDiscreteInputs`, lines 270-282, where an
`int` has `w` bits: the sums `start_input_bits + nb_input_bits` and
`address + nb` and the index `address - start_input_bits` are taken modulo
`2 ^ w`. -/
def writeDiscreteInputs (w : Nat) (self : ModbusServer) (address : Int)
    (values : List uint8_t) (nb : Int) : Option (Outcome ModbusServer Int) :=
  if self._mbMapping.start_input_bits > address ∨
      wrapInt w (self._mbMapping.start_input_bits + self._mbMapping.nb_input_bits)
        < wrapInt w (address + nb) then
    some { state := self, errno := some Errno.EMBXILADD, ret := 0 }
  else
    (memcpy self._mbMapping.tab_input_bits
        (wrapInt w (address - self._mbMapping.start_input_bits)) values nb).map
      fun tab =>
        { state := { self with _mbMapping := { self._mbMapping with tab_input_bits := tab } },
          errno := none, ret := 1 }

/-- The method `ModbusServer::discreteInputWrite`, lines 265-268. -/
def discreteInputWrite (w : Nat) (self : ModbusServer) (address : Int) (value : uint8_t) :
    Option (Outcome ModbusServer Int) :=
  writeDiscreteInputs w self address [value] 1

/-- The method `ModbusServer::writeInputRegisters`, lines 289-301, with the
`int` arithmetic of `writeDiscreteInputs`. -/
def writeInputRegisters (w : Nat) (self : ModbusServer) (address : Int)
    (values : List uint16_t) (nb : Int) : Option (Outcome ModbusServer Int) :=
  if self._mbMapping.start_input_registers > address ∨
      wrapInt w (self._mbMapping.start_input_registers + self._mbMapping.nb_input_registers)
        < wrapInt w (address + nb) then
    some { state := self, errno := some Errno.EMBXILADD, ret := 0 }
  else
    (memcpy self._mbMapping.tab_input_registers
        (wrapInt w (address - self._mbMapping.start_input_registers)) values nb).map
      fun tab =>
        { state := { self with _mbMapping :=
            { self._mbMapping with tab_input_registers := tab } },
          errno := none, ret := 1 }

/-- The method `ModbusServer::inputRegisterWrite`, lines 284-287. -/
def inputRegisterWrite (w : Nat) (self : ModbusServer) (address : Int) (value : uint16_t) :
    Option (Outcome ModbusServer Int) :=
  writeInputRegisters w self address [value] 1

/-! ## Connection -/

/-- The method `ModbusServer::end`, lines 353-379 (`end` is a keyword): the
buffers are freed, the mapping is set to zero and the backend is closed and
freed. -/
def end_ (self : ModbusServer) : ModbusServer :=
  { self with
    _mb := none,
    _mbMapping :=
      { nb_bits := 0, start_bits := 0, nb_input_bits := 0, start_input_bits := 0,
        nb_input_registers := 0, start_input_registers := 0, nb_registers := 0,
        start_registers := 0, tab_bits := [], tab_input_bits := [],
        tab_input_registers := [], tab_registers := [] } }

/-- The method `ModbusServer::setId`, lines 303-315. -/
def setId (self : ModbusServer) (id : Int) : Outcome ModbusServer Int :=
  match self._mb with
  | none => { state := self, errno := none, ret := 0 }
  | some ctx =>
    if id ≥ 1 then
      let r := modbus_set_slave ctx id
      { state := { self with _mb := some r.state }, errno := r.errno, ret := 1 }
    else
      { state := self, errno := none, ret := 1 }

/-- The method `ModbusServer::begin`, lines 317-329; `mb` is `none` for `NULL`. -/
def begin (self : ModbusServer) (mb : Option modbus_t) (id : Int) :
    Outcome ModbusServer Int :=
  let self := self.end_
  let self := { self with _mb := mb }
  match self._mb with
  | none => { state := self, errno := none, ret := 0 }
  | some ctx =>
    let r := modbus_set_slave ctx id
    { state := { self with _mb := some r.state }, errno := r.errno, ret := 1 }

/-- The method `ModbusServer::getId`, lines 381-388. -/
def getId (self : ModbusServer) : Int :=
  match self._mb with
  | none => -1
  | some ctx => modbus_get_slave ctx

end ModbusServer

/-! ## Wrap-around throughout

The accessors on a target whose `int` has `w` bits, with every `int` sum and
difference taken modulo `2 ^ w`, the sum `address + 1` included. -/

namespace Wrap

/-- The method `ModbusServer::coilRead` with `w`-bit `int` arithmetic. -/
def coilRead (w : Nat) (self : ModbusServer) (address : Int) :
    Option (Outcome ModbusServer Int) :=
  if self._mbMapping.start_bits > address ∨
      wrapInt w (self._mbMapping.start_bits + self._mbMapping.nb_bits)
        < wrapInt w (address + 1) then
    some { state := self, errno := some Errno.EMBXILADD, ret := -1 }
  else
    (load self._mbMapping.tab_bits (wrapInt w (address - self._mbMapping.start_bits))).map
      fun v => { state := self, errno := none, ret := (v.val : Int) }

/-- The method `ModbusServer::coilWrite` with `w`-bit `int` arithmetic. -/
def coilWrite (w : Nat) (self : ModbusServer) (address : Int) (value : uint8_t) :
    Option (Outcome ModbusServer Int) :=
  if self._mbMapping.start_bits > address ∨
      wrapInt w (self._mbMapping.start_bits + self._mbMapping.nb_bits)
        < wrapInt w (address + 1) then
    some { state := self, errno := some Errno.EMBXILADD, ret := 0 }
  else
    (store self._mbMapping.tab_bits (wrapInt w (address - self._mbMapping.start_bits))
        value).map
      fun tab =>
        { state := { self with _mbMapping := { self._mbMapping with tab_bits := tab } },
          errno := none, ret := 1 }

/-- The method `ModbusServer::writeDiscreteInputs` with `w`-bit `int` arithmetic. -/
def writeDiscreteInputs (w : Nat) (self : ModbusServer) (address : Int)
    (values : List uint8_t) (nb : Int) : Option (Outcome ModbusServer Int) :=
  if self._mbMapping.start_input_bits > address ∨
      wrapInt w (self._mbMapping.start_input_bits + self._mbMapping.nb_input_bits)
        < wrapInt w (address + nb) then
    some { state := self, errno := some Errno.EMBXILADD, ret := 0 }
  else
    (memcpy self._mbMapping.tab_input_bits
        (wrapInt w (address - self._mbMapping.start_input_bits)) values nb).map
      fun tab =>
        { state := { self with _mbMapping := { self._mbMapping with tab_input_bits := tab } },
          errno := none, ret := 1 }

end Wrap

/-! ## Store states -/

/-- The size invariant of the data model: every buffer holds exactly as many
elements as its table's count says. -/
def Sized (m : modbus_mapping_t) : Prop :=
  (m.tab_bits.length : Int) = m.nb_bits ∧
  (m.tab_input_bits.length : Int) = m.nb_input_bits ∧
  (m.tab_input_registers.length : Int) = m.nb_input_registers ∧
  (m.tab_registers.length : Int) = m.nb_registers

instance (m : modbus_mapping_t) : Decidable (Sized m) := by
  unfold Sized; infer_instance

/-- The span `[start, start + count)` of the specification. -/
def InSpan (start count a : Int) : Prop := start ≤ a ∧ a < start + count

instance (start count a : Int) : Decidable (InSpan start count a) := by
  unfold InSpan; infer_instance

/-- The table `(start, count)` ends within the `w`-bit `int`s: its start, its
count and the end `start + count` of its span are `w`-bit `int`s, so the sum the
range checks compute does not overflow. -/
def SpanFits (w : Nat) (start count : Int) : Prop :=
  Fits w start ∧ Fits w count ∧ Fits w (start + count)

instance (w : Nat) (start count : Int) : Decidable (SpanFits w start count) := by
  unfold SpanFits; infer_instance

/-- The read contract of the specification for one table, whose buffer is
`values`: inside the span the call returns the stored element, outside it
fails with the illegal-address error, and it succeeds exactly inside the span. -/
def ReadContract {n : Nat} (start count : Int) (values : List (Fin n)) (self : ModbusServer)
    (a : Int) (result : Option (Outcome ModbusServer Int)) : Prop :=
  (InSpan start count a →
    ∃ v, values[(a - start).toNat]? = some v ∧
      result = some { state := self, errno := none, ret := (v.val : Int) }) ∧
  (¬ InSpan start count a →
    result = some { state := self, errno := some Errno.EMBXILADD, ret := -1 }) ∧
  ((∃ o, result = some o ∧ o.ret ≠ -1) ↔ InSpan start count a)

/-- The single-write contract of the specification for one table, whose buffer
is `values`: the call returns 1 exactly inside the span, and then leaves the
store `put tab`, the old store with this table's buffer replaced by `tab`,
where `tab` is `values` with the element at `a - start` replaced by `v`. -/
def WriteContract {α : Type} (start count : Int) (values : List α)
    (put : List α → ModbusServer) (a : Int) (v : α)
    (result : Option (Outcome ModbusServer Int)) : Prop :=
  ((∃ o, result = some o ∧ o.ret = 1) ↔ InSpan start count a) ∧
  (InSpan start count a →
    ∃ tab, result = some { state := put tab, errno := none, ret := 1 } ∧
      tab.length = values.length ∧
      tab[(a - start).toNat]? = some v ∧
      ∀ j, j ≠ (a - start).toNat → tab[j]? = values[j]?)

/-- The bulk-write contract of the specification for one table, whose buffer is
`values`: the call returns 1 exactly when the span `[a, a + n)` lies in
`[start, start + count)`, and then leaves the store `put tab`, where `tab` is
`values` with the `n` elements from index `a - start` on replaced by the first
`n` elements of `src`. -/
def BulkContract {α : Type} (start count : Int) (values : List α)
    (put : List α → ModbusServer) (a : Int) (src : List α) (n : Int)
    (result : Option (Outcome ModbusServer Int)) : Prop :=
  ((∃ o, result = some o ∧ o.ret = 1) ↔ (start ≤ a ∧ a + n ≤ start + count)) ∧
  (start ≤ a ∧ a + n ≤ start + count →
    ∃ tab, result = some { state := put tab, errno := none, ret := 1 } ∧
      tab.length = values.length ∧
      (∀ i, i < n.toNat → tab[(a - start).toNat + i]? = src[i]?) ∧
      ∀ j, j < (a - start).toNat ∨ (a - start).toNat + n.toNat ≤ j → tab[j]? = values[j]?)

/-- The rejection contract of `configure(start, count)`: the call returns -1
exactly when `start < 0` or `count < 1`, and then leaves the store `self` as
it was, with the invalid-argument error. -/
def RejectContract (self : ModbusServer) (start count : Int)
    (result : Outcome ModbusServer Int) : Prop :=
  (result.ret = -1 ↔ (start < 0 ∨ count < 1)) ∧
  (start < 0 ∨ count < 1 →
    result = { state := self, errno := some Errno.EINVAL, ret := -1 })

/-- The reset contract of a `configure(start, count)` that obtains its buffer:
the call returns 1 and leaves the store `put tab`, the old store with this
table's buffer replaced by `tab` and its coordinates by `(start, count)`, where
`tab` has exactly `count` elements, all zero; and then `read` returns 0 at every
address of the span. -/
def ResetContract {α : Type} (zero : α) (start count : Int) (put : List α → ModbusServer)
    (read : ModbusServer → Int → Option (Outcome ModbusServer Int))
    (result : Outcome ModbusServer Int) : Prop :=
  ∃ tab, result = { state := put tab, errno := none, ret := 1 } ∧
    (tab.length : Int) = count ∧ (∀ v ∈ tab, v = zero) ∧
    ∀ a, InSpan start count a →
      read (put tab) a = some { state := put tab, errno := none, ret := 0 }

/-- The three results of `configure(start, count)`: -1 exactly for an invalid
argument, 0 exactly when a valid call finds no memory, 1 exactly when a valid
call obtains its buffer; and after the result 0 the store is `unconfigured`,
on which `read` fails at every address. -/
def TriStateContract (succeeds : Bool) (start count : Int) (unconfigured : ModbusServer)
    (read : ModbusServer → Int → Option (Outcome ModbusServer Int))
    (result : Outcome ModbusServer Int) : Prop :=
  (result.ret = -1 ↔ (start < 0 ∨ count < 1)) ∧
  (result.ret = 0 ↔ (0 ≤ start ∧ 1 ≤ count ∧ succeeds = false)) ∧
  (result.ret = 1 ↔ (0 ≤ start ∧ 1 ≤ count ∧ succeeds = true)) ∧
  (0 ≤ start → 1 ≤ count → succeeds = false →
    result = { state := unconfigured, errno := none, ret := 0 } ∧
    ∀ a, read unconfigured a =
      some { state := unconfigured, errno := some Errno.EMBXILADD, ret := -1 })

/-- What a caller sees of a read: the error it set and the value it returned. -/
def answer (r : Outcome ModbusServer Int) : Option Errno × Int := (r.errno, r.ret)

/-- The round trip of a single write of `v` at `a`, whose outcome is `result`,
on the store `self`: the write returns 1, `read` at `a` then returns `v`, and
`read` at every other address answers what it answered before the write. -/
def RoundTrip (v : Int) (a : Int)
    (read : ModbusServer → Int → Option (Outcome ModbusServer Int)) (self : ModbusServer)
    (result : Option (Outcome ModbusServer Int)) : Prop :=
  ∃ o, result = some o ∧ o.ret = 1 ∧
    read o.state a = some { state := o.state, errno := none, ret := v } ∧
    ∀ b, b ≠ a → (read o.state b).map answer = (read self b).map answer

/-- The byte at index `i` of a buffer, as a number. -/
def byteAt (buf : List uint8_t) (i : Nat) : Int := ((buf.getD i 0).val : Int)

/-- The transaction id that follows `t`. -/
def next_t_id (t : Nat) : Nat := if t < UINT16_MAX then t + 1 else 0

/-- The unit ids of the TCP backend: `[0, 247]` and the value 255. -/
def ValidUnit (id : Int) : Prop := (0 ≤ id ∧ id ≤ 247) ∨ id = 255

instance (id : Int) : Decidable (ValidUnit id) := by
  unfold ValidUnit; infer_instance

/-- The layout of a request header written into the buffer `old`, giving `r`:
transaction id in bytes 0 and 1 (big-endian), protocol id 0 in bytes 2 and 3,
unit id in byte 6, function in byte 7, address in bytes 8 and 9, count in bytes
10 and 11; the length bytes 4 and 5 and the bytes from index 12 on are those of
`old`. -/
def RequestHeader (t_id unit function addr nb : Int) (old r : List uint8_t) : Prop :=
  r.length = old.length ∧
  256 * byteAt r 0 + byteAt r 1 = t_id ∧
  byteAt r 2 = 0 ∧ byteAt r 3 = 0 ∧
  byteAt r 6 = unit ∧ byteAt r 7 = function ∧
  256 * byteAt r 8 + byteAt r 9 = addr ∧ 256 * byteAt r 10 + byteAt r 11 = nb ∧
  r[4]? = old[4]? ∧ r[5]? = old[5]? ∧ ∀ j, 12 ≤ j → r[j]? = old[j]?

/-- The layout of a response header written into the buffer `old`, giving `r`,
in answer to the request `req`: bytes 0, 1, 6 and 7 are those of `req`, the
protocol id bytes 2 and 3 are 0; the length bytes 4 and 5 and the bytes from
index 8 on are those of `old`. -/
def ResponseHeader (req old r : List uint8_t) : Prop :=
  r.length = old.length ∧
  byteAt r 0 = byteAt req 0 ∧ byteAt r 1 = byteAt req 1 ∧
  byteAt r 2 = 0 ∧ byteAt r 3 = 0 ∧
  byteAt r 6 = byteAt req 6 ∧ byteAt r 7 = byteAt req 7 ∧
  r[4]? = old[4]? ∧ r[5]? = old[5]? ∧ ∀ j, 8 ≤ j → r[j]? = old[j]?

/-- The transaction ids that successive requests carry in their headers: each
call of `_modbus_tcp_build_request_basis`, with the arguments `(function, addr,
nb)` of the list, works on the context and the buffer the call before left. -/
def request_ids (ctx : modbus_t) (req : List uint8_t) :
    List (Int × Int × Int) → Option (List Int)
  | [] => some []
  | (function, addr, nb) :: rest =>
    match _modbus_tcp_build_request_basis ctx function addr nb req with
    | none => none
    | some o =>
      match request_ids o.state.1 o.state.2 rest with
      | none => none
      | some ids => some ((256 * byteAt o.state.2 0 + byteAt o.state.2 1) :: ids)

/-- The contexts that calls on a context made by `modbus_new_tcp` lead to:
set-unit calls, the `begin` and `setId` of a server holding the context, and
request header building, all with any arguments.  Response header building
takes no context. -/
inductive CtxReachable : modbus_t → Prop where
  | new_tcp (port : Int) : CtxReachable (modbus_new_tcp port)
  | set_slave (ctx : modbus_t) (id : Int) :
      CtxReachable ctx → CtxReachable (_modbus_set_slave ctx id).state
  | begin (self : ModbusServer) (ctx ctx' : modbus_t) (id : Int) :
      CtxReachable ctx → (self.begin (some ctx) id).state._mb = some ctx' → CtxReachable ctx'
  | setId (self : ModbusServer) (ctx ctx' : modbus_t) (id : Int) :
      CtxReachable ctx → self._mb = some ctx → (self.setId id).state._mb = some ctx' →
      CtxReachable ctx'
  | build_request (ctx : modbus_t) (function addr nb : Int) (req : List uint8_t)
      (o : Outcome (modbus_t × List uint8_t) Int) :
      CtxReachable ctx → _modbus_tcp_build_request_basis ctx function addr nb req = some o →
      CtxReachable o.state.1

/-- A server with a TCP backend installed, unit id 17. -/
def tcpServer : ModbusServer :=
  { _mb := some { modbus_new_tcp 502 with slave := 17 },
    _mbMapping := ModbusServer.new._mbMapping }

/-- A request buffer of 12 bytes. -/
def sampleRequest : List uint8_t := [9, 9, 9, 9, 9, 9, 9, 9, 9, 9, 9, 9]

/-! ## Waiting for data -/

/-- The budget `wait_time_millis` that `_modbus_tcp_select` derives from its
timeout: 0 for a null timeout, else the milliseconds of `tv` as an
`unsigned long`. -/
def waitTime (tv : Option timeval) : Nat :=
  match tv with
  | none => 0
  | some tv => ((tv.tv_sec * 1000) + (tv.tv_usec / 1000)) % ULONG_SIZE

/-- The turn `p` ends the polling loop: at least `length_to_read` bytes are
available, or the budget `wait` has elapsed since `start`, or the connection is
gone. -/
def Stops (start wait : Nat) (length_to_read : Int) (p : Poll) : Prop :=
  (p.available : Int) ≥ length_to_read ∨
    ¬ (((p.millis : Int) - (start : Int)) % (ULONG_SIZE : Int) < (wait : Int) ∧
      p.connected = true)

instance (start wait : Nat) (length_to_read : Int) (p : Poll) :
    Decidable (Stops start wait length_to_read p) := by
  unfold Stops; infer_instance

/-- The last turn the loop polls: the first turn of the transport that ends it. -/
def lastPoll (start wait : Nat) (length_to_read : Int) (polls : List Poll) : Option Poll :=
  polls.find? fun p => decide (Stops start wait length_to_read p)

/-! ## Table frames -/

/-- Every lookup of the unconfigured store `s` is rejected, where an `int` has
`w` bits: at every address each read returns -1 and `coilWrite`,
`holdingRegisterWrite` and the mask write return 0; `discreteInputWrite` and
`inputRegisterWrite` return 0 at every address `a` whose successor is an `int`,
and the bulk writes of `n ≥ 1` elements return 0 wherever `a + n` is an `int`;
all with the illegal-address error and the store unchanged.  A bulk write of
`n = 0` elements at an `int` address is rejected in the same way except at
address 0, where it returns 1 and copies nothing. -/
def RejectsAll (w : Nat) (s : ModbusServer) : Prop :=
  ∀ a : Int,
    s.coilRead w a = some { state := s, errno := some Errno.EMBXILADD, ret := -1 } ∧
    s.discreteInputRead w a = some { state := s, errno := some Errno.EMBXILADD, ret := -1 } ∧
    s.holdingRegisterRead w a =
      some { state := s, errno := some Errno.EMBXILADD, ret := -1 } ∧
    s.inputRegisterRead w a = some { state := s, errno := some Errno.EMBXILADD, ret := -1 } ∧
    (∀ v, s.coilWrite w a v = some { state := s, errno := some Errno.EMBXILADD, ret := 0 }) ∧
    (∀ v, s.holdingRegisterWrite w a v =
      some { state := s, errno := some Errno.EMBXILADD, ret := 0 }) ∧
    (∀ andMask orMask, s.registerMaskWrite w a andMask orMask =
      some { state := s, errno := some Errno.EMBXILADD, ret := 0 }) ∧
    (Fits w (a + 1) → ∀ v, s.discreteInputWrite w a v =
      some { state := s, errno := some Errno.EMBXILADD, ret := 0 }) ∧
    (Fits w (a + 1) → ∀ v, s.inputRegisterWrite w a v =
      some { state := s, errno := some Errno.EMBXILADD, ret := 0 }) ∧
    (∀ values n, 1 ≤ n → Fits w (a + n) → s.writeDiscreteInputs w a values n =
      some { state := s, errno := some Errno.EMBXILADD, ret := 0 }) ∧
    (∀ values n, 1 ≤ n → Fits w (a + n) → s.writeInputRegisters w a values n =
      some { state := s, errno := some Errno.EMBXILADD, ret := 0 }) ∧
    (Fits w a → ∀ values, s.writeDiscreteInputs w a values 0 =
      if a = 0 then some { state := s, errno := none, ret := 1 }
      else some { state := s, errno := some Errno.EMBXILADD, ret := 0 }) ∧
    (Fits w a → ∀ values, s.writeInputRegisters w a values 0 =
      if a = 0 then some { state := s, errno := none, ret := 1 }
      else some { state := s, errno := some Errno.EMBXILADD, ret := 0 })

/-- All four tables of the mapping are unconfigured: `(start, count) = (0, 0)`
and no contents. -/
def Unconfigured (m : modbus_mapping_t) : Prop :=
  m.start_bits = 0 ∧ m.nb_bits = 0 ∧ m.tab_bits = [] ∧
  m.start_input_bits = 0 ∧ m.nb_input_bits = 0 ∧ m.tab_input_bits = [] ∧
  m.start_registers = 0 ∧ m.nb_registers = 0 ∧ m.tab_registers = [] ∧
  m.start_input_registers = 0 ∧ m.nb_input_registers = 0 ∧ m.tab_input_registers = []

instance (m : modbus_mapping_t) : Decidable (Unconfigured m) := by
  unfold Unconfigured; infer_instance

/-- The in-band failure value of a read is unambiguous: inside the span the
call returns a value in `[0, max]`, and whatever it returns is -1, or negative,
exactly when the address is outside the span. -/
def InBand (start count max a : Int) (result : Option (Outcome ModbusServer Int)) : Prop :=
  (InSpan start count a → ∃ o, result = some o ∧ 0 ≤ o.ret ∧ o.ret ≤ max) ∧
  (∀ o, result = some o → (o.ret = -1 ↔ ¬ InSpan start count a)) ∧
  (∀ o, result = some o → (o.ret < 0 ↔ ¬ InSpan start count a))

/-- What a read returns tells whether its range check passed: the result is in
`[-1, max]`, and it is -1, or negative, exactly when the call set the
illegal-address error, which is when the check rejected the address. -/
def Checked (max : Int) (result : Option (Outcome ModbusServer Int)) : Prop :=
  ∀ o, result = some o →
    (o.errno = none ∨ o.errno = some Errno.EMBXILADD) ∧
    -1 ≤ o.ret ∧ o.ret ≤ max ∧
    (o.ret = -1 ↔ o.errno = some Errno.EMBXILADD) ∧
    (o.ret < 0 ↔ o.errno = some Errno.EMBXILADD)

/-! ## Example states -/

/-- A new server whose holding registers were configured with `(100, 10)` and
then written with 42 at address 105. -/
def writtenRegisters : ModbusServer :=
  { _mb := none,
    _mbMapping :=
      { nb_bits := 0, start_bits := 0, nb_input_bits := 0, start_input_bits := 0,
        nb_input_registers := 0, start_input_registers := 0, nb_registers := 10,
        start_registers := 100, tab_bits := [], tab_input_bits := [],
        tab_input_registers := [], tab_registers := [0, 0, 0, 0, 0, 42, 0, 0, 0, 0] } }

/-- A store with four configured tables: coils `(0, 4)`, discrete inputs
`(10, 3)`, input registers `(20, 2)` and holding registers `(100, 10)`. -/
def sampleServer : ModbusServer :=
  { _mb := none,
    _mbMapping :=
      { nb_bits := 4, start_bits := 0, nb_input_bits := 3, start_input_bits := 10,
        nb_input_registers := 2, start_input_registers := 20, nb_registers := 10,
        start_registers := 100, tab_bits := [1, 0, 1, 1], tab_input_bits := [0, 1, 0],
        tab_input_registers := [7, 8],
        tab_registers := [65535, 1, 2, 3, 4, 5, 6, 7, 8, 9] } }

/-- A new server whose four tables were configured with `(2147483640, 8)`: each
table ends at address 2147483648, one past the `INT_MAX` of a 32-bit `int`. -/
def topServer : ModbusServer :=
  { _mb := none,
    _mbMapping :=
      { nb_bits := 8, start_bits := 2147483640, nb_input_bits := 8,
        start_input_bits := 2147483640, nb_input_registers := 8,
        start_input_registers := 2147483640, nb_registers := 8,
        start_registers := 2147483640, tab_bits := [0, 0, 0, 0, 0, 0, 0, 0],
        tab_input_bits := [0, 0, 0, 0, 0, 0, 0, 0],
        tab_input_registers := [0, 0, 0, 0, 0, 0, 0, 0],
        tab_registers := [0, 0, 0, 0, 0, 0, 0, 0] } }

/-- An allocator that finds a block, filled with `junk`. -/
def heapOk {α : Type} (junk : α) : Heap α := { succeeds := true, junk := fun _ => junk }

/-- An allocator that is out of memory. -/
def heapFull {α : Type} (junk : α) : Heap α := { succeeds := false, junk := fun _ => junk }

open ModbusServer

/-! ## Buffers -/

theorem load_of_lt {α : Type} (tab : List α) (i : Int) (h0 : 0 ≤ i) (h1 : i < tab.length) :
    ∃ v, tab[i.toNat]? = some v ∧ load tab i = some v := by
  have hlt : i.toNat < tab.length := by omega
  refine ⟨tab[i.toNat], ?_, ?_⟩
  · simp [hlt]
  · simp [load, h0, hlt]

theorem store_of_lt {α : Type} (tab : List α) (i : Int) (v : α) (h0 : 0 ≤ i)
    (h1 : i < tab.length) : store tab i v = some (tab.set i.toNat v) := by
  simp [store, h0, h1]

theorem set_spec {α : Type} (tab : List α) (k : Nat) (v : α) (hk : k < tab.length) :
    (tab.set k v).length = tab.length ∧ (tab.set k v)[k]? = some v ∧
      ∀ j, j ≠ k → (tab.set k v)[j]? = tab[j]? := by
  refine ⟨List.length_set _ _ _, ?_, ?_⟩
  · simp [List.getElem?_set, hk]
  · intro j hj
    rw [List.getElem?_set, if_neg (Ne.symm hj)]

theorem memcpy_of_fits {α : Type} (tab : List α) (i : Int) (values : List α) (nb : Int)
    (h0 : 0 ≤ i) (h1 : 0 ≤ nb) (h2 : i + nb ≤ tab.length) (h3 : nb ≤ values.length) :
    memcpy tab i values nb =
      some (tab.take i.toNat ++ (values.take nb.toNat ++ tab.drop (i.toNat + nb.toNat))) := by
  simp [memcpy, h0, h1, h2, h3]

theorem splice_spec {α : Type} (tab values : List α) (k n : Nat) (hk : k + n ≤ tab.length)
    (hn : n ≤ values.length) :
    (tab.take k ++ (values.take n ++ tab.drop (k + n))).length = tab.length ∧
    (∀ i, i < n → (tab.take k ++ (values.take n ++ tab.drop (k + n)))[k + i]? = values[i]?) ∧
    (∀ j, j < k ∨ k + n ≤ j →
      (tab.take k ++ (values.take n ++ tab.drop (k + n)))[j]? = tab[j]?) := by
  have hlk : (tab.take k).length = k := by simp; omega
  have hln : (values.take n).length = n := by simp; omega
  refine ⟨?_, ?_, ?_⟩
  · simp; omega
  · intro i hi
    rw [List.getElem?_append, hlk, if_neg (by omega), List.getElem?_append, hln]
    have : k + i - k = i := by omega
    rw [this, if_pos hi, List.getElem?_take, if_pos hi]
  · intro j hj
    rcases hj with hj | hj
    · rw [List.getElem?_append, hlk, if_pos hj, List.getElem?_take, if_pos hj]
    · rw [List.getElem?_append, hlk, if_neg (by omega), List.getElem?_append, hln,
        if_neg (by omega), List.getElem?_drop]
      congr 1
      omega

/-! ## Range check, then index -/

theorem wrapInt_of_fits (w : Nat) (hw : 1 ≤ w) (x : Int) (hx : Fits w x) : wrapInt w x = x := by
  unfold Fits at hx
  unfold wrapInt
  have h2 : (2 : Int) ^ w = 2 * 2 ^ (w - 1) := by
    obtain ⟨k, rfl⟩ : ∃ k, w = k + 1 := ⟨w - 1, by omega⟩
    simp [pow_succ]
    ring
  rw [Int.emod_eq_of_lt (by omega) (by omega)]
  omega

/-- On a table that ends within the `int`s, the range check of a single access
and the index it computes are those of the mathematical integers. -/
theorem checked_index {β : Type} (w : Nat) (hw : 1 ≤ w) (start count a : Int)
    (hfit : SpanFits w start count) (fail : β) (f : Int → Option β) :
    (if start > a ∨ wrapInt w (start + count) < (a + 1) then some fail
      else f (wrapInt w (a - start))) =
    (if start > a ∨ (start + count) < (a + 1) then some fail else f (a - start)) := by
  rw [wrapInt_of_fits w hw _ hfit.2.2]
  by_cases hc : start > a ∨ (start + count) < (a + 1)
  · rw [if_pos hc, if_pos hc]
  · have hcount := hfit.2.1
    unfold Fits at hcount
    have hi : Fits w (a - start) := by
      unfold Fits
      constructor <;> omega
    rw [if_neg hc, if_neg hc, wrapInt_of_fits w hw _ hi]

/-- On a table that ends within the `int`s, the range check of a bulk access of
`n ≥ 0` elements whose end `a + n` is an `int`, and the index it computes, are
those of the mathematical integers. -/
theorem checked_span {β : Type} (w : Nat) (hw : 1 ≤ w) (start count a n : Int)
    (hn : 0 ≤ n) (hfit : SpanFits w start count) (han : Fits w (a + n))
    (fail : β) (f : Int → Option β) :
    (if start > a ∨ wrapInt w (start + count) < wrapInt w (a + n) then some fail
      else f (wrapInt w (a - start))) =
    (if start > a ∨ (start + count) < (a + n) then some fail else f (a - start)) := by
  rw [wrapInt_of_fits w hw _ hfit.2.2, wrapInt_of_fits w hw _ han]
  by_cases hc : start > a ∨ (start + count) < (a + n)
  · rw [if_pos hc, if_pos hc]
  · have hcount := hfit.2.1
    unfold Fits at hcount
    have hi : Fits w (a - start) := by
      unfold Fits
      constructor <;> omega
    rw [if_neg hc, if_neg hc, wrapInt_of_fits w hw _ hi]

theorem readContract_of_check {n : Nat} (start count : Int) (values : List (Fin n))
    (self : ModbusServer) (a : Int) (hlen : (values.length : Int) = count) :
    ReadContract start count values self a
      (if start > a ∨ (start + count) < (a + 1) then
        some { state := self, errno := some Errno.EMBXILADD, ret := -1 }
      else
        (load values (a - start)).map
          fun v => { state := self, errno := none, ret := (v.val : Int) }) := by
  by_cases hin : InSpan start count a
  · have hc : ¬ (start > a ∨ (start + count) < (a + 1)) := by
      unfold InSpan at hin; omega
    obtain ⟨v, hv, hl⟩ := load_of_lt values (a - start) (by unfold InSpan at hin; omega)
      (by unfold InSpan at hin; omega)
    refine ⟨fun _ => ⟨v, hv, by simp [hc, hl]⟩, fun h => absurd hin h, ?_⟩
    constructor
    · intro _; exact hin
    · intro _
      refine ⟨_, by rw [if_neg hc, hl]; rfl, ?_⟩
      simp only [ne_eq]
      omega
  · have hc : start > a ∨ (start + count) < (a + 1) := by
      unfold InSpan at hin; omega
    refine ⟨fun h => absurd h hin, fun _ => by simp [hc], ?_⟩
    constructor
    · rintro ⟨o, ho, hne⟩
      rw [if_pos hc] at ho
      cases ho
      exact absurd rfl hne
    · intro h; exact absurd h hin

theorem writeContract_of_check {α : Type} (start count : Int) (values : List α)
    (self : ModbusServer) (put : List α → ModbusServer) (a : Int) (v : α)
    (hlen : (values.length : Int) = count) :
    WriteContract start count values put a v
      (if start > a ∨ (start + count) < (a + 1) then
        some { state := self, errno := some Errno.EMBXILADD, ret := 0 }
      else
        (store values (a - start) v).map
          fun tab => { state := put tab, errno := none, ret := 1 }) := by
  by_cases hin : InSpan start count a
  · have hc : ¬ (start > a ∨ (start + count) < (a + 1)) := by
      unfold InSpan at hin; omega
    have hst := store_of_lt values (a - start) v (by unfold InSpan at hin; omega)
      (by unfold InSpan at hin; omega)
    have hk : (a - start).toNat < values.length := by unfold InSpan at hin; omega
    obtain ⟨h1, h2, h3⟩ := set_spec values (a - start).toNat v hk
    rw [if_neg hc, hst]
    exact ⟨⟨fun _ => hin, fun _ => ⟨_, rfl, rfl⟩⟩, fun _ => ⟨_, rfl, h1, h2, h3⟩⟩
  · have hc : start > a ∨ (start + count) < (a + 1) := by
      unfold InSpan at hin; omega
    rw [if_pos hc]
    refine ⟨⟨?_, fun h => absurd h hin⟩, fun h => absurd h hin⟩
    rintro ⟨o, ho, h1⟩
    cases ho
    simp at h1

theorem bulkContract_of_check {α : Type} (start count : Int) (values : List α)
    (self : ModbusServer) (put : List α → ModbusServer) (a : Int) (src : List α) (n : Int)
    (hlen : (values.length : Int) = count) (hn : 1 ≤ n) (hsrc : n ≤ src.length) :
    BulkContract start count values put a src n
      (if start > a ∨ (start + count) < (a + n) then
        some { state := self, errno := some Errno.EMBXILADD, ret := 0 }
      else
        (memcpy values (a - start) src n).map
          fun tab => { state := put tab, errno := none, ret := 1 }) := by
  by_cases hin : start ≤ a ∧ a + n ≤ start + count
  · have hc : ¬ (start > a ∨ (start + count) < (a + n)) := by omega
    have hcp := memcpy_of_fits values (a - start) src n (by omega) (by omega) (by omega) hsrc
    obtain ⟨h1, h2, h3⟩ := splice_spec values src (a - start).toNat n.toNat (by omega)
      (by omega)
    rw [if_neg hc, hcp]
    exact ⟨⟨fun _ => hin, fun _ => ⟨_, rfl, rfl⟩⟩, fun _ => ⟨_, rfl, h1, h2, h3⟩⟩
  · have hc : start > a ∨ (start + count) < (a + n) := by omega
    rw [if_pos hc]
    refine ⟨⟨?_, fun h => absurd h hin⟩, fun h => absurd h hin⟩
    rintro ⟨o, ho, h1⟩
    cases ho
    simp at h1

theorem coilRead_eq (w : Nat) (hw : 1 ≤ w) (self : ModbusServer) (a : Int)
    (hfit : SpanFits w self._mbMapping.start_bits self._mbMapping.nb_bits) :
    self.coilRead w a =
      if self._mbMapping.start_bits > a ∨
          (self._mbMapping.start_bits + self._mbMapping.nb_bits) < (a + 1) then
        some { state := self, errno := some Errno.EMBXILADD, ret := -1 }
      else
        (load self._mbMapping.tab_bits (a - self._mbMapping.start_bits)).map
          fun v => { state := self, errno := none, ret := (v.val : Int) } := by
  unfold coilRead
  exact checked_index w hw _ _ a hfit _
    (fun i => (load self._mbMapping.tab_bits i).map
      fun v =>
        ({ state := self, errno := none, ret := (v.val : Int) } : Outcome ModbusServer Int))

theorem discreteInputRead_eq (w : Nat) (hw : 1 ≤ w) (self : ModbusServer) (a : Int)
    (hfit : SpanFits w self._mbMapping.start_input_bits self._mbMapping.nb_input_bits) :
    self.discreteInputRead w a =
      if self._mbMapping.start_input_bits > a ∨
          (self._mbMapping.start_input_bits + self._mbMapping.nb_input_bits) < (a + 1) then
        some { state := self, errno := some Errno.EMBXILADD, ret := -1 }
      else
        (load self._mbMapping.tab_input_bits (a - self._mbMapping.start_input_bits)).map
          fun v => { state := self, errno := none, ret := (v.val : Int) } := by
  unfold discreteInputRead
  exact checked_index w hw _ _ a hfit _
    (fun i => (load self._mbMapping.tab_input_bits i).map
      fun v =>
        ({ state := self, errno := none, ret := (v.val : Int) } : Outcome ModbusServer Int))

theorem holdingRegisterRead_eq (w : Nat) (hw : 1 ≤ w) (self : ModbusServer) (a : Int)
    (hfit : SpanFits w self._mbMapping.start_registers self._mbMapping.nb_registers) :
    self.holdingRegisterRead w a =
      if self._mbMapping.start_registers > a ∨
          (self._mbMapping.start_registers + self._mbMapping.nb_registers) < (a + 1) then
        some { state := self, errno := some Errno.EMBXILADD, ret := -1 }
      else
        (load self._mbMapping.tab_registers (a - self._mbMapping.start_registers)).map
          fun v => { state := self, errno := none, ret := (v.val : Int) } := by
  unfold holdingRegisterRead
  exact checked_index w hw _ _ a hfit _
    (fun i => (load self._mbMapping.tab_registers i).map
      fun v =>
        ({ state := self, errno := none, ret := (v.val : Int) } : Outcome ModbusServer Int))

theorem inputRegisterRead_eq (w : Nat) (hw : 1 ≤ w) (self : ModbusServer) (a : Int)
    (hfit : SpanFits w self._mbMapping.start_input_registers
      self._mbMapping.nb_input_registers) :
    self.inputRegisterRead w a =
      if self._mbMapping.start_input_registers > a ∨
          (self._mbMapping.start_input_registers + self._mbMapping.nb_input_registers)
            < (a + 1) then
        some { state := self, errno := some Errno.EMBXILADD, ret := -1 }
      else
        (load self._mbMapping.tab_input_registers
            (a - self._mbMapping.start_input_registers)).map
          fun v => { state := self, errno := none, ret := (v.val : Int) } := by
  unfold inputRegisterRead
  exact checked_index w hw _ _ a hfit _
    (fun i => (load self._mbMapping.tab_input_registers i).map
      fun v =>
        ({ state := self, errno := none, ret := (v.val : Int) } : Outcome ModbusServer Int))

theorem coilWrite_eq (w : Nat) (hw : 1 ≤ w) (self : ModbusServer) (a : Int) (v : uint8_t)
    (hfit : SpanFits w self._mbMapping.start_bits self._mbMapping.nb_bits) :
    self.coilWrite w a v =
      if self._mbMapping.start_bits > a ∨
          (self._mbMapping.start_bits + self._mbMapping.nb_bits) < (a + 1) then
        some { state := self, errno := some Errno.EMBXILADD, ret := 0 }
      else
        (store self._mbMapping.tab_bits (a - self._mbMapping.start_bits) v).map
          fun tab =>
            { state := { self with _mbMapping := { self._mbMapping with tab_bits := tab } },
              errno := none, ret := 1 } := by
  unfold coilWrite
  exact checked_index w hw _ _ a hfit _
    (fun i => (store self._mbMapping.tab_bits i v).map
      fun tab =>
        ({ state := { self with _mbMapping := { self._mbMapping with tab_bits := tab } },
           errno := none, ret := 1 } : Outcome ModbusServer Int))

theorem holdingRegisterWrite_eq (w : Nat) (hw : 1 ≤ w) (self : ModbusServer) (a : Int)
    (v : uint16_t)
    (hfit : SpanFits w self._mbMapping.start_registers self._mbMapping.nb_registers) :
    self.holdingRegisterWrite w a v =
      if self._mbMapping.start_registers > a ∨
          (self._mbMapping.start_registers + self._mbMapping.nb_registers) < (a + 1) then
        some { state := self, errno := some Errno.EMBXILADD, ret := 0 }
      else
        (store self._mbMapping.tab_registers (a - self._mbMapping.start_registers) v).map
          fun tab =>
            { state := { self with _mbMapping := { self._mbMapping with tab_registers := tab } },
              errno := none, ret := 1 } := by
  unfold holdingRegisterWrite
  exact checked_index w hw _ _ a hfit _
    (fun i => (store self._mbMapping.tab_registers i v).map
      fun tab =>
        ({ state := { self with _mbMapping := { self._mbMapping with tab_registers := tab } },
           errno := none, ret := 1 } : Outcome ModbusServer Int))

theorem writeDiscreteInputs_eq (w : Nat) (hw : 1 ≤ w) (self : ModbusServer) (a : Int)
    (values : List uint8_t) (n : Int) (hn : 0 ≤ n)
    (hfit : SpanFits w self._mbMapping.start_input_bits self._mbMapping.nb_input_bits)
    (han : Fits w (a + n)) :
    self.writeDiscreteInputs w a values n =
      if self._mbMapping.start_input_bits > a ∨
          (self._mbMapping.start_input_bits + self._mbMapping.nb_input_bits) < (a + n) then
        some { state := self, errno := some Errno.EMBXILADD, ret := 0 }
      else
        (memcpy self._mbMapping.tab_input_bits (a - self._mbMapping.start_input_bits)
            values n).map
          fun tab =>
            { state := { self with _mbMapping :=
                { self._mbMapping with tab_input_bits := tab } },
              errno := none, ret := 1 } := by
  unfold writeDiscreteInputs
  exact checked_span w hw _ _ a n hn hfit han _
    (fun i => (memcpy self._mbMapping.tab_input_bits i values n).map
      fun tab =>
        ({ state := { self with _mbMapping := { self._mbMapping with tab_input_bits := tab } },
           errno := none, ret := 1 } : Outcome ModbusServer Int))

theorem writeInputRegisters_eq (w : Nat) (hw : 1 ≤ w) (self : ModbusServer) (a : Int)
    (values : List uint16_t) (n : Int) (hn : 0 ≤ n)
    (hfit : SpanFits w self._mbMapping.start_input_registers
      self._mbMapping.nb_input_registers)
    (han : Fits w (a + n)) :
    self.writeInputRegisters w a values n =
      if self._mbMapping.start_input_registers > a ∨
          (self._mbMapping.start_input_registers + self._mbMapping.nb_input_registers)
            < (a + n) then
        some { state := self, errno := some Errno.EMBXILADD, ret := 0 }
      else
        (memcpy self._mbMapping.tab_input_registers
            (a - self._mbMapping.start_input_registers) values n).map
          fun tab =>
            { state := { self with _mbMapping :=
                { self._mbMapping with tab_input_registers := tab } },
              errno := none, ret := 1 } := by
  unfold writeInputRegisters
  exact checked_span w hw _ _ a n hn hfit han _
    (fun i => (memcpy self._mbMapping.tab_input_registers i values n).map
      fun tab =>
        ({ state := { self with _mbMapping :=
             { self._mbMapping with tab_input_registers := tab } },
           errno := none, ret := 1 } : Outcome ModbusServer Int))

/-- C1 (amended). Where an `int` has `w ≥ 16` bits, on every store whose
buffers have their tables' sizes and for every address, each of the four reads
of a table that ends within the `int`s (`start + count ≤ INT_MAX`) returns the
stored element `values[a - start]` when `start ≤ a < start + count` and
otherwise fails with -1 and the illegal-address error; so it succeeds exactly
inside the span. -/
theorem read_contract (w : Nat) (hw : 16 ≤ w) (self : ModbusServer)
    (hs : Sized self._mbMapping) (a : Int) :
    (SpanFits w self._mbMapping.start_bits self._mbMapping.nb_bits →
      ReadContract self._mbMapping.start_bits self._mbMapping.nb_bits
        self._mbMapping.tab_bits self a (self.coilRead w a)) ∧
    (SpanFits w self._mbMapping.start_input_bits self._mbMapping.nb_input_bits →
      ReadContract self._mbMapping.start_input_bits self._mbMapping.nb_input_bits
        self._mbMapping.tab_input_bits self a (self.discreteInputRead w a)) ∧
    (SpanFits w self._mbMapping.start_registers self._mbMapping.nb_registers →
      ReadContract self._mbMapping.start_registers self._mbMapping.nb_registers
        self._mbMapping.tab_registers self a (self.holdingRegisterRead w a)) ∧
    (SpanFits w self._mbMapping.start_input_registers self._mbMapping.nb_input_registers →
      ReadContract self._mbMapping.start_input_registers self._mbMapping.nb_input_registers
        self._mbMapping.tab_input_registers self a (self.inputRegisterRead w a)) := by
  have h1 : 1 ≤ w := by omega
  refine ⟨fun hfit => ?_, fun hfit => ?_, fun hfit => ?_, fun hfit => ?_⟩
  · rw [coilRead_eq w h1 self a hfit]
    exact readContract_of_check _ _ _ self a hs.1
  · rw [discreteInputRead_eq w h1 self a hfit]
    exact readContract_of_check _ _ _ self a hs.2.1
  · rw [holdingRegisterRead_eq w h1 self a hfit]
    exact readContract_of_check _ _ _ self a hs.2.2.2
  · rw [inputRegisterRead_eq w h1 self a hfit]
    exact readContract_of_check _ _ _ self a hs.2.2.1

theorem read_contract_witness :
    16 ≤ 32 ∧ Sized sampleServer._mbMapping ∧ SpanFits 32 100 10 ∧
    ReadContract 100 10 ([65535, 1, 2, 3, 4, 5, 6, 7, 8, 9] : List uint16_t) sampleServer 102
      (sampleServer.holdingRegisterRead 32 102) ∧
    SpanFits 16 100 10 ∧
    ReadContract 100 10 ([65535, 1, 2, 3, 4, 5, 6, 7, 8, 9] : List uint16_t) sampleServer 102
      (sampleServer.holdingRegisterRead 16 102) :=
  ⟨by decide, by decide, by decide,
   (read_contract 32 (by decide) sampleServer (by decide) 102).2.2.1 (by decide), by decide,
   (read_contract 16 (by decide) sampleServer (by decide) 102).2.2.1 (by decide)⟩

/-- C1 as stated fails: with a 32-bit `int`, the coils configured with
`(2147483640, 8)` hold the address 2147483641 in their span, and the read at
that address fails with -1: the sum `start + count` wraps to -2147483648. -/
theorem read_fails_inside_span :
    (ModbusServer.new.configureCoils (heapOk 9) 2147483640 8).ret = 1 ∧
    (ModbusServer.new.configureCoils (heapOk 9) 2147483640 8).state._mbMapping.start_bits =
      2147483640 ∧
    (ModbusServer.new.configureCoils (heapOk 9) 2147483640 8).state._mbMapping.nb_bits = 8 ∧
    (ModbusServer.new.configureCoils (heapOk 9) 2147483640 8).state._mbMapping.tab_bits =
      [0, 0, 0, 0, 0, 0, 0, 0] ∧
    InSpan 2147483640 8 2147483641 ∧
    wrapInt 32 (2147483640 + 8) = -2147483648 ∧
    (ModbusServer.new.configureCoils (heapOk 9) 2147483640 8).state.coilRead 32 2147483641 =
      some { state := (ModbusServer.new.configureCoils (heapOk 9) 2147483640 8).state,
             errno := some Errno.EMBXILADD, ret := -1 } := by
  refine ⟨by decide, by decide, by decide, by decide, by decide, by decide, by decide⟩

/-- C2 (amended). Where an `int` has `w ≥ 16` bits, on every store whose
buffers have their tables' sizes, `coilWrite` and `holdingRegisterWrite` on a
table that ends within the `int`s (`start + count ≤ INT_MAX`) return 1 exactly
when `start ≤ a < start + count`, and then the store is the old one except that
the element at index `a - start` of the written table is `v`. -/
theorem write_contract (w : Nat) (hw : 16 ≤ w) (self : ModbusServer)
    (hs : Sized self._mbMapping) (a : Int) (v8 : uint8_t) (v16 : uint16_t) :
    (SpanFits w self._mbMapping.start_bits self._mbMapping.nb_bits →
      WriteContract self._mbMapping.start_bits self._mbMapping.nb_bits
        self._mbMapping.tab_bits
        (fun tab => { self with _mbMapping := { self._mbMapping with tab_bits := tab } })
        a v8 (self.coilWrite w a v8)) ∧
    (SpanFits w self._mbMapping.start_registers self._mbMapping.nb_registers →
      WriteContract self._mbMapping.start_registers self._mbMapping.nb_registers
        self._mbMapping.tab_registers
        (fun tab => { self with _mbMapping := { self._mbMapping with tab_registers := tab } })
        a v16 (self.holdingRegisterWrite w a v16)) := by
  have h1 : 1 ≤ w := by omega
  refine ⟨fun hfit => ?_, fun hfit => ?_⟩
  · rw [coilWrite_eq w h1 self a v8 hfit]
    exact writeContract_of_check _ _ _ self _ a v8 hs.1
  · rw [holdingRegisterWrite_eq w h1 self a v16 hfit]
    exact writeContract_of_check _ _ _ self _ a v16 hs.2.2.2

theorem write_contract_witness :
    16 ≤ 32 ∧ Sized sampleServer._mbMapping ∧ SpanFits 32 0 4 ∧
    WriteContract 0 4 [1, 0, 1, 1]
      (fun tab =>
        { sampleServer with _mbMapping := { sampleServer._mbMapping with tab_bits := tab } })
      2 0 (sampleServer.coilWrite 32 2 0) ∧
    SpanFits 32 100 10 ∧
    WriteContract 100 10 [65535, 1, 2, 3, 4, 5, 6, 7, 8, 9]
      (fun tab =>
        { sampleServer with
          _mbMapping := { sampleServer._mbMapping with tab_registers := tab } })
      2 42 (sampleServer.holdingRegisterWrite 32 2 42) :=
  ⟨by decide, by decide, by decide,
   (write_contract 32 (by decide) sampleServer (by decide) 2 0 42).1 (by decide), by decide,
   (write_contract 32 (by decide) sampleServer (by decide) 2 0 42).2 (by decide)⟩

/-- C2 as stated fails: with a 32-bit `int`, on a store whose tables are
`(2147483640, 8)` the address 2147483641 lies in the span, and `coilWrite` and
`holdingRegisterWrite` at that address return 0 and write nothing. -/
theorem write_fails_inside_span :
    Sized topServer._mbMapping ∧ InSpan 2147483640 8 2147483641 ∧
    topServer.coilWrite 32 2147483641 1 =
      some { state := topServer, errno := some Errno.EMBXILADD, ret := 0 } ∧
    topServer.holdingRegisterWrite 32 2147483641 42 =
      some { state := topServer, errno := some Errno.EMBXILADD, ret := 0 } := by
  refine ⟨by decide, by decide, by decide, by decide⟩

/-- The outcome of a read: the rejection, or an element of the table. -/
theorem read_cases {n : Nat} (c : Prop) [Decidable c] (self : ModbusServer)
    (x : Option (Fin n)) (o : Outcome ModbusServer Int)
    (h : (if c then some { state := self, errno := some Errno.EMBXILADD, ret := -1 }
      else x.map fun v => { state := self, errno := none, ret := (v.val : Int) }) = some o) :
    o = { state := self, errno := some Errno.EMBXILADD, ret := -1 } ∨
      ∃ v : Fin n, o = { state := self, errno := none, ret := (v.val : Int) } := by
  split at h
  · cases h; exact Or.inl rfl
  · cases hx : x with
    | none => rw [hx] at h; cases h
    | some t =>
      rw [hx] at h
      cases h
      exact Or.inr ⟨t, rfl⟩

/-- C4 (amended). Where an `int` has `w ≥ 16` bits, on every store whose
buffers have their tables' sizes, for every address, every `n ≥ 1` with
`address + n ≤ INT_MAX` and every source array of at least `n` values,
`writeDiscreteInputs` and `writeInputRegisters` on a table that ends within the
`int`s (`start + count ≤ INT_MAX`) return 1 exactly when `start ≤ address` and
`address + n ≤ start + count`; then the element at index `address - start + i`
is `values[i]` for every `i < n` and every other element is unchanged.
`discreteInputWrite` and `inputRegisterWrite` are the bulk writers called with
the one-element array `[v]` and `n = 1`. -/
theorem bulk_write_contract (w : Nat) (hw : 16 ≤ w) (self : ModbusServer)
    (hs : Sized self._mbMapping) (a n : Int) (hn : 1 ≤ n) (han : Fits w (a + n))
    (bits : List uint8_t) (regs : List uint16_t) (hbits : n ≤ bits.length)
    (hregs : n ≤ regs.length) :
    (SpanFits w self._mbMapping.start_input_bits self._mbMapping.nb_input_bits →
      BulkContract self._mbMapping.start_input_bits self._mbMapping.nb_input_bits
        self._mbMapping.tab_input_bits
        (fun tab => { self with _mbMapping := { self._mbMapping with tab_input_bits := tab } })
        a bits n (self.writeDiscreteInputs w a bits n)) ∧
    (SpanFits w self._mbMapping.start_input_registers self._mbMapping.nb_input_registers →
      BulkContract self._mbMapping.start_input_registers self._mbMapping.nb_input_registers
        self._mbMapping.tab_input_registers
        (fun tab =>
          { self with _mbMapping := { self._mbMapping with tab_input_registers := tab } })
        a regs n (self.writeInputRegisters w a regs n)) ∧
    (∀ v, self.discreteInputWrite w a v = self.writeDiscreteInputs w a [v] 1) ∧
    (∀ v, self.inputRegisterWrite w a v = self.writeInputRegisters w a [v] 1) := by
  have h1 : 1 ≤ w := by omega
  refine ⟨fun hfit => ?_, fun hfit => ?_, fun _ => rfl, fun _ => rfl⟩
  · rw [writeDiscreteInputs_eq w h1 self a bits n (by omega) hfit han]
    exact bulkContract_of_check _ _ _ self _ a bits n hs.2.1 hn hbits
  · rw [writeInputRegisters_eq w h1 self a regs n (by omega) hfit han]
    exact bulkContract_of_check _ _ _ self _ a regs n hs.2.2.1 hn hregs

theorem bulk_write_contract_witness :
    16 ≤ 32 ∧ Sized sampleServer._mbMapping ∧ (1 : Int) ≤ 2 ∧ Fits 32 (11 + 2) ∧
    (2 : Int) ≤ ([1, 1, 0] : List uint8_t).length ∧
    (2 : Int) ≤ ([500, 600] : List uint16_t).length ∧
    SpanFits 32 10 3 ∧
    BulkContract 10 3 ([0, 1, 0] : List uint8_t)
      (fun tab =>
        { sampleServer with
          _mbMapping := { sampleServer._mbMapping with tab_input_bits := tab } })
      11 [1, 1, 0] 2 (sampleServer.writeDiscreteInputs 32 11 [1, 1, 0] 2) ∧
    SpanFits 32 20 2 ∧
    BulkContract 20 2 ([7, 8] : List uint16_t)
      (fun tab =>
        { sampleServer with
          _mbMapping := { sampleServer._mbMapping with tab_input_registers := tab } })
      11 [500, 600] 2 (sampleServer.writeInputRegisters 32 11 [500, 600] 2) :=
  ⟨by decide, by decide, by decide, by decide, by decide, by decide, by decide,
   (bulk_write_contract 32 (by decide) sampleServer (by decide) 11 2 (by decide) (by decide)
     [1, 1, 0] [500, 600] (by decide) (by decide)).1 (by decide),
   by decide,
   (bulk_write_contract 32 (by decide) sampleServer (by decide) 11 2 (by decide) (by decide)
     [1, 1, 0] [500, 600] (by decide) (by decide)).2.1 (by decide)⟩

/-- C4 as stated fails: with a 32-bit `int`, on the discrete inputs `(10, 3)` the
bulk write of `n = 1` element at address 2147483647 is outside the span, yet the
range check lets it through, the sum `address + n` wrapping to -2147483648, and
the copy then runs outside the buffer (the result `none`) where the claim has
the call return 0. -/
theorem bulk_write_escapes_at_int_max :
    Sized sampleServer._mbMapping ∧ (1 : Int) ≤ 1 ∧
    (1 : Int) ≤ ([1] : List uint8_t).length ∧
    ¬ (sampleServer._mbMapping.start_input_bits ≤ 2147483647 ∧
      (2147483647 : Int) + 1 ≤
        sampleServer._mbMapping.start_input_bits + sampleServer._mbMapping.nb_input_bits) ∧
    wrapInt 32 (2147483647 + 1) = -2147483648 ∧
    ¬ (sampleServer._mbMapping.start_input_bits > 2147483647 ∨
      wrapInt 32
          (sampleServer._mbMapping.start_input_bits + sampleServer._mbMapping.nb_input_bits)
        < wrapInt 32 (2147483647 + 1)) ∧
    sampleServer.writeDiscreteInputs 32 2147483647 [1] 1 = none ∧
    sampleServer.discreteInputWrite 32 2147483647 1 = none := by
  refine ⟨by decide, by decide, by decide, by decide, by decide, by decide, by decide,
    by decide⟩

/-! ## Machine integers -/

/-- Where `address + 1` does not overflow, the accessors of `Wrap` are the
accessors of the embedding; the bulk writers are the same in both. -/
theorem wrap_agrees (w : Nat) (hw : 1 ≤ w) (self : ModbusServer) (a : Int) :
    (Fits w (a + 1) →
      Wrap.coilRead w self a = self.coilRead w a ∧
      ∀ v, Wrap.coilWrite w self a v = self.coilWrite w a v) ∧
    (∀ values n,
      Wrap.writeDiscreteInputs w self a values n = self.writeDiscreteInputs w a values n) := by
  refine ⟨fun h => ⟨?_, fun v => ?_⟩, fun values n => rfl⟩
  · simp only [Wrap.coilRead, ModbusServer.coilRead, wrapInt_of_fits w hw _ h]
  · simp only [Wrap.coilWrite, ModbusServer.coilWrite, wrapInt_of_fits w hw _ h]

theorem checked_load_ne_none {α β : Type} (start count : Int) (tab : List α) (a : Int)
    (hlen : (tab.length : Int) = count) (fail : β) (f : α → β) :
    (if start > a ∨ (start + count) < (a + 1) then some fail
      else (load tab (a - start)).map f) ≠ none := by
  by_cases hc : start > a ∨ (start + count) < (a + 1)
  · simp [hc]
  · obtain ⟨v, _, hv⟩ := load_of_lt tab (a - start) (by omega) (by omega)
    simp [hc, hv]

theorem checked_store_ne_none {α β : Type} (start count : Int) (tab : List α) (a : Int) (v : α)
    (hlen : (tab.length : Int) = count) (fail : β) (f : List α → β) :
    (if start > a ∨ (start + count) < (a + 1) then some fail
      else (store tab (a - start) v).map f) ≠ none := by
  by_cases hc : start > a ∨ (start + count) < (a + 1)
  · simp [hc]
  · simp [hc, store_of_lt tab (a - start) v (by omega) (by omega)]

theorem checked_memcpy_ne_none {α β : Type} (start count : Int) (tab : List α) (a : Int)
    (values : List α) (n : Int) (hlen : (tab.length : Int) = count) (hn : 0 ≤ n)
    (hsrc : n ≤ values.length) (fail : β) (f : List α → β) :
    (if start > a ∨ (start + count) < (a + n) then some fail
      else (memcpy tab (a - start) values n).map f) ≠ none := by
  by_cases hc : start > a ∨ (start + count) < (a + n)
  · simp [hc]
  · simp [hc, memcpy_of_fits tab (a - start) values n (by omega) hn (by omega) hsrc]

/-- Where the element count is not negative and no `int` sum overflows, the
range checks do keep every access inside its buffer. -/
theorem accessors_in_bounds (w : Nat) (hw : 1 ≤ w) (self : ModbusServer)
    (hs : Sized self._mbMapping) (a : Int) :
    (SpanFits w self._mbMapping.start_bits self._mbMapping.nb_bits →
      self.coilRead w a ≠ none ∧ ∀ v, self.coilWrite w a v ≠ none) ∧
    (SpanFits w self._mbMapping.start_registers self._mbMapping.nb_registers →
      self.holdingRegisterRead w a ≠ none ∧ ∀ v, self.holdingRegisterWrite w a v ≠ none) ∧
    (SpanFits w self._mbMapping.start_input_bits self._mbMapping.nb_input_bits →
      self.discreteInputRead w a ≠ none ∧
      ∀ values n, 0 ≤ n → n ≤ values.length → Fits w (a + n) →
        self.writeDiscreteInputs w a values n ≠ none) ∧
    (SpanFits w self._mbMapping.start_input_registers self._mbMapping.nb_input_registers →
      self.inputRegisterRead w a ≠ none ∧
      ∀ values n, 0 ≤ n → n ≤ values.length → Fits w (a + n) →
        self.writeInputRegisters w a values n ≠ none) := by
  refine ⟨fun hfit => ⟨?_, fun v => ?_⟩, fun hfit => ⟨?_, fun v => ?_⟩,
    fun hfit => ⟨?_, fun values n hn hsrc han => ?_⟩,
    fun hfit => ⟨?_, fun values n hn hsrc han => ?_⟩⟩
  · rw [coilRead_eq w hw self a hfit]
    exact checked_load_ne_none _ _ _ a hs.1 _ _
  · rw [coilWrite_eq w hw self a v hfit]
    exact checked_store_ne_none _ _ _ a v hs.1 _ _
  · rw [holdingRegisterRead_eq w hw self a hfit]
    exact checked_load_ne_none _ _ _ a hs.2.2.2 _ _
  · rw [holdingRegisterWrite_eq w hw self a v hfit]
    exact checked_store_ne_none _ _ _ a v hs.2.2.2 _ _
  · rw [discreteInputRead_eq w hw self a hfit]
    exact checked_load_ne_none _ _ _ a hs.2.1 _ _
  · rw [writeDiscreteInputs_eq w hw self a values n hn hfit han]
    exact checked_memcpy_ne_none _ _ _ a values n hs.2.1 hn hsrc _ _
  · rw [inputRegisterRead_eq w hw self a hfit]
    exact checked_load_ne_none _ _ _ a hs.2.2.1 _ _
  · rw [writeInputRegisters_eq w hw self a values n hn hfit han]
    exact checked_memcpy_ne_none _ _ _ a values n hs.2.2.1 hn hsrc _ _

/-- C5 (the code breaks it).  On a store whose buffers have their tables' sizes
the range check of a bulk write lets a negative element count through, and with
32-bit wrap-around it also lets the address `INT_MAX` through on a read and on a
single write.  Each call then touches memory outside its buffer (the result
`none`): the bulk write copies `-1` elements to index 3 of a 3-element table,
the read and the single write use index 2147483647 of a 4-element table. -/
theorem range_check_escapes :
    Sized sampleServer._mbMapping ∧
    (¬ (sampleServer._mbMapping.start_input_bits > 13 ∨
        (sampleServer._mbMapping.start_input_bits + sampleServer._mbMapping.nb_input_bits)
          < (13 + (-1))) ∧
      ¬ InSpan 0 sampleServer._mbMapping.nb_input_bits
        (13 - sampleServer._mbMapping.start_input_bits) ∧
      sampleServer.writeDiscreteInputs 32 13 [1] (-1) = none ∧
      Wrap.writeDiscreteInputs 32 sampleServer 13 [1] (-1) = none) ∧
    (¬ (sampleServer._mbMapping.start_bits > 2147483647 ∨
        wrapInt 32 (sampleServer._mbMapping.start_bits + sampleServer._mbMapping.nb_bits)
          < wrapInt 32 (2147483647 + 1)) ∧
      ¬ InSpan 0 sampleServer._mbMapping.nb_bits
        (wrapInt 32 (2147483647 - sampleServer._mbMapping.start_bits)) ∧
      Wrap.coilRead 32 sampleServer 2147483647 = none ∧
      Wrap.coilWrite 32 sampleServer 2147483647 1 = none) := by
  refine ⟨by decide, ⟨by decide, by decide, by decide, by decide⟩,
    ⟨by decide, by decide, by decide, by decide⟩⟩

/-! ## Configuration -/

theorem memset_ofFn {α : Type} (s : Nat) (f : Fin s → α) (c : α) :
    memset (List.ofFn f) c s = List.replicate s c := by
  simp [memset, List.length_ofFn]

theorem configureCoils_eq (self : ModbusServer) (heap : Heap uint8_t) (startAddress nb : Int) :
    self.configureCoils heap startAddress nb =
      if startAddress < 0 ∨ nb < 1 then
        { state := self, errno := some Errno.EINVAL, ret := -1 }
      else if heap.succeeds = true then
        { state := { self with _mbMapping :=
            { self._mbMapping with
              tab_bits := List.replicate nb.toNat 0, start_bits := startAddress,
              nb_bits := nb } },
          errno := none, ret := 1 }
      else
        { state := { self with _mbMapping :=
            { self._mbMapping with tab_bits := [], start_bits := 0, nb_bits := 0 } },
          errno := none, ret := 0 } := by
  unfold configureCoils realloc
  split
  · rfl
  · cases heap.succeeds
    · simp
    · simp [memset_ofFn]

theorem configureDiscreteInputs_eq (self : ModbusServer) (heap : Heap uint8_t)
    (startAddress nb : Int) :
    self.configureDiscreteInputs heap startAddress nb =
      if startAddress < 0 ∨ nb < 1 then
        { state := self, errno := some Errno.EINVAL, ret := -1 }
      else if heap.succeeds = true then
        { state := { self with _mbMapping :=
            { self._mbMapping with
              tab_input_bits := List.replicate nb.toNat 0, start_input_bits := startAddress,
              nb_input_bits := nb } },
          errno := none, ret := 1 }
      else
        { state := { self with _mbMapping :=
            { self._mbMapping with
              tab_input_bits := [], start_input_bits := 0, nb_input_bits := 0 } },
          errno := none, ret := 0 } := by
  unfold configureDiscreteInputs realloc
  split
  · rfl
  · cases heap.succeeds
    · simp
    · simp [memset_ofFn]

theorem configureHoldingRegisters_eq (self : ModbusServer) (heap : Heap uint16_t)
    (startAddress nb : Int) :
    self.configureHoldingRegisters heap startAddress nb =
      if startAddress < 0 ∨ nb < 1 then
        { state := self, errno := some Errno.EINVAL, ret := -1 }
      else if heap.succeeds = true then
        { state := { self with _mbMapping :=
            { self._mbMapping with
              tab_registers := List.replicate nb.toNat 0, start_registers := startAddress,
              nb_registers := nb } },
          errno := none, ret := 1 }
      else
        { state := { self with _mbMapping :=
            { self._mbMapping with
              tab_registers := [], start_registers := 0, nb_registers := 0 } },
          errno := none, ret := 0 } := by
  unfold configureHoldingRegisters realloc
  split
  · rfl
  · cases heap.succeeds
    · simp
    · simp [memset_ofFn]

theorem configureInputRegisters_eq (self : ModbusServer) (heap : Heap uint16_t)
    (startAddress nb : Int) :
    self.configureInputRegisters heap startAddress nb =
      if startAddress < 0 ∨ nb < 1 then
        { state := self, errno := some Errno.EINVAL, ret := -1 }
      else if heap.succeeds = true then
        { state := { self with _mbMapping :=
            { self._mbMapping with
              tab_input_registers := List.replicate nb.toNat 0,
              start_input_registers := startAddress, nb_input_registers := nb } },
          errno := none, ret := 1 }
      else
        { state := { self with _mbMapping :=
            { self._mbMapping with
              tab_input_registers := [], start_input_registers := 0,
              nb_input_registers := 0 } },
          errno := none, ret := 0 } := by
  unfold configureInputRegisters realloc
  split
  · rfl
  · cases heap.succeeds
    · simp
    · simp [memset_ofFn]

/-- The three outcomes of a configure call, told apart by its result. -/
theorem reject_of_cases (self : ModbusServer) (start count : Int) (succeeds : Bool)
    (done failed : ModbusServer) :
    RejectContract self start count
      (if start < 0 ∨ count < 1 then
        { state := self, errno := some Errno.EINVAL, ret := -1 }
      else if succeeds = true then { state := done, errno := none, ret := 1 }
      else { state := failed, errno := none, ret := 0 }) := by
  by_cases h : start < 0 ∨ count < 1
  · simp [RejectContract, h]
  · cases succeeds <;> simp [RejectContract, h]

theorem reset_of_cases {n : Nat} (zero : Fin n) (hz : (zero.val : Int) = 0)
    (start count : Int) (hc : 1 ≤ count) (put : List (Fin n) → ModbusServer)
    (read : ModbusServer → Int → Option (Outcome ModbusServer Int))
    (hread : ∀ tab a, read (put tab) a =
      if start > a ∨ (start + count) < (a + 1) then
        some { state := put tab, errno := some Errno.EMBXILADD, ret := -1 }
      else
        (load tab (a - start)).map
          fun v => { state := put tab, errno := none, ret := (v.val : Int) }) :
    ResetContract zero start count put read
      { state := put (List.replicate count.toNat zero), errno := none, ret := 1 } := by
  refine ⟨_, rfl, ?_, ?_, ?_⟩
  · simp only [List.length_replicate]; omega
  · intro v hv
    exact List.eq_of_mem_replicate hv
  · intro a hin
    unfold InSpan at hin
    have hcheck : ¬ (start > a ∨ (start + count) < (a + 1)) := by omega
    have hlt : (a - start).toNat < count.toNat := by omega
    have h0 : 0 ≤ a - start := by omega
    rw [hread, if_neg hcheck]
    simp [load, h0, List.getElem?_replicate, hlt, hz]

theorem triState_of_cases (self : ModbusServer) (start count : Int) (succeeds : Bool)
    (done unconfigured : ModbusServer)
    (read : ModbusServer → Int → Option (Outcome ModbusServer Int))
    (hread : ∀ a, read unconfigured a =
      some { state := unconfigured, errno := some Errno.EMBXILADD, ret := -1 }) :
    TriStateContract succeeds start count unconfigured read
      (if start < 0 ∨ count < 1 then
        { state := self, errno := some Errno.EINVAL, ret := -1 }
      else if succeeds = true then { state := done, errno := none, ret := 1 }
      else { state := unconfigured, errno := none, ret := 0 }) := by
  by_cases h : start < 0 ∨ count < 1
  · rw [if_pos h]
    unfold TriStateContract
    refine ⟨by simp [h], ?_, ?_, ?_⟩
    · simp only [show ((-1 : Int) = 0) = False from by simp, false_iff]
      omega
    · simp only [show ((-1 : Int) = 1) = False from by simp, false_iff]
      omega
    · intro h0 h1
      omega
  · rw [if_neg h]
    have h0 : 0 ≤ start := by omega
    have h1 : 1 ≤ count := by omega
    cases succeeds
    · simp [TriStateContract, h, h0, h1, hread]
    · simp [TriStateContract, h, h0, h1]

/-- C6. Each of the four configure operations, on every store, for every
allocator and every `(start, count)`, returns -1 with the invalid-argument error
exactly when `start < 0` or `count < 1`, and then the whole store is unchanged. -/
theorem configure_rejects (self : ModbusServer) (heap8 : Heap uint8_t)
    (heap16 : Heap uint16_t) (start count : Int) :
    RejectContract self start count (self.configureCoils heap8 start count) ∧
    RejectContract self start count (self.configureDiscreteInputs heap8 start count) ∧
    RejectContract self start count (self.configureHoldingRegisters heap16 start count) ∧
    RejectContract self start count (self.configureInputRegisters heap16 start count) := by
  rw [configureCoils_eq, configureDiscreteInputs_eq, configureHoldingRegisters_eq,
    configureInputRegisters_eq]
  exact ⟨reject_of_cases _ _ _ _ _ _, reject_of_cases _ _ _ _ _ _,
    reject_of_cases _ _ _ _ _ _, reject_of_cases _ _ _ _ _ _⟩

theorem configure_rejects_witness :
    sampleServer.configureHoldingRegisters (heapOk 9) (-1) 5 =
      { state := sampleServer, errno := some Errno.EINVAL, ret := -1 } :=
  (configure_rejects sampleServer (heapOk 9) (heapOk 9) (-1) 5).2.2.1.2 (Or.inl (by decide))

theorem fits_zero (w : Nat) : Fits w 0 := by
  unfold Fits
  have hp : (0 : Int) < 2 ^ (w - 1) := by positivity
  constructor <;> omega

theorem wrapInt_zero_le (w : Nat) : wrapInt w 0 ≤ 0 := by
  rcases Nat.eq_zero_or_pos w with h | h
  · subst h
    decide
  · rw [wrapInt_of_fits w h 0 (fits_zero w)]

theorem spanFits_of_sum (w : Nat) (start count : Int) (hstart : 0 ≤ start) (hcount : 1 ≤ count)
    (hsum : Fits w (start + count)) : SpanFits w start count := by
  unfold Fits at hsum
  have hp : (0 : Int) < 2 ^ (w - 1) := by positivity
  refine ⟨?_, ?_, hsum⟩
  · unfold Fits
    constructor <;> omega
  · unfold Fits
    constructor <;> omega

/-- C7 (amended). Reconfiguration resets: where an `int` has `w ≥ 16` bits, for
each table, from every prior store and for every `start ≥ 0` and `count ≥ 1`
with `start + count ≤ INT_MAX`, a configure call whose allocation succeeds
returns 1, records exactly `(start, count)` and leaves a buffer of exactly
`count` elements, all zero, the other tables being untouched; every read at an
address of `[start, start + count)` then returns 0. -/
theorem configure_resets (w : Nat) (hw : 16 ≤ w) (self : ModbusServer)
    (heap8 : Heap uint8_t) (heap16 : Heap uint16_t) (start count : Int)
    (h8 : heap8.succeeds = true) (h16 : heap16.succeeds = true) (hstart : 0 ≤ start)
    (hcount : 1 ≤ count) (hsum : Fits w (start + count)) :
    ResetContract (0 : uint8_t) start count
      (fun tab => { self with _mbMapping :=
        { self._mbMapping with tab_bits := tab, start_bits := start, nb_bits := count } })
      (ModbusServer.coilRead w) (self.configureCoils heap8 start count) ∧
    ResetContract (0 : uint8_t) start count
      (fun tab => { self with _mbMapping :=
        { self._mbMapping with
          tab_input_bits := tab, start_input_bits := start, nb_input_bits := count } })
      (ModbusServer.discreteInputRead w) (self.configureDiscreteInputs heap8 start count) ∧
    ResetContract (0 : uint16_t) start count
      (fun tab => { self with _mbMapping :=
        { self._mbMapping with
          tab_registers := tab, start_registers := start, nb_registers := count } })
      (ModbusServer.holdingRegisterRead w)
      (self.configureHoldingRegisters heap16 start count) ∧
    ResetContract (0 : uint16_t) start count
      (fun tab => { self with _mbMapping :=
        { self._mbMapping with
          tab_input_registers := tab, start_input_registers := start,
          nb_input_registers := count } })
      (ModbusServer.inputRegisterRead w)
      (self.configureInputRegisters heap16 start count) := by
  have h1 : 1 ≤ w := by omega
  have hfit := spanFits_of_sum w start count hstart hcount hsum
  have hvalid : ¬ (start < 0 ∨ count < 1) := by omega
  rw [configureCoils_eq, configureDiscreteInputs_eq, configureHoldingRegisters_eq,
    configureInputRegisters_eq]
  simp only [if_neg hvalid, h8, h16, if_true]
  exact ⟨reset_of_cases 0 rfl start count hcount _ _
      (fun _ a => coilRead_eq w h1 _ a hfit),
    reset_of_cases 0 rfl start count hcount _ _
      (fun _ a => discreteInputRead_eq w h1 _ a hfit),
    reset_of_cases 0 rfl start count hcount _ _
      (fun _ a => holdingRegisterRead_eq w h1 _ a hfit),
    reset_of_cases 0 rfl start count hcount _ _
      (fun _ a => inputRegisterRead_eq w h1 _ a hfit)⟩

theorem configure_resets_witness :
    16 ≤ 32 ∧
    (heapOk (9 : uint8_t)).succeeds = true ∧ (heapOk (9 : uint16_t)).succeeds = true ∧
    (0 : Int) ≤ 105 ∧ (1 : Int) ≤ 10 ∧ Fits 32 (105 + 10) ∧
    ResetContract (0 : uint8_t) 105 10
      (fun tab => { sampleServer with _mbMapping :=
        { sampleServer._mbMapping with tab_bits := tab, start_bits := 105, nb_bits := 10 } })
      (ModbusServer.coilRead 32) (sampleServer.configureCoils (heapOk 9) 105 10) ∧
    ResetContract (0 : uint8_t) 105 10
      (fun tab => { sampleServer with _mbMapping :=
        { sampleServer._mbMapping with
          tab_input_bits := tab, start_input_bits := 105, nb_input_bits := 10 } })
      (ModbusServer.discreteInputRead 32)
      (sampleServer.configureDiscreteInputs (heapOk 9) 105 10) ∧
    ResetContract (0 : uint16_t) 105 10
      (fun tab => { sampleServer with _mbMapping :=
        { sampleServer._mbMapping with
          tab_registers := tab, start_registers := 105, nb_registers := 10 } })
      (ModbusServer.holdingRegisterRead 32)
      (sampleServer.configureHoldingRegisters (heapOk 9) 105 10) ∧
    ResetContract (0 : uint16_t) 105 10
      (fun tab => { sampleServer with _mbMapping :=
        { sampleServer._mbMapping with
          tab_input_registers := tab, start_input_registers := 105,
          nb_input_registers := 10 } })
      (ModbusServer.inputRegisterRead 32)
      (sampleServer.configureInputRegisters (heapOk 9) 105 10) :=
  ⟨by decide, rfl, rfl, by decide, by decide, by decide,
   configure_resets 32 (by decide) sampleServer (heapOk 9) (heapOk 9) 105 10 rfl rfl
     (by decide) (by decide) (by decide)⟩

/-- C7 as stated fails: with a 32-bit `int`, `configureDiscreteInputs(2147483640, 8)`
on a new server obtains its buffer, returns 1 and records `(2147483640, 8)` with
8 zero elements, and the read at the address 2147483641 of the new span then
returns -1, not 0. -/
theorem reset_table_rejects_reads :
    (0 : Int) ≤ 2147483640 ∧ (1 : Int) ≤ 8 ∧ (heapOk (9 : uint8_t)).succeeds = true ∧
    ModbusServer.new.configureDiscreteInputs (heapOk 9) 2147483640 8 =
      { state := { ModbusServer.new with _mbMapping :=
          { ModbusServer.new._mbMapping with
            tab_input_bits := [0, 0, 0, 0, 0, 0, 0, 0], start_input_bits := 2147483640,
            nb_input_bits := 8 } },
        errno := none, ret := 1 } ∧
    InSpan 2147483640 8 2147483641 ∧
    (ModbusServer.new.configureDiscreteInputs (heapOk 9) 2147483640 8).state.discreteInputRead
        32 2147483641 =
      some { state := (ModbusServer.new.configureDiscreteInputs (heapOk 9) 2147483640 8).state,
             errno := some Errno.EMBXILADD, ret := -1 } := by
  refine ⟨by decide, by decide, rfl, by decide, by decide, by decide⟩

/-- C8. Configure results are tri-state: each of the four configure operations,
on every store and for every allocator and `(start, count)`, returns -1 exactly
for an invalid argument, 0 exactly when `start ≥ 0`, `count ≥ 1` and the
allocation fails, and 1 exactly when `start ≥ 0`, `count ≥ 1` and the allocation
succeeds.  After a failed allocation the table has no buffer and
`(start, count) = (0, 0)`, the other tables are untouched, and every read of the
table fails with -1 at every address. -/
theorem configure_tri_state (w : Nat) (self : ModbusServer) (heap8 : Heap uint8_t)
    (heap16 : Heap uint16_t) (start count : Int) :
    TriStateContract heap8.succeeds start count
      { self with _mbMapping :=
        { self._mbMapping with tab_bits := [], start_bits := 0, nb_bits := 0 } }
      (ModbusServer.coilRead w) (self.configureCoils heap8 start count) ∧
    TriStateContract heap8.succeeds start count
      { self with _mbMapping :=
        { self._mbMapping with
          tab_input_bits := [], start_input_bits := 0, nb_input_bits := 0 } }
      (ModbusServer.discreteInputRead w) (self.configureDiscreteInputs heap8 start count) ∧
    TriStateContract heap16.succeeds start count
      { self with _mbMapping :=
        { self._mbMapping with tab_registers := [], start_registers := 0, nb_registers := 0 } }
      (ModbusServer.holdingRegisterRead w)
      (self.configureHoldingRegisters heap16 start count) ∧
    TriStateContract heap16.succeeds start count
      { self with _mbMapping :=
        { self._mbMapping with
          tab_input_registers := [], start_input_registers := 0,
          nb_input_registers := 0 } }
      (ModbusServer.inputRegisterRead w)
      (self.configureInputRegisters heap16 start count) := by
  have hz := wrapInt_zero_le w
  rw [configureCoils_eq, configureDiscreteInputs_eq, configureHoldingRegisters_eq,
    configureInputRegisters_eq]
  refine ⟨triState_of_cases _ _ _ _ _ _ _ ?_, triState_of_cases _ _ _ _ _ _ _ ?_,
    triState_of_cases _ _ _ _ _ _ _ ?_, triState_of_cases _ _ _ _ _ _ _ ?_⟩
  · intro a
    have hc : (0 : Int) > a ∨ wrapInt w ((0 : Int) + 0) < (a + 1) := by
      rw [show ((0 : Int) + 0) = 0 from rfl]; omega
    simp only [coilRead, if_pos hc]
  · intro a
    have hc : (0 : Int) > a ∨ wrapInt w ((0 : Int) + 0) < (a + 1) := by
      rw [show ((0 : Int) + 0) = 0 from rfl]; omega
    simp only [discreteInputRead, if_pos hc]
  · intro a
    have hc : (0 : Int) > a ∨ wrapInt w ((0 : Int) + 0) < (a + 1) := by
      rw [show ((0 : Int) + 0) = 0 from rfl]; omega
    simp only [holdingRegisterRead, if_pos hc]
  · intro a
    have hc : (0 : Int) > a ∨ wrapInt w ((0 : Int) + 0) < (a + 1) := by
      rw [show ((0 : Int) + 0) = 0 from rfl]; omega
    simp only [inputRegisterRead, if_pos hc]

theorem configure_tri_state_witness :
    sampleServer.configureHoldingRegisters (heapFull 9) 100 10 =
      { state := { sampleServer with _mbMapping :=
          { sampleServer._mbMapping with
            tab_registers := [], start_registers := 0, nb_registers := 0 } },
        errno := none, ret := 0 } :=
  ((configure_tri_state 32 sampleServer (heapFull 9) (heapFull 9) 100 10).2.2.1.2.2.2
    (by decide) (by decide) rfl).1

/-! ## Mask write -/

theorem to_uint16_mask (x andMask orMask : uint16_t) :
    to_uint16 (Int.lor (Int.land (x.val : Int) (andMask.val : Int)) (orMask.val : Int)) =
      ((x &&& andMask) ||| orMask) := by
  have h1 : x.val &&& andMask.val < 2 ^ 16 := Nat.and_lt_two_pow _ andMask.isLt
  have h2 : (x.val &&& andMask.val) ||| orMask.val < 2 ^ 16 := Nat.or_lt_two_pow h1 orMask.isLt
  have e1 : Int.lor (Int.land (x.val : Int) (andMask.val : Int)) (orMask.val : Int) =
      (((x.val &&& andMask.val) ||| orMask.val : Nat) : Int) := rfl
  apply Fin.ext
  rw [e1]
  show (((((x.val &&& andMask.val) ||| orMask.val : Nat) : Int) % 65536).toNat) % 65536 =
    (((x.val &&& andMask.val) % 65536) ||| orMask.val) % 65536
  have h3 : (x.val &&& andMask.val) % 65536 = x.val &&& andMask.val := Nat.mod_eq_of_lt h1
  rw [h3]
  omega

theorem load_some {α : Type} (tab : List α) (i : Int) (v : α) (h : load tab i = some v) :
    0 ≤ i ∧ i < tab.length ∧ tab[i.toNat]? = some v := by
  unfold load at h
  split at h
  · rename_i h0
    have hlt : i.toNat < tab.length := by
      by_contra hcon
      rw [List.getElem?_eq_none (by omega)] at h
      cases h
    exact ⟨h0, by omega, h⟩
  · cases h

/-- C9. Mask-write law: on every store, for every address and masks, when
`holdingRegisterRead(a)` succeeds with value `x`, `registerMaskWrite(a, AND, OR)`
returns 1 and leaves exactly the store that `holdingRegisterWrite(a, (x & AND) | OR)`
leaves; when the read fails, it returns 0 and leaves the store as it was.  A
register holding `0xFFFF`, masked with `AND = 0x0F0F` and `OR = 0x1000`, then
holds `0x1F0F`. -/
theorem mask_write_law (w : Nat) (self : ModbusServer) (a : Int) (andMask orMask : uint16_t) :
    (∀ x : uint16_t,
      self.holdingRegisterRead w a = some { state := self, errno := none, ret := (x.val : Int) } →
      ∃ o, self.registerMaskWrite w a andMask orMask = some o ∧ o.ret = 1 ∧
        self.holdingRegisterWrite w a ((x &&& andMask) ||| orMask) =
          some { state := o.state, errno := none, ret := 1 }) ∧
    (∀ o, self.holdingRegisterRead w a = some o → o.ret = -1 →
      self.registerMaskWrite w a andMask orMask =
        some { state := self, errno := some Errno.EMBXILADD, ret := 0 }) ∧
    (sampleServer.holdingRegisterRead 32 100 =
        some { state := sampleServer, errno := none, ret := 0xFFFF } ∧
      sampleServer.registerMaskWrite 32 100 0x0F0F 0x1000 =
        some { state := { sampleServer with _mbMapping := { sampleServer._mbMapping with
                 tab_registers := [0x1F0F, 1, 2, 3, 4, 5, 6, 7, 8, 9] } },
               errno := none, ret := 1 }) := by
  refine ⟨?_, ?_, ?_⟩
  · intro x hx
    by_cases hc : self._mbMapping.start_registers > a ∨
        wrapInt w (self._mbMapping.start_registers + self._mbMapping.nb_registers) < (a + 1)
    · simp [holdingRegisterRead, hc] at hx
    · have hx2 := hx
      simp only [holdingRegisterRead, if_neg hc, Option.map_eq_some'] at hx2
      obtain ⟨y, hy, hyx⟩ := hx2
      have hyx2 : y = x := by
        have := congrArg Outcome.ret hyx
        simp at this
        exact Fin.ext this
      subst hyx2
      obtain ⟨h0, h1, _⟩ := load_some _ _ _ hy
      have hst := store_of_lt self._mbMapping.tab_registers
        (wrapInt w (a - self._mbMapping.start_registers)) ((y &&& andMask) ||| orMask) h0 h1
      have hw : self.holdingRegisterWrite w a ((y &&& andMask) ||| orMask) =
          some { state := { self with _mbMapping := { self._mbMapping with
                  tab_registers := self._mbMapping.tab_registers.set
                    (wrapInt w (a - self._mbMapping.start_registers)).toNat
                    ((y &&& andMask) ||| orMask) } },
                 errno := none, ret := 1 } := by
        simp only [holdingRegisterWrite, if_neg hc, hst, Option.map_some']
      refine ⟨{ state := { self with _mbMapping := { self._mbMapping with
                  tab_registers := self._mbMapping.tab_registers.set
                    (wrapInt w (a - self._mbMapping.start_registers)).toNat
                    ((y &&& andMask) ||| orMask) } },
                 errno := none, ret := 1 }, ?_, rfl, hw⟩
      simp only [registerMaskWrite, hx, to_uint16_mask, hw]
      simp
  · intro o ho hret
    by_cases hc : self._mbMapping.start_registers > a ∨
        wrapInt w (self._mbMapping.start_registers + self._mbMapping.nb_registers) < (a + 1)
    · simp [registerMaskWrite, holdingRegisterRead, hc]
    · simp only [holdingRegisterRead, if_neg hc, Option.map_eq_some'] at ho
      obtain ⟨y, _, hyo⟩ := ho
      have := congrArg Outcome.ret hyo
      simp only [hret] at this
      omega
  · exact ⟨by decide, by decide⟩

theorem mask_write_law_witness :
    sampleServer.holdingRegisterRead 32 105 =
      some { state := sampleServer, errno := none, ret := ((5 : uint16_t).val : Int) } ∧
    ∃ o, sampleServer.registerMaskWrite 32 105 0x00F1 0x0100 = some o ∧ o.ret = 1 ∧
      sampleServer.holdingRegisterWrite 32 105 ((5 &&& 0x00F1) ||| 0x0100) =
        some { state := o.state, errno := none, ret := 1 } :=
  ⟨by decide, (mask_write_law 32 sampleServer 105 0x00F1 0x0100).1 5 (by decide)⟩



/-! ## Round trip -/

theorem roundTrip_of_check {n : Nat} (start count : Int) (values tab : List (Fin n))
    (self : ModbusServer) (put : List (Fin n) → ModbusServer)
    (read : ModbusServer → Int → Option (Outcome ModbusServer Int)) (a : Int) (v : Fin n)
    (hlen : (values.length : Int) = count) (hin : InSpan start count a)
    (htab : tab.length = values.length ∧ tab[(a - start).toNat]? = some v ∧
      ∀ j, j ≠ (a - start).toNat → tab[j]? = values[j]?)
    (hnew : ∀ b, read (put tab) b =
      if start > b ∨ (start + count) < (b + 1) then
        some { state := put tab, errno := some Errno.EMBXILADD, ret := -1 }
      else
        (load tab (b - start)).map
          fun x => { state := put tab, errno := none, ret := (x.val : Int) })
    (hold : ∀ b, read self b =
      if start > b ∨ (start + count) < (b + 1) then
        some { state := self, errno := some Errno.EMBXILADD, ret := -1 }
      else
        (load values (b - start)).map
          fun x => { state := self, errno := none, ret := (x.val : Int) }) :
    RoundTrip (v.val : Int) a read self
      (some { state := put tab, errno := none, ret := 1 }) := by
  obtain ⟨h1, h2, h3⟩ := htab
  unfold InSpan at hin
  refine ⟨_, rfl, rfl, ?_, ?_⟩
  · have hc : ¬ (start > a ∨ (start + count) < (a + 1)) := by omega
    have h0 : 0 ≤ a - start := by omega
    simp only [hnew, if_neg hc, load, if_pos h0, h2, Option.map_some']
  · intro b hb
    rw [hnew, hold]
    by_cases hc : start > b ∨ (start + count) < (b + 1)
    · simp only [if_pos hc, Option.map_some', answer]
    · have h0 : 0 ≤ b - start := by omega
      have hne : (b - start).toNat ≠ (a - start).toNat := by omega
      simp only [if_neg hc, load, if_pos h0, h3 _ hne, Option.map_map]
      congr 1

theorem roundTrip_single {n : Nat} (start count : Int) (values : List (Fin n))
    (self : ModbusServer) (put : List (Fin n) → ModbusServer)
    (read : ModbusServer → Int → Option (Outcome ModbusServer Int)) (a : Int) (v : Fin n)
    (result : Option (Outcome ModbusServer Int))
    (hlen : (values.length : Int) = count) (hin : InSpan start count a)
    (hw : WriteContract start count values put a v result)
    (hnew : ∀ tab b, read (put tab) b =
      if start > b ∨ (start + count) < (b + 1) then
        some { state := put tab, errno := some Errno.EMBXILADD, ret := -1 }
      else
        (load tab (b - start)).map
          fun x => { state := put tab, errno := none, ret := (x.val : Int) })
    (hold : ∀ b, read self b =
      if start > b ∨ (start + count) < (b + 1) then
        some { state := self, errno := some Errno.EMBXILADD, ret := -1 }
      else
        (load values (b - start)).map
          fun x => { state := self, errno := none, ret := (x.val : Int) }) :
    RoundTrip (v.val : Int) a read self result := by
  obtain ⟨tab, hres, htab⟩ := hw.2 hin
  rw [hres]
  exact roundTrip_of_check start count values tab self put read a v hlen hin htab (hnew tab) hold

theorem roundTrip_bulk {n : Nat} (start count : Int) (values : List (Fin n))
    (self : ModbusServer) (put : List (Fin n) → ModbusServer)
    (read : ModbusServer → Int → Option (Outcome ModbusServer Int)) (a : Int) (v : Fin n)
    (result : Option (Outcome ModbusServer Int))
    (hlen : (values.length : Int) = count) (hin : InSpan start count a)
    (hw : BulkContract start count values put a [v] 1 result)
    (hnew : ∀ tab b, read (put tab) b =
      if start > b ∨ (start + count) < (b + 1) then
        some { state := put tab, errno := some Errno.EMBXILADD, ret := -1 }
      else
        (load tab (b - start)).map
          fun x => { state := put tab, errno := none, ret := (x.val : Int) })
    (hold : ∀ b, read self b =
      if start > b ∨ (start + count) < (b + 1) then
        some { state := self, errno := some Errno.EMBXILADD, ret := -1 }
      else
        (load values (b - start)).map
          fun x => { state := self, errno := none, ret := (x.val : Int) }) :
    RoundTrip (v.val : Int) a read self result := by
  have hspan : start ≤ a ∧ a + 1 ≤ start + count := by unfold InSpan at hin; omega
  obtain ⟨tab, hres, h1, h2, h3⟩ := hw.2 hspan
  rw [hres]
  refine roundTrip_of_check start count values tab self put read a v hlen hin ⟨h1, ?_, ?_⟩
    (hnew tab) hold
  · have := h2 0 (by decide)
    simpa using this
  · intro j hj
    apply h3
    have : (1 : Int).toNat = 1 := rfl
    omega

theorem fits_succ_of_inSpan (w : Nat) (start count a : Int) (hfit : SpanFits w start count)
    (hin : InSpan start count a) : Fits w (a + 1) := by
  obtain ⟨h1, _, h3⟩ := hfit
  unfold Fits at h1 h3 ⊢
  unfold InSpan at hin
  constructor <;> omega

/-- C10 (amended). Write-then-read round trip: where an `int` has `w ≥ 16` bits,
on every store whose buffers have their tables' sizes, for each of the four
tables that ends within the `int`s (`start + count ≤ INT_MAX`), every address
`a` with `start ≤ a < start + count` and every element value `v`, the single
write of `v` at `a` returns 1, the read at `a` then returns `v`, and the read at
every other address answers what it answered before.  Holding registers
configured with `(100, 10)`: after `write(105, 42)`, `read(105)` is 42 while
`read(110)` and `read(99)` fail with the illegal-address error. -/
theorem write_read_round_trip (w : Nat) (hw : 16 ≤ w) (self : ModbusServer)
    (hs : Sized self._mbMapping) (a : Int) (v8 : uint8_t) (v16 : uint16_t) :
    (SpanFits w self._mbMapping.start_bits self._mbMapping.nb_bits →
      InSpan self._mbMapping.start_bits self._mbMapping.nb_bits a →
      RoundTrip (v8.val : Int) a (ModbusServer.coilRead w) self (self.coilWrite w a v8)) ∧
    (SpanFits w self._mbMapping.start_input_bits self._mbMapping.nb_input_bits →
      InSpan self._mbMapping.start_input_bits self._mbMapping.nb_input_bits a →
      RoundTrip (v8.val : Int) a (ModbusServer.discreteInputRead w) self
        (self.discreteInputWrite w a v8)) ∧
    (SpanFits w self._mbMapping.start_registers self._mbMapping.nb_registers →
      InSpan self._mbMapping.start_registers self._mbMapping.nb_registers a →
      RoundTrip (v16.val : Int) a (ModbusServer.holdingRegisterRead w) self
        (self.holdingRegisterWrite w a v16)) ∧
    (SpanFits w self._mbMapping.start_input_registers self._mbMapping.nb_input_registers →
      InSpan self._mbMapping.start_input_registers self._mbMapping.nb_input_registers a →
      RoundTrip (v16.val : Int) a (ModbusServer.inputRegisterRead w) self
        (self.inputRegisterWrite w a v16)) ∧
    ((ModbusServer.new.configureHoldingRegisters (heapOk 9) 100 10).state.holdingRegisterWrite
          32 105 42 = some { state := writtenRegisters, errno := none, ret := 1 } ∧
      writtenRegisters.holdingRegisterRead 32 105 =
        some { state := writtenRegisters, errno := none, ret := 42 } ∧
      writtenRegisters.holdingRegisterRead 32 110 =
        some { state := writtenRegisters, errno := some Errno.EMBXILADD, ret := -1 } ∧
      writtenRegisters.holdingRegisterRead 32 99 =
        some { state := writtenRegisters, errno := some Errno.EMBXILADD, ret := -1 }) := by
  have h1 : 1 ≤ w := by omega
  refine ⟨fun hfit hin => ?_, fun hfit hin => ?_, fun hfit hin => ?_, fun hfit hin => ?_, ?_⟩
  · have hwc : WriteContract self._mbMapping.start_bits self._mbMapping.nb_bits
        self._mbMapping.tab_bits
        (fun tab => { self with _mbMapping := { self._mbMapping with tab_bits := tab } })
        a v8 (self.coilWrite w a v8) := by
      rw [coilWrite_eq w h1 self a v8 hfit]
      exact writeContract_of_check _ _ _ self _ a v8 hs.1
    exact roundTrip_single _ _ _ self _ _ a v8 _ hs.1 hin hwc
      (fun _ b => coilRead_eq w h1 _ b hfit) (fun b => coilRead_eq w h1 self b hfit)
  · have hwc : BulkContract self._mbMapping.start_input_bits self._mbMapping.nb_input_bits
        self._mbMapping.tab_input_bits
        (fun tab => { self with _mbMapping := { self._mbMapping with tab_input_bits := tab } })
        a [v8] 1 (self.discreteInputWrite w a v8) := by
      unfold discreteInputWrite
      rw [writeDiscreteInputs_eq w h1 self a [v8] 1 (by decide) hfit
        (fits_succ_of_inSpan w _ _ a hfit hin)]
      exact bulkContract_of_check _ _ _ self _ a [v8] 1 hs.2.1 (by decide) (by simp)
    exact roundTrip_bulk _ _ _ self _ _ a v8 _ hs.2.1 hin hwc
      (fun _ b => discreteInputRead_eq w h1 _ b hfit)
      (fun b => discreteInputRead_eq w h1 self b hfit)
  · have hwc : WriteContract self._mbMapping.start_registers self._mbMapping.nb_registers
        self._mbMapping.tab_registers
        (fun tab => { self with _mbMapping := { self._mbMapping with tab_registers := tab } })
        a v16 (self.holdingRegisterWrite w a v16) := by
      rw [holdingRegisterWrite_eq w h1 self a v16 hfit]
      exact writeContract_of_check _ _ _ self _ a v16 hs.2.2.2
    exact roundTrip_single _ _ _ self _ _ a v16 _ hs.2.2.2 hin hwc
      (fun _ b => holdingRegisterRead_eq w h1 _ b hfit)
      (fun b => holdingRegisterRead_eq w h1 self b hfit)
  · have hwc : BulkContract self._mbMapping.start_input_registers
        self._mbMapping.nb_input_registers self._mbMapping.tab_input_registers
        (fun tab =>
          { self with _mbMapping := { self._mbMapping with tab_input_registers := tab } })
        a [v16] 1 (self.inputRegisterWrite w a v16) := by
      unfold inputRegisterWrite
      rw [writeInputRegisters_eq w h1 self a [v16] 1 (by decide) hfit
        (fits_succ_of_inSpan w _ _ a hfit hin)]
      exact bulkContract_of_check _ _ _ self _ a [v16] 1 hs.2.2.1 (by decide) (by simp)
    exact roundTrip_bulk _ _ _ self _ _ a v16 _ hs.2.2.1 hin hwc
      (fun _ b => inputRegisterRead_eq w h1 _ b hfit)
      (fun b => inputRegisterRead_eq w h1 self b hfit)
  · exact ⟨by decide, by decide, by decide, by decide⟩

theorem write_read_round_trip_witness :
    16 ≤ 32 ∧ Sized sampleServer._mbMapping ∧ SpanFits 32 100 10 ∧ InSpan 100 10 105 ∧
    RoundTrip 42 105 (ModbusServer.holdingRegisterRead 32) sampleServer
      (sampleServer.holdingRegisterWrite 32 105 42) :=
  ⟨by decide, by decide, by decide, by decide,
   (write_read_round_trip 32 (by decide) sampleServer (by decide) 105 1 42).2.2.1 (by decide)
     (by decide)⟩

/-- C10 as stated fails: with a 32-bit `int`, on a store whose holding registers
and input registers are `(2147483640, 8)` the address 2147483641 lies in the
span, and the single writes of 42 at that address return 0, so the read at that
address does not return 42: it fails with -1. -/
theorem round_trip_fails_inside_span :
    Sized topServer._mbMapping ∧
    InSpan topServer._mbMapping.start_registers topServer._mbMapping.nb_registers
      2147483641 ∧
    topServer.holdingRegisterWrite 32 2147483641 42 =
      some { state := topServer, errno := some Errno.EMBXILADD, ret := 0 } ∧
    topServer.inputRegisterWrite 32 2147483641 42 =
      some { state := topServer, errno := some Errno.EMBXILADD, ret := 0 } ∧
    topServer.holdingRegisterRead 32 2147483641 =
      some { state := topServer, errno := some Errno.EMBXILADD, ret := -1 } ∧
    ¬ RoundTrip 42 2147483641 (ModbusServer.holdingRegisterRead 32) topServer
      (topServer.holdingRegisterWrite 32 2147483641 42) := by
  refine ⟨by decide, by decide, by decide, by decide, by decide, ?_⟩
  rintro ⟨o, ho, h1, _⟩
  have h : topServer.holdingRegisterWrite 32 2147483641 42 =
      some { state := topServer, errno := some Errno.EMBXILADD, ret := 0 } := by decide
  rw [h] at ho
  cases ho
  simp at h1

/-! ## Unconfigured tables -/

theorem memcpy_nothing {α : Type} (tab values : List α) : memcpy tab 0 values 0 = some tab := by
  simp [memcpy]

theorem check_of_empty (w : Nat) (hw : 1 ≤ w) (start count a : Int) (h0 : count = 0)
    (hs : Fits w start) : start > a ∨ wrapInt w (start + count) < (a + 1) := by
  rw [h0, add_zero, wrapInt_of_fits w hw _ hs]
  omega

theorem span_check_of_empty (w : Nat) (hw : 1 ≤ w) (start count a n : Int) (h0 : count = 0)
    (hs : Fits w start) (hn : 1 ≤ n) (han : Fits w (a + n)) :
    start > a ∨ wrapInt w (start + count) < wrapInt w (a + n) := by
  rw [h0, add_zero, wrapInt_of_fits w hw _ hs, wrapInt_of_fits w hw _ han]
  omega

theorem empty_write_of_empty {α : Type} (w : Nat) (hw : 1 ≤ w) (start count a : Int)
    (tab values : List α) (h0 : count = 0) (hs : Fits w start) (ha : Fits w a)
    (fail : Outcome ModbusServer Int) (f : List α → Outcome ModbusServer Int) :
    (if start > a ∨ wrapInt w (start + count) < wrapInt w (a + 0) then some fail
      else (memcpy tab (wrapInt w (a - start)) values 0).map f) =
    if a = start then some (f tab) else some fail := by
  rw [h0, add_zero, add_zero, wrapInt_of_fits w hw _ hs, wrapInt_of_fits w hw _ ha]
  by_cases h : a = start
  · have hc : ¬ (start > a ∨ start < a) := by omega
    rw [if_neg hc, if_pos h, h, sub_self, wrapInt_of_fits w hw 0 (fits_zero w), memcpy_nothing]
    rfl
  · have hc : start > a ∨ start < a := by omega
    rw [if_pos hc, if_neg h]

/-- C11 (amended). Where an `int` has `w ≥ 16` bits, a table whose count is 0
rejects every lookup: at every address each read returns -1 and `coilWrite`,
`holdingRegisterWrite` and the mask write return 0; `discreteInputWrite` and
`inputRegisterWrite` return 0 at every address below `INT_MAX`, and each bulk
write of `n ≥ 1` elements returns 0 wherever `address + n ≤ INT_MAX`; all with
the illegal-address error and the store unchanged.  A bulk write of `n = 0`
elements is rejected in the same way except at `address = start`, where it
returns 1 and copies nothing.  The store has count 0 in all four tables when
constructed and after `end`. -/
theorem unconfigured_rejects (w : Nat) (hw : 16 ≤ w) (self : ModbusServer) (a : Int) :
    (self._mbMapping.nb_bits = 0 → Fits w self._mbMapping.start_bits →
      self.coilRead w a = some { state := self, errno := some Errno.EMBXILADD, ret := -1 } ∧
      ∀ v, self.coilWrite w a v =
        some { state := self, errno := some Errno.EMBXILADD, ret := 0 }) ∧
    (self._mbMapping.nb_registers = 0 → Fits w self._mbMapping.start_registers →
      self.holdingRegisterRead w a =
        some { state := self, errno := some Errno.EMBXILADD, ret := -1 } ∧
      (∀ v, self.holdingRegisterWrite w a v =
        some { state := self, errno := some Errno.EMBXILADD, ret := 0 }) ∧
      ∀ andMask orMask, self.registerMaskWrite w a andMask orMask =
        some { state := self, errno := some Errno.EMBXILADD, ret := 0 }) ∧
    (self._mbMapping.nb_input_bits = 0 → Fits w self._mbMapping.start_input_bits →
      self.discreteInputRead w a =
        some { state := self, errno := some Errno.EMBXILADD, ret := -1 } ∧
      (Fits w (a + 1) → ∀ v, self.discreteInputWrite w a v =
        some { state := self, errno := some Errno.EMBXILADD, ret := 0 }) ∧
      (∀ values n, 1 ≤ n → Fits w (a + n) → self.writeDiscreteInputs w a values n =
        some { state := self, errno := some Errno.EMBXILADD, ret := 0 }) ∧
      (Fits w a → ∀ values, self.writeDiscreteInputs w a values 0 =
        if a = self._mbMapping.start_input_bits then
          some { state := self, errno := none, ret := 1 }
        else some { state := self, errno := some Errno.EMBXILADD, ret := 0 })) ∧
    (self._mbMapping.nb_input_registers = 0 → Fits w self._mbMapping.start_input_registers →
      self.inputRegisterRead w a =
        some { state := self, errno := some Errno.EMBXILADD, ret := -1 } ∧
      (Fits w (a + 1) → ∀ v, self.inputRegisterWrite w a v =
        some { state := self, errno := some Errno.EMBXILADD, ret := 0 }) ∧
      (∀ values n, 1 ≤ n → Fits w (a + n) → self.writeInputRegisters w a values n =
        some { state := self, errno := some Errno.EMBXILADD, ret := 0 }) ∧
      (Fits w a → ∀ values, self.writeInputRegisters w a values 0 =
        if a = self._mbMapping.start_input_registers then
          some { state := self, errno := none, ret := 1 }
        else some { state := self, errno := some Errno.EMBXILADD, ret := 0 })) ∧
    (ModbusServer.new._mbMapping.nb_bits = 0 ∧ ModbusServer.new._mbMapping.nb_registers = 0 ∧
      ModbusServer.new._mbMapping.nb_input_bits = 0 ∧
      ModbusServer.new._mbMapping.nb_input_registers = 0) ∧
    (self.end_._mbMapping.nb_bits = 0 ∧ self.end_._mbMapping.nb_registers = 0 ∧
      self.end_._mbMapping.nb_input_bits = 0 ∧ self.end_._mbMapping.nb_input_registers = 0) := by
  have h1 : 1 ≤ w := by omega
  refine ⟨fun h0 hs => ?_, fun h0 hs => ?_, fun h0 hs => ?_, fun h0 hs => ?_,
    ⟨rfl, rfl, rfl, rfl⟩, ⟨rfl, rfl, rfl, rfl⟩⟩
  · have hc := check_of_empty w h1 _ _ a h0 hs
    exact ⟨by simp only [coilRead, if_pos hc], fun v => by simp only [coilWrite, if_pos hc]⟩
  · have hc := check_of_empty w h1 _ _ a h0 hs
    exact ⟨by simp only [holdingRegisterRead, if_pos hc],
      fun v => by simp only [holdingRegisterWrite, if_pos hc],
      fun _ _ => by simp [registerMaskWrite, holdingRegisterRead, if_pos hc]⟩
  · have hc := check_of_empty w h1 _ _ a h0 hs
    refine ⟨by simp only [discreteInputRead, if_pos hc], fun ha v => ?_,
      fun values n hn han => ?_, fun ha values => ?_⟩
    · have hn := span_check_of_empty w h1 _ _ a 1 h0 hs (by decide) ha
      simp only [discreteInputWrite, writeDiscreteInputs, if_pos hn]
    · have hn := span_check_of_empty w h1 _ _ a n h0 hs hn han
      simp only [writeDiscreteInputs, if_pos hn]
    · exact empty_write_of_empty w h1 _ _ a _ values h0 hs ha _ _
  · have hc := check_of_empty w h1 _ _ a h0 hs
    refine ⟨by simp only [inputRegisterRead, if_pos hc], fun ha v => ?_,
      fun values n hn han => ?_, fun ha values => ?_⟩
    · have hn := span_check_of_empty w h1 _ _ a 1 h0 hs (by decide) ha
      simp only [inputRegisterWrite, writeInputRegisters, if_pos hn]
    · have hn := span_check_of_empty w h1 _ _ a n h0 hs hn han
      simp only [writeInputRegisters, if_pos hn]
    · exact empty_write_of_empty w h1 _ _ a _ values h0 hs ha _ _

theorem unconfigured_rejects_witness :
    16 ≤ 32 ∧ ModbusServer.new._mbMapping.nb_input_bits = 0 ∧
    Fits 32 ModbusServer.new._mbMapping.start_input_bits ∧
    ModbusServer.new.discreteInputRead 32 7 =
      some { state := ModbusServer.new, errno := some Errno.EMBXILADD, ret := -1 } ∧
    (1 : Int) ≤ 2 ∧ Fits 32 (0 + 2) ∧
    ModbusServer.new.writeDiscreteInputs 32 0 [1, 1] 2 =
      some { state := ModbusServer.new, errno := some Errno.EMBXILADD, ret := 0 } :=
  ⟨by decide, rfl, by decide,
   ((unconfigured_rejects 32 (by decide) ModbusServer.new 7).2.2.1 rfl (by decide)).1,
   by decide, by decide,
   ((unconfigured_rejects 32 (by decide) ModbusServer.new 0).2.2.1 rfl (by decide)).2.2.1
     [1, 1] 2 (by decide) (by decide)⟩

/-- C11 as stated fails: on a new store, whose discrete inputs and input
registers have count 0, the bulk writes of `n = 0` elements at address 0 return
1, not 0; with a 32-bit `int`. -/
theorem unconfigured_accepts_empty_bulk_write :
    ModbusServer.new._mbMapping.nb_input_bits = 0 ∧
    ModbusServer.new._mbMapping.nb_input_registers = 0 ∧
    ModbusServer.new.writeDiscreteInputs 32 0 [] 0 =
      some { state := ModbusServer.new, errno := none, ret := 1 } ∧
    ModbusServer.new.writeInputRegisters 32 0 [] 0 =
      some { state := ModbusServer.new, errno := none, ret := 1 } ∧
    ¬ (∃ o, ModbusServer.new.writeDiscreteInputs 32 0 [] 0 = some o ∧ o.ret = 0) := by
  refine ⟨rfl, rfl, by decide, by decide, ?_⟩
  rintro ⟨o, ho, h0⟩
  have h : ModbusServer.new.writeDiscreteInputs 32 0 [] 0 =
      some { state := ModbusServer.new, errno := none, ret := 1 } := by decide
  rw [h] at ho
  cases ho
  simp at h0

/-! ## Table invariant -/

theorem store_nat {α : Type} (tab : List α) (k : Nat) (v : α) (h : k < tab.length) :
    store tab (k : Int) v = some (tab.set k v) := by
  have := store_of_lt tab (k : Int) v (by omega) (by omega)
  simpa using this

theorem load_nat (buf : List uint8_t) (k : Nat) (h : k < buf.length) :
    ∃ b, load buf (k : Int) = some b ∧ byteAt buf k = (b.val : Int) := by
  refine ⟨buf[k], ?_, ?_⟩
  · simp [load, h]
  · simp [byteAt, List.getD_eq_getElem?_getD, h]

theorem to_uint8_val (x : Int) : ((to_uint8 x).val : Int) = x % 256 := by
  unfold to_uint8
  show ((((x % 256).toNat % 256 : Nat)) : Int) = x % 256
  omega

theorem land_255 (x : Int) (h : 0 ≤ x) : Int.land x 0x00ff = x % 256 := by
  obtain ⟨n, rfl⟩ := Int.eq_ofNat_of_zero_le h
  have e : Int.land (n : Int) 0x00ff = ((n &&& 255 : Nat) : Int) := rfl
  rw [e, show (255 : Nat) = 2 ^ 8 - 1 from rfl, Nat.and_pow_two_sub_one_eq_mod]
  norm_num

theorem ldiff_255 (m : Nat) : Nat.ldiff 255 m = 255 - m % 256 := by
  apply Nat.eq_of_testBit_eq
  intro i
  have hm : m % 2 ^ 8 < 2 ^ 8 := Nat.mod_lt _ (by norm_num)
  have e : 255 - m % 256 = 2 ^ 8 - (m % 2 ^ 8 + 1) := by omega
  rw [Nat.testBit_ldiff, e, Nat.testBit_two_pow_sub_succ hm, Nat.testBit_mod_two_pow,
    show (255 : Nat) = 2 ^ 8 - 1 from rfl, Nat.testBit_two_pow_sub_one]
  cases decide (i < 8) <;> cases m.testBit i <;> rfl

/-- The low byte of an `int`, the negative ones included. -/
theorem land_255_int (x : Int) : Int.land x 0x00ff = x % 256 := by
  cases x with
  | ofNat n => exact land_255 (Int.ofNat n) (Int.ofNat_nonneg n)
  | negSucc m =>
    have e : Int.land (Int.negSucc m) 0x00ff = ((Nat.ldiff 255 m : Nat) : Int) := rfl
    rw [e, ldiff_255]
    have : Int.negSucc m = -((m : Int) + 1) := rfl
    rw [this]
    omega

/-- A 16-bit value as an `int` of at least 16 bits: the value itself, or on a
16-bit `int` the value less 65536. -/
theorem wrapInt_uint16 (w : Nat) (hw : 16 ≤ w) (x : Int) (h0 : 0 ≤ x) (h1 : x ≤ 65535) :
    (wrapInt w x = x ∨ wrapInt w x = x - 65536) ∧ (17 ≤ w → wrapInt w x = x) := by
  have hp : (2 : Int) ^ 15 ≤ 2 ^ (w - 1) := pow_le_pow_right₀ (by norm_num) (by omega)
  by_cases hx : x < 2 ^ (w - 1)
  · have hf : Fits w x := ⟨by omega, hx⟩
    exact ⟨Or.inl (wrapInt_of_fits w (by omega) x hf),
      fun _ => wrapInt_of_fits w (by omega) x hf⟩
  · have hw16 : w = 16 := by
      by_contra hne
      have hp2 : (2 : Int) ^ 16 ≤ 2 ^ (w - 1) := pow_le_pow_right₀ (by norm_num) (by omega)
      norm_num at hp2
      omega
    subst hw16
    norm_num at hx
    refine ⟨Or.inr ?_, fun h => absurd h (by decide)⟩
    unfold wrapInt
    norm_num
    omega

theorem shiftRight_8 (x : Int) : x >>> (8 : Nat) = x / 256 := by
  rw [Int.shiftRight_eq_div_pow]
  norm_num

/-- Big-endian 16-bit split of the `int` a 16-bit value becomes: the high and
the low byte are those of the value. -/
theorem high_low_int (w : Nat) (hw : 16 ≤ w) (b0 b1 : Int) (h0 : 0 ≤ b0 ∧ b0 ≤ 255)
    (h1 : 0 ≤ b1 ∧ b1 ≤ 255) :
    ((to_uint8 (wrapInt w (256 * b0 + b1) >>> (8 : Nat))).val : Int) = b0 ∧
    ((to_uint8 (Int.land (wrapInt w (256 * b0 + b1)) 0x00ff)).val : Int) = b1 := by
  rw [to_uint8_val, to_uint8_val, land_255_int, shiftRight_8]
  rcases (wrapInt_uint16 w hw (256 * b0 + b1) (by omega) (by omega)).1 with h | h <;>
    rw [h] <;> constructor <;> omega

/-- Big-endian 16-bit split: the high and the low byte give the value back. -/
theorem high_low (x : Int) (h0 : 0 ≤ x) (h1 : x ≤ 65535) :
    256 * ((to_uint8 (x >>> (8 : Nat))).val : Int) + ((to_uint8 (Int.land x 0x00ff)).val : Int)
      = x := by
  rw [to_uint8_val, to_uint8_val, land_255 x h0, shiftRight_8]
  omega

theorem byteAt_set (buf : List uint8_t) (k i : Nat) (v : uint8_t) (hk : k < buf.length) :
    byteAt (buf.set k v) i = if k = i then (v.val : Int) else byteAt buf i := by
  unfold byteAt
  by_cases h : k = i
  · subst h
    simp [List.getD_eq_getElem?_getD, List.getElem?_set, hk]
  · simp [List.getD_eq_getElem?_getD, List.getElem?_set, h]

theorem byteAt_range (buf : List uint8_t) (i : Nat) : 0 ≤ byteAt buf i ∧ byteAt buf i ≤ 255 := by
  unfold byteAt
  have := (buf.getD i 0).isLt
  omega

theorem next_t_id_le (t : Nat) : next_t_id t ≤ 65535 := by
  unfold next_t_id UINT16_MAX
  split <;> omega

theorem next_t_id_mod (t : Nat) (h : t ≤ 65535) : next_t_id t = (t + 1) % 65536 := by
  unfold next_t_id UINT16_MAX
  split <;> omega

theorem build_request_eq (ctx : modbus_t) (function addr nb : Int) (req : List uint8_t)
    (hlen : 12 ≤ req.length) :
    _modbus_tcp_build_request_basis ctx function addr nb req =
      some {
        state :=
          ({ ctx with backend_data :=
              { ctx.backend_data with t_id := next_t_id ctx.backend_data.t_id } },
            ((((((((((req.set 0
              (to_uint8 ((next_t_id ctx.backend_data.t_id : Int) >>> (8 : Nat)))).set 1
              (to_uint8 (Int.land (next_t_id ctx.backend_data.t_id : Int) 0x00ff))).set 2 0).set
              3 0).set 6 (to_uint8 ctx.slave)).set 7 (to_uint8 function)).set 8
              (to_uint8 (addr >>> (8 : Nat)))).set 9 (to_uint8 (Int.land addr 0x00ff))).set 10
              (to_uint8 (nb >>> (8 : Nat)))).set 11 (to_uint8 (Int.land nb 0x00ff)))),
        errno := none, ret := _MODBUS_TCP_PRESET_REQ_LENGTH } := by
  unfold _modbus_tcp_build_request_basis
  have e (k : Nat) (hk : k < 12) (tab : List uint8_t) (ht : tab.length = req.length)
      (v : uint8_t) : store tab (k : Int) v = some (tab.set k v) :=
    store_nat tab k v (by omega)
  have e0 := fun tab ht v => e 0 (by decide) tab ht v
  have e1 := fun tab ht v => e 1 (by decide) tab ht v
  have e2 := fun tab ht v => e 2 (by decide) tab ht v
  have e3 := fun tab ht v => e 3 (by decide) tab ht v
  have e6 := fun tab ht v => e 6 (by decide) tab ht v
  have e7 := fun tab ht v => e 7 (by decide) tab ht v
  have e8 := fun tab ht v => e 8 (by decide) tab ht v
  have e9 := fun tab ht v => e 9 (by decide) tab ht v
  have e10 := fun tab ht v => e 10 (by decide) tab ht v
  have e11 := fun tab ht v => e 11 (by decide) tab ht v
  simp only [Nat.cast_ofNat, Nat.cast_zero, Nat.cast_one] at e0 e1 e2 e3 e6 e7 e8 e9 e10 e11
  simp only [e0, e1, e2, e3, e6, e7, e8, e9, e10, e11, List.length_set, Option.bind_eq_bind,
    Option.some_bind, Option.pure_def, next_t_id]

theorem request_bytes (req : List uint8_t) (v0 v1 v2 v3 v6 v7 v8 v9 v10 v11 : uint8_t)
    (hlen : 12 ≤ req.length) (r : List uint8_t)
    (hr : r = ((((((((((req.set 0 v0).set 1 v1).set 2 v2).set 3 v3).set 6 v6).set 7 v7).set 8
      v8).set 9 v9).set 10 v10).set 11 v11)) :
    r.length = req.length ∧
    (byteAt r 0 = v0.val ∧ byteAt r 1 = v1.val ∧ byteAt r 2 = v2.val ∧ byteAt r 3 = v3.val ∧
      byteAt r 6 = v6.val ∧ byteAt r 7 = v7.val ∧ byteAt r 8 = v8.val ∧ byteAt r 9 = v9.val ∧
      byteAt r 10 = v10.val ∧ byteAt r 11 = v11.val) ∧
    r[4]? = req[4]? ∧ r[5]? = req[5]? ∧ ∀ j, 12 ≤ j → r[j]? = req[j]? := by
  subst hr
  have h0 : 0 < req.length := by omega
  have h1 : 1 < req.length := by omega
  have h2 : 2 < req.length := by omega
  have h3 : 3 < req.length := by omega
  have h6 : 6 < req.length := by omega
  have h7 : 7 < req.length := by omega
  have h8 : 8 < req.length := by omega
  have h9 : 9 < req.length := by omega
  have h10 : 10 < req.length := by omega
  have h11 : 11 < req.length := by omega
  refine ⟨by simp only [List.length_set], ?_, ?_, ?_, ?_⟩
  · simp [byteAt_set, List.length_set, h0, h1, h2, h3, h6, h7, h8, h9, h10, h11]
  · simp [List.getElem?_set]
  · simp [List.getElem?_set]
  · intro j hj
    have e0 : ¬ 0 = j := by omega
    have e1 : ¬ 1 = j := by omega
    have e2 : ¬ 2 = j := by omega
    have e3 : ¬ 3 = j := by omega
    have e6 : ¬ 6 = j := by omega
    have e7 : ¬ 7 = j := by omega
    have e8 : ¬ 8 = j := by omega
    have e9 : ¬ 9 = j := by omega
    have e10 : ¬ 10 = j := by omega
    have e11 : ¬ 11 = j := by omega
    simp only [List.getElem?_set, if_neg e0, if_neg e1, if_neg e2, if_neg e3, if_neg e6,
      if_neg e7, if_neg e8, if_neg e9, if_neg e10, if_neg e11]

/-- The request header of a call whose arguments are in range. -/
theorem build_request_layout (ctx : modbus_t) (function addr nb : Int) (req : List uint8_t)
    (hunit : ValidUnit ctx.slave) (hfunction : 0 ≤ function ∧ function ≤ 255)
    (haddr : 0 ≤ addr ∧ addr ≤ 65535) (hnb : 0 ≤ nb ∧ nb ≤ 65535) (hlen : 12 ≤ req.length) :
    ∃ r,
      _modbus_tcp_build_request_basis ctx function addr nb req =
        some {
          state :=
            ({ ctx with backend_data :=
                { ctx.backend_data with t_id := next_t_id ctx.backend_data.t_id } }, r),
          errno := none, ret := 12 } ∧
      RequestHeader (next_t_id ctx.backend_data.t_id) ctx.slave function addr nb req r := by
  obtain ⟨hl, ⟨b0, b1, b2, b3, b6, b7, b8, b9, b10, b11⟩, k4, k5, krest⟩ :=
    request_bytes req _ _ _ _ _ _ _ _ _ _ hlen _ rfl
  refine ⟨_, build_request_eq ctx function addr nb req hlen, hl, ?_, b2, b3, ?_, ?_, ?_,
    ?_, k4, k5, krest⟩
  · rw [b0, b1]
    exact high_low _ (by omega) (by have := next_t_id_le ctx.backend_data.t_id; omega)
  · unfold ValidUnit at hunit
    rw [b6, to_uint8_val]; omega
  · rw [b7, to_uint8_val]; omega
  · rw [b8, b9]; exact high_low addr haddr.1 haddr.2
  · rw [b10, b11]; exact high_low nb hnb.1 hnb.2

theorem build_request_tid (ctx : modbus_t) (function addr nb : Int) (req : List uint8_t)
    (hlen : 12 ≤ req.length) :
    ∃ r,
      _modbus_tcp_build_request_basis ctx function addr nb req =
        some {
          state :=
            ({ ctx with backend_data :=
                { ctx.backend_data with t_id := next_t_id ctx.backend_data.t_id } }, r),
          errno := none, ret := 12 } ∧
      r.length = req.length ∧
      256 * byteAt r 0 + byteAt r 1 = next_t_id ctx.backend_data.t_id := by
  obtain ⟨hl, ⟨b0, b1, _⟩, _⟩ := request_bytes req _ _ _ _ _ _ _ _ _ _ hlen _ rfl
  refine ⟨_, build_request_eq ctx function addr nb req hlen, hl, ?_⟩
  rw [b0, b1]
  exact high_low _ (by omega) (by have := next_t_id_le ctx.backend_data.t_id; omega)

theorem request_ids_eq (calls : List (Int × Int × Int)) :
    ∀ (ctx : modbus_t) (req : List uint8_t), ctx.backend_data.t_id ≤ 65535 → 12 ≤ req.length →
      request_ids ctx req calls =
        some ((List.range calls.length).map
          fun i => (((ctx.backend_data.t_id + 1 + i) % 65536 : Nat) : Int)) := by
  induction calls with
  | nil => intro ctx req _ _; rfl
  | cons c rest ih =>
    intro ctx req ht hlen
    obtain ⟨function, addr, nb⟩ := c
    obtain ⟨r, hr, hl, hid⟩ := build_request_tid ctx function addr nb req hlen
    have hnext := next_t_id_mod ctx.backend_data.t_id ht
    have ih' := ih { ctx with backend_data :=
        { ctx.backend_data with t_id := next_t_id ctx.backend_data.t_id } } r
      (next_t_id_le _) (by omega)
    simp only [request_ids, hr, ih', hid, List.length_cons, List.range_succ_eq_map,
      List.map_cons, List.map_map]
    rw [hnext]
    simp only [Nat.add_zero, Option.some.injEq, List.cons.injEq, true_and]
    apply List.map_congr_left
    intro i _
    simp only [Function.comp_apply, Nat.succ_eq_add_one]
    omega

/-- C13 (the code breaks it).  With equal transaction ids, a response whose
protocol id is `0x0100` or `0x0001` is confirmed with result 0: the check
rejects a protocol id only when both of its bytes are nonzero, as for `0x0101`. -/
theorem confirmation_accepts_nonzero_protocol_id (ctx : modbus_t) (rsp_length : Int) :
    _modbus_tcp_pre_check_confirmation ctx [0, 1, 0, 0, 0, 6] [0, 1, 1, 0, 0, 6] rsp_length =
      some { state := ctx, errno := none, ret := 0 } ∧
    _modbus_tcp_pre_check_confirmation ctx [0, 1, 0, 0, 0, 6] [0, 1, 0, 1, 0, 6] rsp_length =
      some { state := ctx, errno := none, ret := 0 } ∧
    _modbus_tcp_pre_check_confirmation ctx [0, 1, 0, 0, 0, 6] [0, 1, 1, 1, 0, 6] rsp_length =
      some { state := ctx, errno := some Errno.EMBBADDATA, ret := -1 } ∧
    _modbus_tcp_pre_check_confirmation ctx [0, 1, 0, 0, 0, 6] [0, 2, 0, 0, 0, 6] rsp_length =
      some { state := ctx, errno := some Errno.EMBBADDATA, ret := -1 } :=
  ⟨rfl, rfl, rfl, rfl⟩

/-- C14. Request header layout: for every context whose unit id is in
`[0, 247]` or 255, every function code in `[0, 255]`, every address and count in
`[0, 65535]` and every buffer of at least 12 bytes, `_modbus_tcp_build_request_basis`
leaves `256 * req[0] + req[1]` equal to the advanced transaction id of the
backend, `req[2] = req[3] = 0`, `req[6]` the unit id, `req[7]` the function,
`256 * req[8] + req[9]` the address and `256 * req[10] + req[11]` the count;
bytes 4 and 5 and every byte from index 12 on are unchanged. -/
theorem request_header_layout (ctx : modbus_t) (function addr nb : Int) (req : List uint8_t)
    (hunit : ValidUnit ctx.slave) (hfunction : 0 ≤ function ∧ function ≤ 255)
    (haddr : 0 ≤ addr ∧ addr ≤ 65535) (hnb : 0 ≤ nb ∧ nb ≤ 65535) (hlen : 12 ≤ req.length) :
    ∃ ctx' r,
      _modbus_tcp_build_request_basis ctx function addr nb req =
        some { state := (ctx', r), errno := none, ret := 12 } ∧
      ctx'.slave = ctx.slave ∧
      RequestHeader ctx'.backend_data.t_id ctx.slave function addr nb req r := by
  obtain ⟨r, hr, hlayout⟩ := build_request_layout ctx function addr nb req hunit hfunction
    haddr hnb hlen
  exact ⟨_, r, hr, rfl, hlayout⟩

theorem request_header_layout_witness :
    ValidUnit (modbus_new_tcp 502).slave ∧ ((0 : Int) ≤ 3 ∧ (3 : Int) ≤ 255) ∧
    ((0 : Int) ≤ 4660 ∧ (4660 : Int) ≤ 65535) ∧ ((0 : Int) ≤ 2 ∧ (2 : Int) ≤ 65535) ∧
    12 ≤ sampleRequest.length ∧
    ∃ ctx' r,
      _modbus_tcp_build_request_basis (modbus_new_tcp 502) 3 4660 2 sampleRequest =
        some { state := (ctx', r), errno := none, ret := 12 } ∧
      ctx'.slave = (modbus_new_tcp 502).slave ∧
      RequestHeader ctx'.backend_data.t_id (modbus_new_tcp 502).slave 3 4660 2 sampleRequest r :=
  ⟨by decide, by decide, by decide, by decide, by decide,
   request_header_layout (modbus_new_tcp 502) 3 4660 2 sampleRequest (by decide) (by decide)
     (by decide) (by decide) (by decide)⟩

/-- C15. Transaction id wraparound: for every stored transaction id `t` in
`[0, 65535]`, one call of `_modbus_tcp_build_request_basis` leaves the stored id
equal to `(t + 1) mod 65536`, so 65535 is followed by 0, and writes that id in
the header; `k` successive requests carry the ids `(t + 1) mod 2^16`, ...,
`(t + k) mod 2^16`, and the ids of up to 65536 successive requests are pairwise
distinct. -/
theorem transaction_id_wraps (ctx : modbus_t) (ht : ctx.backend_data.t_id ≤ 65535) :
    (∀ function addr nb req, 12 ≤ req.length →
      ∃ ctx' r,
        _modbus_tcp_build_request_basis ctx function addr nb req =
          some { state := (ctx', r), errno := none, ret := 12 } ∧
        ctx'.backend_data.t_id = (ctx.backend_data.t_id + 1) % 65536 ∧
        256 * byteAt r 0 + byteAt r 1 = ((ctx'.backend_data.t_id : Nat) : Int)) ∧
    (∀ req calls, 12 ≤ req.length →
      request_ids ctx req calls =
        some ((List.range calls.length).map
          fun i => (((ctx.backend_data.t_id + 1 + i) % 65536 : Nat) : Int))) ∧
    (∀ req calls ids, 12 ≤ req.length → calls.length ≤ 65536 →
      request_ids ctx req calls = some ids → ids.Nodup) := by
  refine ⟨?_, ?_, ?_⟩
  · intro function addr nb req hlen
    obtain ⟨r, hr, _, hid⟩ := build_request_tid ctx function addr nb req hlen
    exact ⟨_, r, hr, next_t_id_mod _ ht, hid⟩
  · intro req calls hlen
    exact request_ids_eq calls ctx req ht hlen
  · intro req calls ids hlen hk hids
    rw [request_ids_eq calls ctx req ht hlen] at hids
    cases hids
    apply List.Nodup.map_on _ (List.nodup_range _)
    intro x hx y hy hxy
    rw [List.mem_range] at hx hy
    omega

theorem transaction_id_wraps_witness :
    ({ modbus_new_tcp 502 with backend_data := { port := 502, t_id := 65535 } } :
      modbus_t).backend_data.t_id ≤ 65535 ∧
    12 ≤ sampleRequest.length ∧
    request_ids { modbus_new_tcp 502 with backend_data := { port := 502, t_id := 65535 } }
        sampleRequest [(3, 0, 1), (3, 0, 1), (3, 0, 1)] =
      some ((List.range 3).map fun i => (((65535 + 1 + i) % 65536 : Nat) : Int)) :=
  ⟨by decide, by decide,
   (transaction_id_wraps
     { modbus_new_tcp 502 with backend_data := { port := 502, t_id := 65535 } }
     (by decide)).2.1 sampleRequest [(3, 0, 1), (3, 0, 1), (3, 0, 1)] (by decide)⟩

/-- C16. Length patching: for every buffer of at least 6 bytes and every
`total_len` with `6 ≤ total_len ≤ 65541`, `_modbus_tcp_send_msg_pre` returns
`total_len`, leaves `256 * req[4] + req[5] = total_len - 6` and changes no byte
other than bytes 4 and 5. -/
theorem length_patching (req : List uint8_t) (total_len : Int) (hmin : 6 ≤ total_len)
    (hmax : total_len ≤ 65541) (hlen : 6 ≤ req.length) :
    ∃ r,
      _modbus_tcp_send_msg_pre req total_len =
        some { state := r, errno := none, ret := total_len } ∧
      r.length = req.length ∧
      256 * byteAt r 4 + byteAt r 5 = total_len - 6 ∧
      ∀ j, j ≠ 4 → j ≠ 5 → r[j]? = req[j]? := by
  have h4 : 4 < req.length := by omega
  have h5 : 5 < req.length := by omega
  have e4 := fun v => store_nat req 4 v h4
  have e5 := fun (tab : List uint8_t) (ht : tab.length = req.length) v =>
    store_nat tab 5 v (by omega)
  simp only [Nat.cast_ofNat] at e4 e5
  refine ⟨(req.set 4 (to_uint8 ((total_len - 6) >>> (8 : Nat)))).set 5
      (to_uint8 (Int.land (total_len - 6) 0x00FF)), ?_, ?_, ?_, ?_⟩
  · simp only [_modbus_tcp_send_msg_pre, e4, e5, List.length_set, Option.bind_eq_bind,
      Option.some_bind, Option.pure_def]
  · simp only [List.length_set]
  · have h5' : 5 < (req.set 4 (to_uint8 ((total_len - 6) >>> (8 : Nat)))).length := by
      simp only [List.length_set]; exact h5
    rw [byteAt_set _ 5 4 _ h5', if_neg (by decide), byteAt_set _ 4 4 _ h4, if_pos rfl,
      byteAt_set _ 5 5 _ h5', if_pos rfl]
    exact high_low (total_len - 6) (by omega) (by omega)
  · intro j j4 j5
    simp only [List.getElem?_set, if_neg (Ne.symm j4), if_neg (Ne.symm j5)]

theorem length_patching_witness :
    (6 : Int) ≤ 12 ∧ (12 : Int) ≤ 65541 ∧ 6 ≤ sampleRequest.length ∧
    ∃ r,
      _modbus_tcp_send_msg_pre sampleRequest 12 =
        some { state := r, errno := none, ret := 12 } ∧
      r.length = sampleRequest.length ∧
      256 * byteAt r 4 + byteAt r 5 = 12 - 6 ∧
      ∀ j, j ≠ 4 → j ≠ 5 → r[j]? = sampleRequest[j]? :=
  ⟨by decide, by decide, by decide,
   length_patching sampleRequest 12 (by decide) (by decide) (by decide)⟩

theorem response_bytes (rsp : List uint8_t) (v0 v1 v2 v3 v6 v7 : uint8_t)
    (hlen : 8 ≤ rsp.length) (r : List uint8_t)
    (hr : r = ((((((rsp.set 0 v0).set 1 v1).set 2 v2).set 3 v3).set 6 v6).set 7 v7)) :
    r.length = rsp.length ∧
    (byteAt r 0 = v0.val ∧ byteAt r 1 = v1.val ∧ byteAt r 2 = v2.val ∧ byteAt r 3 = v3.val ∧
      byteAt r 6 = v6.val ∧ byteAt r 7 = v7.val) ∧
    r[4]? = rsp[4]? ∧ r[5]? = rsp[5]? ∧ ∀ j, 8 ≤ j → r[j]? = rsp[j]? := by
  subst hr
  have h0 : 0 < rsp.length := by omega
  have h1 : 1 < rsp.length := by omega
  have h2 : 2 < rsp.length := by omega
  have h3 : 3 < rsp.length := by omega
  have h6 : 6 < rsp.length := by omega
  have h7 : 7 < rsp.length := by omega
  refine ⟨by simp only [List.length_set], ?_, ?_, ?_, ?_⟩
  · simp [byteAt_set, List.length_set, h0, h1, h2, h3, h6, h7]
  · simp [List.getElem?_set]
  · simp [List.getElem?_set]
  · intro j hj
    have e0 : ¬ 0 = j := by omega
    have e1 : ¬ 1 = j := by omega
    have e2 : ¬ 2 = j := by omega
    have e3 : ¬ 3 = j := by omega
    have e6 : ¬ 6 = j := by omega
    have e7 : ¬ 7 = j := by omega
    simp only [List.getElem?_set, if_neg e0, if_neg e1, if_neg e2, if_neg e3, if_neg e6,
      if_neg e7]

theorem build_response_eq (sft : sft_t) (rsp : List uint8_t) (hlen : 8 ≤ rsp.length) :
    _modbus_tcp_build_response_basis sft rsp =
      some {
        state :=
          ((((((rsp.set 0 (to_uint8 (sft.t_id >>> (8 : Nat)))).set 1
            (to_uint8 (Int.land sft.t_id 0x00ff))).set 2 0).set 3 0).set 6
            (to_uint8 sft.slave)).set 7 (to_uint8 sft.function)),
        errno := none, ret := _MODBUS_TCP_PRESET_RSP_LENGTH } := by
  unfold _modbus_tcp_build_response_basis
  have e (k : Nat) (hk : k < 8) (tab : List uint8_t) (ht : tab.length = rsp.length)
      (v : uint8_t) : store tab (k : Int) v = some (tab.set k v) :=
    store_nat tab k v (by omega)
  have e0 := fun tab ht v => e 0 (by decide) tab ht v
  have e1 := fun tab ht v => e 1 (by decide) tab ht v
  have e2 := fun tab ht v => e 2 (by decide) tab ht v
  have e3 := fun tab ht v => e 3 (by decide) tab ht v
  have e6 := fun tab ht v => e 6 (by decide) tab ht v
  have e7 := fun tab ht v => e 7 (by decide) tab ht v
  simp only [Nat.cast_ofNat, Nat.cast_zero, Nat.cast_one] at e0 e1 e2 e3 e6 e7
  simp only [e0, e1, e2, e3, e6, e7, List.length_set, Option.bind_eq_bind, Option.some_bind,
    Option.pure_def]

theorem prepare_response_tid_eq (w : Nat) (req : List uint8_t) (hlen : 2 ≤ req.length) :
    _modbus_tcp_prepare_response_tid w req =
      some (wrapInt w (256 * byteAt req 0 + byteAt req 1)) := by
  obtain ⟨b0, l0, v0⟩ := load_nat req 0 (by omega)
  obtain ⟨b1, l1, v1⟩ := load_nat req 1 (by omega)
  simp only [Nat.cast_zero, Nat.cast_one] at l0 l1
  simp only [_modbus_tcp_prepare_response_tid, l0, l1, Option.bind_eq_bind, Option.some_bind,
    Option.pure_def, v0, v1, Nat.shiftLeft_eq]
  congr 2
  push_cast
  ring

/-- The response header built from what a request carries. -/
theorem build_response_layout (w : Nat) (hw : 16 ≤ w) (req rsp : List uint8_t)
    (hrsp : 8 ≤ rsp.length) :
    ∃ r,
      _modbus_tcp_build_response_basis
          { slave := byteAt req 6, function := byteAt req 7,
            t_id := wrapInt w (256 * byteAt req 0 + byteAt req 1) } rsp =
        some { state := r, errno := none, ret := 8 } ∧
      ResponseHeader req rsp r := by
  obtain ⟨hl, ⟨b0, b1, b2, b3, b6, b7⟩, k4, k5, krest⟩ :=
    response_bytes rsp _ _ _ _ _ _ hrsp _ rfl
  have r0 := byteAt_range req 0
  have r1 := byteAt_range req 1
  have r6 := byteAt_range req 6
  have r7 := byteAt_range req 7
  have hb := high_low_int w hw (byteAt req 0) (byteAt req 1) r0 r1
  refine ⟨_, build_response_eq _ rsp hrsp, hl, ?_, ?_, b2, b3, ?_, ?_, k4, k5, krest⟩
  · rw [b0]
    exact hb.1
  · rw [b1]
    exact hb.2
  · rw [b6, to_uint8_val]
    dsimp only
    omega
  · rw [b7, to_uint8_val]
    dsimp only
    omega

/-- C17 (amended). The response header mirrors the request: where an `int` has
`w ≥ 16` bits, for every request of at least 8 bytes and every response buffer
of at least 8 bytes, `_modbus_tcp_prepare_response_tid` returns the `int` that
`256 * req[0] + req[1]` becomes, which is that value where an `int` has more
than 16 bits and that value or that value less 65536 on a 16-bit `int`; and
`_modbus_tcp_build_response_basis`, given that id, `req[6]` and `req[7]`, writes
`rsp[0] = req[0]`, `rsp[1] = req[1]`, `rsp[2] = rsp[3] = 0`, `rsp[6] = req[6]`
and `rsp[7] = req[7]`, leaving bytes 4 and 5 and every byte from index 8 on
unchanged. -/
theorem response_mirrors_request (w : Nat) (hw : 16 ≤ w) (req rsp : List uint8_t)
    (hreq : 8 ≤ req.length) (hrsp : 8 ≤ rsp.length) :
    ∃ t_id r,
      _modbus_tcp_prepare_response_tid w req = some t_id ∧
      t_id = wrapInt w (256 * byteAt req 0 + byteAt req 1) ∧
      (17 ≤ w → t_id = 256 * byteAt req 0 + byteAt req 1) ∧
      (t_id = 256 * byteAt req 0 + byteAt req 1 ∨
        t_id = 256 * byteAt req 0 + byteAt req 1 - 65536) ∧
      _modbus_tcp_build_response_basis
          { slave := byteAt req 6, function := byteAt req 7, t_id := t_id } rsp =
        some { state := r, errno := none, ret := 8 } ∧
      ResponseHeader req rsp r := by
  obtain ⟨r, hr, hlayout⟩ := build_response_layout w hw req rsp hrsp
  have r0 := byteAt_range req 0
  have r1 := byteAt_range req 1
  have hid := wrapInt_uint16 w hw (256 * byteAt req 0 + byteAt req 1) (by omega) (by omega)
  exact ⟨_, r, prepare_response_tid_eq w req (by omega), rfl, hid.2, hid.1, hr, hlayout⟩

theorem response_mirrors_request_witness :
    16 ≤ 32 ∧ 8 ≤ ([18, 52, 0, 0, 0, 6, 17, 3, 0, 0, 0, 1] : List uint8_t).length ∧
    8 ≤ sampleRequest.length ∧
    ∃ t_id r,
      _modbus_tcp_prepare_response_tid 32 [18, 52, 0, 0, 0, 6, 17, 3, 0, 0, 0, 1] =
        some t_id ∧
      t_id = wrapInt 32 (256 * byteAt [18, 52, 0, 0, 0, 6, 17, 3, 0, 0, 0, 1] 0 +
        byteAt [18, 52, 0, 0, 0, 6, 17, 3, 0, 0, 0, 1] 1) ∧
      (17 ≤ 32 → t_id = 256 * byteAt [18, 52, 0, 0, 0, 6, 17, 3, 0, 0, 0, 1] 0 +
        byteAt [18, 52, 0, 0, 0, 6, 17, 3, 0, 0, 0, 1] 1) ∧
      (t_id = 256 * byteAt [18, 52, 0, 0, 0, 6, 17, 3, 0, 0, 0, 1] 0 +
          byteAt [18, 52, 0, 0, 0, 6, 17, 3, 0, 0, 0, 1] 1 ∨
        t_id = 256 * byteAt [18, 52, 0, 0, 0, 6, 17, 3, 0, 0, 0, 1] 0 +
          byteAt [18, 52, 0, 0, 0, 6, 17, 3, 0, 0, 0, 1] 1 - 65536) ∧
      _modbus_tcp_build_response_basis
          { slave := byteAt [18, 52, 0, 0, 0, 6, 17, 3, 0, 0, 0, 1] 6,
            function := byteAt [18, 52, 0, 0, 0, 6, 17, 3, 0, 0, 0, 1] 7, t_id := t_id }
          sampleRequest =
        some { state := r, errno := none, ret := 8 } ∧
      ResponseHeader [18, 52, 0, 0, 0, 6, 17, 3, 0, 0, 0, 1] sampleRequest r :=
  ⟨by decide, by decide, by decide,
   response_mirrors_request 32 (by decide) [18, 52, 0, 0, 0, 6, 17, 3, 0, 0, 0, 1]
     sampleRequest (by decide) (by decide)⟩

/-- C17 as stated fails: with a 16-bit `int`, for the request whose transaction
id bytes are `0x80, 0x00`, `_modbus_tcp_prepare_response_tid` returns -32768,
not `256 * req[0] + req[1] = 32768`. -/
theorem prepare_response_tid_negative :
    _modbus_tcp_prepare_response_tid 16 [128, 0, 0, 0, 0, 6, 17, 3, 0, 0, 0, 1] =
      some (-32768) ∧
    256 * byteAt [128, 0, 0, 0, 0, 6, 17, 3, 0, 0, 0, 1] 0 +
      byteAt [128, 0, 0, 0, 0, 6, 17, 3, 0, 0, 0, 1] 1 = 32768 ∧
    _modbus_tcp_prepare_response_tid 16 [128, 0, 0, 0, 0, 6, 17, 3, 0, 0, 0, 1] ≠
      some (256 * byteAt [128, 0, 0, 0, 0, 6, 17, 3, 0, 0, 0, 1] 0 +
        byteAt [128, 0, 0, 0, 0, 6, 17, 3, 0, 0, 0, 1] 1) := by
  refine ⟨by decide, by decide, by decide⟩

/-! ## Unit identifier -/

theorem set_slave_eq (ctx : modbus_t) (id : Int) :
    _modbus_set_slave ctx id =
      if ValidUnit id then { state := { ctx with slave := id }, errno := none, ret := 0 }
      else { state := ctx, errno := some Errno.EINVAL, ret := -1 } := by
  unfold _modbus_set_slave ValidUnit MODBUS_TCP_SLAVE
  by_cases h1 : id ≥ 0 ∧ id ≤ 247
  · have h : (0 ≤ id ∧ id ≤ 247) ∨ id = 255 := Or.inl ⟨h1.1, h1.2⟩
    rw [if_pos h1, if_pos h]
  · by_cases h2 : id = 0xFF
    · have h : (0 ≤ id ∧ id ≤ 247) ∨ id = 255 := Or.inr h2
      rw [if_neg h1, if_pos h2, if_pos h]
    · have h : ¬ ((0 ≤ id ∧ id ≤ 247) ∨ id = 255) := by
        rintro (h | h)
        · exact h1 ⟨h.1, h.2⟩
        · exact h2 h
      rw [if_neg h1, if_neg h2, if_neg h]

theorem set_slave_valid (ctx : modbus_t) (id : Int) (h : ValidUnit ctx.slave) :
    ValidUnit (_modbus_set_slave ctx id).state.slave := by
  rw [set_slave_eq]
  by_cases hv : ValidUnit id
  · rw [if_pos hv]; exact hv
  · rw [if_neg hv]; exact h

theorem build_request_slave (ctx : modbus_t) (function addr nb : Int) (req : List uint8_t)
    (o : Outcome (modbus_t × List uint8_t) Int)
    (h : _modbus_tcp_build_request_basis ctx function addr nb req = some o) :
    o.state.1.slave = ctx.slave := by
  simp only [_modbus_tcp_build_request_basis, Option.bind_eq_bind, Option.bind_eq_some,
    Option.pure_def, Option.some.injEq] at h
  obtain ⟨_, _, _, _, _, _, _, _, _, _, _, _, _, _, _, _, _, _, _, _, rfl⟩ := h
  rfl

/-- C18. Unit id validation: for every context and every `int` id, the TCP
backend's `_modbus_set_slave` returns 0 and sets the unit id to `id`, changing
no other field of the context, exactly when `0 ≤ id ≤ 247` or `id = 255`; for
every other id it returns -1 with the invalid-argument error and leaves the
context as it was. -/
theorem unit_id_validation (ctx : modbus_t) (id : Int) :
    (ValidUnit id →
      _modbus_set_slave ctx id =
        { state := { ctx with slave := id }, errno := none, ret := 0 }) ∧
    (¬ ValidUnit id →
      _modbus_set_slave ctx id = { state := ctx, errno := some Errno.EINVAL, ret := -1 }) ∧
    ((_modbus_set_slave ctx id).ret = 0 ↔ ValidUnit id) := by
  rw [set_slave_eq]
  by_cases h : ValidUnit id
  · simp [h]
  · simp [h]

theorem unit_id_validation_witness :
    ValidUnit 247 ∧
    _modbus_set_slave (modbus_new_tcp 502) 247 =
      { state := { modbus_new_tcp 502 with slave := 247 }, errno := none, ret := 0 } ∧
    ¬ ValidUnit 248 ∧
    _modbus_set_slave (modbus_new_tcp 502) 248 =
      { state := modbus_new_tcp 502, errno := some Errno.EINVAL, ret := -1 } :=
  ⟨by decide, (unit_id_validation (modbus_new_tcp 502) 247).1 (by decide), by decide,
   (unit_id_validation (modbus_new_tcp 502) 248).2.1 (by decide)⟩

/-- C19. Unit id domain invariant: in every context reached from one made by
`modbus_new_tcp` through set-unit calls, the `begin` and `setId` of a server and
request header building, with any arguments, the unit id lies in `[0, 247]` or
is 255, so it fits the one-byte unit identifier field of the header. -/
theorem unit_id_invariant (ctx : modbus_t) (h : CtxReachable ctx) :
    ValidUnit ctx.slave ∧ 0 ≤ ctx.slave ∧ ctx.slave ≤ 255 := by
  have hv : ValidUnit ctx.slave := by
    induction h with
    | new_tcp port => exact Or.inr rfl
    | set_slave ctx id _ ih => exact set_slave_valid ctx id ih
    | begin self ctx ctx' id _ hb ih =>
      have e : (self.begin (some ctx) id).state._mb = some (_modbus_set_slave ctx id).state :=
        rfl
      rw [e] at hb
      cases hb
      exact set_slave_valid ctx id ih
    | setId self ctx ctx' id _ hmb hs ih =>
      unfold ModbusServer.setId at hs
      rw [hmb] at hs
      by_cases hid : id ≥ 1
      · simp only [if_pos hid, modbus_set_slave] at hs
        cases hs
        exact set_slave_valid ctx id ih
      · simp only [if_neg hid, hmb] at hs
        cases hs
        exact ih
    | build_request ctx function addr nb req o _ ho ih =>
      rw [build_request_slave ctx function addr nb req o ho]
      exact ih
  refine ⟨hv, ?_, ?_⟩ <;> (unfold ValidUnit at hv; omega)

theorem unit_id_invariant_witness :
    CtxReachable (_modbus_set_slave (modbus_new_tcp 502) 17).state ∧
    ValidUnit (_modbus_set_slave (modbus_new_tcp 502) 17).state.slave ∧
    0 ≤ (_modbus_set_slave (modbus_new_tcp 502) 17).state.slave ∧
    (_modbus_set_slave (modbus_new_tcp 502) 17).state.slave ≤ 255 :=
  ⟨CtxReachable.set_slave _ 17 (CtxReachable.new_tcp 502),
   unit_id_invariant _ (CtxReachable.set_slave _ 17 (CtxReachable.new_tcp 502))⟩

/-- C20. The `setId` and `getId` contract, the engine's set-unit and get-unit
calls forwarding to the TCP backend.  With no backend installed `setId(id)`
returns 0 and `getId()` returns -1, for every id.  With a backend installed
`setId(id)` returns 1; for every `id < 1`, the broadcast address 0 included, it
leaves the server as it was, so `getId()` is unchanged; for every id in
`[1, 247]` and for 255, `getId()` afterwards returns `id`; and `getId()` changes
only when `id ≥ 1`. -/
theorem setId_getId_contract (self : ModbusServer) (id : Int) :
    (self._mb = none →
      self.setId id = { state := self, errno := none, ret := 0 } ∧ self.getId = -1) ∧
    (∀ ctx, self._mb = some ctx →
      (self.setId id).ret = 1 ∧
      (id < 1 → self.setId id = { state := self, errno := none, ret := 1 }) ∧
      ((1 ≤ id ∧ id ≤ 247) ∨ id = 255 → (self.setId id).state.getId = id) ∧
      ((self.setId id).state.getId ≠ self.getId → 1 ≤ id)) := by
  refine ⟨fun h => ?_, fun ctx h => ?_⟩
  · simp only [ModbusServer.setId, ModbusServer.getId, h, and_self]
  · by_cases hid : id ≥ 1
    · have e : self.setId id =
          { state := { self with _mb := some (_modbus_set_slave ctx id).state },
            errno := (_modbus_set_slave ctx id).errno, ret := 1 } := by
        simp only [ModbusServer.setId, h, if_pos hid, modbus_set_slave]
      refine ⟨by rw [e], fun hlt => absurd hid (by omega), fun hv => ?_, fun _ => hid⟩
      have hvu : ValidUnit id := by
        unfold ValidUnit
        omega
      rw [e, set_slave_eq, if_pos hvu]
      rfl
    · have e : self.setId id = { state := self, errno := none, ret := 1 } := by
        simp only [ModbusServer.setId, h, if_neg hid]
      refine ⟨by rw [e], fun _ => e, fun hv => absurd hv (by omega), fun hne => ?_⟩
      rw [e] at hne
      exact absurd rfl hne

theorem setId_getId_contract_witness :
    tcpServer._mb = some { modbus_new_tcp 502 with slave := 17 } ∧
    ((1 : Int) ≤ 42 ∧ (42 : Int) ≤ 247 ∨ (42 : Int) = 255) ∧
    (tcpServer.setId 42).state.getId = 42 ∧
    (0 : Int) < 1 ∧
    tcpServer.setId 0 = { state := tcpServer, errno := none, ret := 1 } ∧
    ModbusServer.new._mb = none ∧ ModbusServer.new.getId = -1 :=
  ⟨rfl, by decide,
   ((setId_getId_contract tcpServer 42).2 _ rfl).2.2.1 (by decide), by decide,
   ((setId_getId_contract tcpServer 0).2 _ rfl).2.1 (by decide), rfl,
   ((setId_getId_contract ModbusServer.new 7).1 rfl).2⟩


/-! ## Connection -/

theorem rejectsAll_of_unconfigured (w : Nat) (hw : 1 ≤ w) (s : ModbusServer)
    (h : Unconfigured s._mbMapping) : RejectsAll w s := by
  obtain ⟨s1, n1, _, s2, n2, _, s3, n3, _, s4, n4, _⟩ := h
  have f1 : Fits w s._mbMapping.start_bits := by rw [s1]; exact fits_zero w
  have f2 : Fits w s._mbMapping.start_input_bits := by rw [s2]; exact fits_zero w
  have f3 : Fits w s._mbMapping.start_registers := by rw [s3]; exact fits_zero w
  have f4 : Fits w s._mbMapping.start_input_registers := by rw [s4]; exact fits_zero w
  intro a
  have c1 := check_of_empty w hw _ _ a n1 f1
  have c2 := check_of_empty w hw _ _ a n2 f2
  have c3 := check_of_empty w hw _ _ a n3 f3
  have c4 := check_of_empty w hw _ _ a n4 f4
  refine ⟨by simp only [coilRead, if_pos c1], by simp only [discreteInputRead, if_pos c2],
    by simp only [holdingRegisterRead, if_pos c3], by simp only [inputRegisterRead, if_pos c4],
    fun v => by simp only [coilWrite, if_pos c1],
    fun v => by simp only [holdingRegisterWrite, if_pos c3],
    fun _ _ => by simp [registerMaskWrite, holdingRegisterRead, if_pos c3],
    fun ha v => ?_, fun ha v => ?_, fun values n hn han => ?_, fun values n hn han => ?_,
    fun ha values => ?_, fun ha values => ?_⟩
  · have c := span_check_of_empty w hw _ _ a 1 n2 f2 (by decide) ha
    simp only [discreteInputWrite, writeDiscreteInputs, if_pos c]
  · have c := span_check_of_empty w hw _ _ a 1 n4 f4 (by decide) ha
    simp only [inputRegisterWrite, writeInputRegisters, if_pos c]
  · have c := span_check_of_empty w hw _ _ a n n2 f2 hn han
    simp only [writeDiscreteInputs, if_pos c]
  · have c := span_check_of_empty w hw _ _ a n n4 f4 hn han
    simp only [writeInputRegisters, if_pos c]
  · have e : s.writeDiscreteInputs w a values 0 =
        if a = s._mbMapping.start_input_bits then some { state := s, errno := none, ret := 1 }
        else some { state := s, errno := some Errno.EMBXILADD, ret := 0 } :=
      empty_write_of_empty w hw _ _ a _ values n2 f2 ha _ _
    rw [e, s2]
  · have e : s.writeInputRegisters w a values 0 =
        if a = s._mbMapping.start_input_registers then
          some { state := s, errno := none, ret := 1 }
        else some { state := s, errno := some Errno.EMBXILADD, ret := 0 } :=
      empty_write_of_empty w hw _ _ a _ values n4 f4 ha _ _
    rw [e, s4]

theorem unconfigured_end (self : ModbusServer) : Unconfigured self.end_._mbMapping :=
  ⟨rfl, rfl, rfl, rfl, rfl, rfl, rfl, rfl, rfl, rfl, rfl, rfl⟩

theorem begin_eq (self : ModbusServer) (mb : Option modbus_t) (id : Int) :
    self.begin mb id =
      match mb with
      | none => { state := self.end_, errno := none, ret := 0 }
      | some ctx =>
        { state := { self.end_ with _mb := some (_modbus_set_slave ctx id).state },
          errno := (_modbus_set_slave ctx id).errno, ret := 1 } := by
  cases mb <;> rfl

/-- C21. The `begin` contract: from every server state and for every id,
`begin(backend, id)` returns 0 exactly when the backend is absent, and then no
backend is installed afterwards and `getId()` is -1; when the backend is present
it returns 1 and installs the supplied context, changed at most in its unit id;
and for every id in `[0, 247]`, 0 included, and for 255, `getId()` afterwards
returns `id`. -/
theorem begin_contract (self : ModbusServer) (mb : Option modbus_t) (id : Int) :
    ((self.begin mb id).ret = 0 ↔ mb = none) ∧
    (mb = none → (self.begin mb id).state._mb = none ∧ (self.begin mb id).state.getId = -1) ∧
    (∀ ctx, mb = some ctx →
      (self.begin mb id).ret = 1 ∧
      (∃ ctx', (self.begin mb id).state._mb = some ctx' ∧
        ({ ctx' with slave := ctx.slave } : modbus_t) = ctx) ∧
      (ValidUnit id → (self.begin mb id).state.getId = id)) := by
  rw [begin_eq]
  cases mb with
  | none =>
    refine And.intro ?_ (And.intro ?_ ?_)
    · simp
    · intro _
      exact ⟨rfl, rfl⟩
    · intro ctx h
      cases h
  | some c =>
    refine And.intro ?_ (And.intro ?_ ?_)
    · simp
    · intro h
      cases h
    · intro ctx h
      cases h
      refine ⟨rfl, ⟨_, rfl, ?_⟩, fun hv => ?_⟩
      · rw [set_slave_eq]
        by_cases hv : ValidUnit id
        · rw [if_pos hv]
        · rw [if_neg hv]
      · show (_modbus_set_slave c id).state.slave = id
        rw [set_slave_eq, if_pos hv]

theorem begin_contract_witness :
    ValidUnit 0 ∧
    (sampleServer.begin (some (modbus_new_tcp 502)) 0).ret = 1 ∧
    (sampleServer.begin (some (modbus_new_tcp 502)) 0).state.getId = 0 ∧
    (sampleServer.begin none 0).state._mb = none ∧
    (sampleServer.begin none 0).state.getId = -1 :=
  ⟨by decide, ((begin_contract sampleServer (some (modbus_new_tcp 502)) 0).2.2 _ rfl).1,
   ((begin_contract sampleServer (some (modbus_new_tcp 502)) 0).2.2 _ rfl).2.2 (by decide),
   ((begin_contract sampleServer none 0).2.1 rfl).1,
   ((begin_contract sampleServer none 0).2.1 rfl).2⟩

/-- C22 (amended). The `end` contract: where an `int` has `w ≥ 16` bits, from
every server state, after `end()` no backend is installed, so `getId()` is -1
and `setId` returns 0 for every id; all four tables have `(start, count) =
(0, 0)` and no contents; at every address every read returns -1 and
`coilWrite`, `holdingRegisterWrite` and the mask write return 0;
`discreteInputWrite` and `inputRegisterWrite` return 0 at every address below
`INT_MAX`, the bulk writes of `n ≥ 1` elements wherever `address + n ≤ INT_MAX`;
a bulk write of `n = 0` elements returns 1 at address 0 and 0 elsewhere; and
`end()` twice leaves the state `end()` once leaves. -/
theorem end_contract (w : Nat) (hw : 16 ≤ w) (self : ModbusServer) :
    self.end_._mb = none ∧ self.end_.getId = -1 ∧
    (∀ id, self.end_.setId id = { state := self.end_, errno := none, ret := 0 }) ∧
    Unconfigured self.end_._mbMapping ∧
    RejectsAll w self.end_ ∧
    self.end_.end_ = self.end_ :=
  ⟨rfl, rfl, fun _ => rfl, unconfigured_end self,
   rejectsAll_of_unconfigured w (by omega) _ (unconfigured_end self), rfl⟩

theorem end_contract_witness :
    16 ≤ 32 ∧ Unconfigured sampleServer.end_._mbMapping ∧
    sampleServer.end_.holdingRegisterRead 32 105 =
      some { state := sampleServer.end_, errno := some Errno.EMBXILADD, ret := -1 } ∧
    sampleServer.end_.end_ = sampleServer.end_ :=
  ⟨by decide, (end_contract 32 (by decide) sampleServer).2.2.2.1,
   ((end_contract 32 (by decide) sampleServer).2.2.2.2.1 105).2.2.1,
   (end_contract 32 (by decide) sampleServer).2.2.2.2.2⟩

/-- C22 as stated fails: after `end()` the bulk write of `n = 0` elements at
address 0 returns 1, not 0; with a 32-bit `int`. -/
theorem end_accepts_empty_bulk_write :
    sampleServer.end_.writeDiscreteInputs 32 0 [] 0 =
      some { state := sampleServer.end_, errno := none, ret := 1 } ∧
    ¬ (∃ o, sampleServer.end_.writeDiscreteInputs 32 0 [] 0 = some o ∧ o.ret = 0) := by
  refine ⟨by decide, ?_⟩
  rintro ⟨o, ho, h0⟩
  have h : sampleServer.end_.writeDiscreteInputs 32 0 [] 0 =
      some { state := sampleServer.end_, errno := none, ret := 1 } := by decide
  rw [h] at ho
  cases ho
  simp at h0

/-- C29 (amended). The call `begin` discards the table configuration: where an
`int` has `w ≥ 16` bits, from every server state, tables configured and written
before included, and for every backend, present or absent, and every id, after
`begin(backend, id)` all four tables have `(start, count) = (0, 0)` and no
contents, so at every address every read returns -1 and `coilWrite`,
`holdingRegisterWrite` and the mask write return 0; `discreteInputWrite` and
`inputRegisterWrite` return 0 at every address below `INT_MAX`, the bulk writes
of `n ≥ 1` elements wherever `address + n ≤ INT_MAX`; a bulk write of `n = 0`
elements returns 1 at address 0 and 0 elsewhere; whether `begin` returned 0 or
1. -/
theorem begin_discards_tables (w : Nat) (hw : 16 ≤ w) (self : ModbusServer)
    (mb : Option modbus_t) (id : Int) :
    Unconfigured (self.begin mb id).state._mbMapping ∧
    RejectsAll w (self.begin mb id).state ∧
    ((self.begin mb id).ret = 0 ∨ (self.begin mb id).ret = 1) := by
  have h1 : 1 ≤ w := by omega
  rw [begin_eq]
  cases mb with
  | none =>
    exact ⟨unconfigured_end self, rejectsAll_of_unconfigured w h1 _ (unconfigured_end self),
      Or.inl rfl⟩
  | some ctx =>
    exact ⟨unconfigured_end self, rejectsAll_of_unconfigured w h1 _ (unconfigured_end self),
      Or.inr rfl⟩

theorem begin_discards_tables_witness :
    16 ≤ 32 ∧
    Unconfigured (sampleServer.begin (some (modbus_new_tcp 502)) 17).state._mbMapping ∧
    (sampleServer.begin (some (modbus_new_tcp 502)) 17).state.holdingRegisterRead 32 105 =
      some { state := (sampleServer.begin (some (modbus_new_tcp 502)) 17).state,
             errno := some Errno.EMBXILADD, ret := -1 } :=
  ⟨by decide, (begin_discards_tables 32 (by decide) sampleServer (some (modbus_new_tcp 502)) 17).1,
   ((begin_discards_tables 32 (by decide) sampleServer (some (modbus_new_tcp 502))
     17).2.1 105).2.2.1⟩

/-- C29 as stated fails: after `begin(backend, 17)` the bulk write of `n = 0`
elements at address 0 returns 1, not 0; with a 32-bit `int`. -/
theorem begin_accepts_empty_bulk_write :
    (sampleServer.begin (some (modbus_new_tcp 502)) 17).ret = 1 ∧
    (sampleServer.begin (some (modbus_new_tcp 502)) 17).state.writeInputRegisters 32 0 [] 0 =
      some { state := (sampleServer.begin (some (modbus_new_tcp 502)) 17).state,
             errno := none, ret := 1 } ∧
    ¬ (∃ o,
      (sampleServer.begin (some (modbus_new_tcp 502)) 17).state.writeInputRegisters 32 0 [] 0 =
        some o ∧ o.ret = 0) := by
  refine ⟨by decide, by decide, ?_⟩
  rintro ⟨o, ho, h0⟩
  have h : (sampleServer.begin (some (modbus_new_tcp 502)) 17).state.writeInputRegisters
      32 0 [] 0 =
      some { state := (sampleServer.begin (some (modbus_new_tcp 502)) 17).state,
             errno := none, ret := 1 } := by decide
  rw [h] at ho
  cases ho
  simp at h0

/-! ## Waiting for data -/

theorem select_loop_eq (start wait : Nat) (length_to_read : Int) (polls : List Poll) :
    _modbus_tcp_select_loop start wait length_to_read polls =
      (lastPoll start wait length_to_read polls).map fun p => (p.available : Int) := by
  induction polls with
  | nil => rfl
  | cons p rest ih =>
    unfold _modbus_tcp_select_loop lastPoll
    by_cases h1 : (p.available : Int) ≥ length_to_read
    · have hs : Stops start wait length_to_read p := Or.inl h1
      simp only [h1, if_true, List.find?_cons, decide_eq_true hs, Option.map_some']
    · by_cases h2 : ((p.millis : Int) - (start : Int)) % (ULONG_SIZE : Int) < (wait : Int) ∧
          p.connected = true
      · have hs : ¬ Stops start wait length_to_read p := by
          rintro (h | h)
          · exact h1 h
          · exact h h2
        simp only [h1, if_false, h2, and_self, if_true, List.find?_cons, decide_eq_false hs]
        exact ih
      · have hs : Stops start wait length_to_read p := Or.inr h2
        simp only [h1, if_false, h2, List.find?_cons, decide_eq_true hs, Option.map_some']

theorem select_eq (ctx : modbus_t) (tv : Option timeval) (length_to_read : Int) (start : Nat)
    (polls : List Poll) :
    _modbus_tcp_select ctx tv length_to_read start polls =
      (lastPoll start (waitTime tv) length_to_read polls).map fun p =>
        if p.available = 0 then { state := ctx, errno := some Errno.ETIMEDOUT, ret := -1 }
        else { state := ctx, errno := none, ret := (p.available : Int) } := by
  have e : _modbus_tcp_select ctx tv length_to_read start polls =
      match _modbus_tcp_select_loop start (waitTime tv) length_to_read polls with
      | none => none
      | some s_rc =>
        if s_rc = 0 then some { state := ctx, errno := some Errno.ETIMEDOUT, ret := -1 }
        else some { state := ctx, errno := none, ret := s_rc } := by
    cases tv <;> rfl
  rw [e, select_loop_eq]
  cases lastPoll start (waitTime tv) length_to_read polls with
  | none => rfl
  | some p =>
    simp only [Option.map_some']
    by_cases h : p.available = 0
    · simp [h]
    · have h' : ¬ ((p.available : Int) = 0) := by omega
      simp [h, h']

theorem lastPoll_stops (start wait : Nat) (length_to_read : Int) (polls : List Poll) (p : Poll)
    (h : lastPoll start wait length_to_read polls = some p) :
    p ∈ polls ∧ Stops start wait length_to_read p := by
  unfold lastPoll at h
  have h2 := List.find?_some h
  exact ⟨List.mem_of_find?_eq_some h, of_decide_eq_true h2⟩

/-- C23. A timeout is reported distinctly, never as zero data: against every
finite sequence of turns of the transport (available byte count, clock reading,
connected flag), for every `length_to_read` and every timeout, the null timeout
included, `_modbus_tcp_select` never returns 0; with `p` the last turn it
polled, it returns -1 with the timed-out error exactly when `p` had 0 bytes
available and otherwise returns the positive count of `p`.  It returns as soon
as a turn ends the loop. -/
theorem timeout_is_distinct (ctx : modbus_t) (tv : Option timeval) (length_to_read : Int)
    (start : Nat) (polls : List Poll) :
    (∀ o, _modbus_tcp_select ctx tv length_to_read start polls = some o → o.ret ≠ 0) ∧
    (∀ p, lastPoll start (waitTime tv) length_to_read polls = some p →
      (p.available = 0 →
        _modbus_tcp_select ctx tv length_to_read start polls =
          some { state := ctx, errno := some Errno.ETIMEDOUT, ret := -1 }) ∧
      (p.available ≠ 0 →
        _modbus_tcp_select ctx tv length_to_read start polls =
          some { state := ctx, errno := none, ret := (p.available : Int) } ∧
        0 < (p.available : Int))) ∧
    ((∃ p, p ∈ polls ∧ Stops start (waitTime tv) length_to_read p) →
      ∃ o, _modbus_tcp_select ctx tv length_to_read start polls = some o) := by
  rw [select_eq]
  refine ⟨?_, ?_, ?_⟩
  · intro o ho
    cases hp : lastPoll start (waitTime tv) length_to_read polls with
    | none => rw [hp] at ho; cases ho
    | some p =>
      rw [hp] at ho
      simp only [Option.map_some', Option.some.injEq] at ho
      subst ho
      by_cases h : p.available = 0
      · simp [h]
      · simp only [if_neg h]
        show (p.available : Int) ≠ 0
        omega
  · intro p hp
    rw [hp]
    refine ⟨fun h => by simp [h], fun h => ⟨by simp [h], by omega⟩⟩
  · rintro ⟨p, hmem, hstop⟩
    cases hp : lastPoll start (waitTime tv) length_to_read polls with
    | none =>
      unfold lastPoll at hp
      rw [List.find?_eq_none] at hp
      exact absurd (decide_eq_true hstop) (hp p hmem)
    | some q => exact ⟨_, rfl⟩

theorem timeout_is_distinct_witness :
    lastPoll 1000 (waitTime (some { tv_sec := 0, tv_usec := 500000 })) 8
        [{ available := 0, millis := 1100, connected := true },
         { available := 0, millis := 1500, connected := true }] =
      some { available := 0, millis := 1500, connected := true } ∧
    _modbus_tcp_select (modbus_new_tcp 502) (some { tv_sec := 0, tv_usec := 500000 }) 8 1000
        [{ available := 0, millis := 1100, connected := true },
         { available := 0, millis := 1500, connected := true }] =
      some { state := modbus_new_tcp 502, errno := some Errno.ETIMEDOUT, ret := -1 } :=
  ⟨by decide,
   ((timeout_is_distinct (modbus_new_tcp 502) (some { tv_sec := 0, tv_usec := 500000 }) 8 1000
      [{ available := 0, millis := 1100, connected := true },
       { available := 0, millis := 1500, connected := true }]).2.1
      { available := 0, millis := 1500, connected := true } (by decide)).1 rfl⟩

/-- C24 (amended). For every sequence of turns of the transport, every
`length_to_read ≥ 1` and every timeout, a ready count that `_modbus_tcp_select`
returns is at least 1.  With `p` the last turn polled: when `p` has at least
`length_to_read` bytes available the call returns that count; when it has
fewer, the budget had elapsed or the connection was gone, and the call returns
the timed-out failure if `p` has 0 bytes available and the short count of `p`
otherwise. -/
theorem select_count_or_timeout (ctx : modbus_t) (tv : Option timeval) (length_to_read : Int)
    (start : Nat) (polls : List Poll) (hlen : 1 ≤ length_to_read) :
    (∀ o, _modbus_tcp_select ctx tv length_to_read start polls = some o → 0 ≤ o.ret →
      1 ≤ o.ret) ∧
    (∀ p, lastPoll start (waitTime tv) length_to_read polls = some p →
      ((p.available : Int) ≥ length_to_read →
        _modbus_tcp_select ctx tv length_to_read start polls =
          some { state := ctx, errno := none, ret := (p.available : Int) }) ∧
      ((p.available : Int) < length_to_read →
        ¬ (((p.millis : Int) - (start : Int)) % (ULONG_SIZE : Int) < (waitTime tv : Int) ∧
          p.connected = true) ∧
        (p.available = 0 →
          _modbus_tcp_select ctx tv length_to_read start polls =
            some { state := ctx, errno := some Errno.ETIMEDOUT, ret := -1 }) ∧
        (p.available ≠ 0 →
          _modbus_tcp_select ctx tv length_to_read start polls =
            some { state := ctx, errno := none, ret := (p.available : Int) }))) := by
  rw [select_eq]
  refine ⟨?_, ?_⟩
  · intro o ho h0
    cases hp : lastPoll start (waitTime tv) length_to_read polls with
    | none => rw [hp] at ho; cases ho
    | some p =>
      rw [hp] at ho
      simp only [Option.map_some', Option.some.injEq] at ho
      subst ho
      by_cases h : p.available = 0
      · simp only [if_pos h] at h0
        omega
      · simp only [if_neg h]
        show 1 ≤ (p.available : Int)
        omega
  · intro p hp
    have hstop := (lastPoll_stops _ _ _ _ _ hp).2
    rw [hp]
    refine ⟨fun h => ?_, fun h => ⟨?_, fun h0 => by simp [h0], fun h0 => by simp [h0]⟩⟩
    · have h0 : p.available ≠ 0 := by omega
      simp [h0]
    · rcases hstop with h1 | h1
      · omega
      · exact h1

theorem select_count_or_timeout_witness :
    (1 : Int) ≤ 5 ∧
    lastPoll 1000 (waitTime (some { tv_sec := 0, tv_usec := 500000 })) 5
        [{ available := 2, millis := 1100, connected := true },
         { available := 7, millis := 1200, connected := true }] =
      some { available := 7, millis := 1200, connected := true } ∧
    ((7 : Nat) : Int) ≥ 5 ∧
    _modbus_tcp_select (modbus_new_tcp 502) (some { tv_sec := 0, tv_usec := 500000 }) 5 1000
        [{ available := 2, millis := 1100, connected := true },
         { available := 7, millis := 1200, connected := true }] =
      some { state := modbus_new_tcp 502, errno := none, ret := ((7 : Nat) : Int) } :=
  ⟨by decide, by decide, by decide,
   ((select_count_or_timeout (modbus_new_tcp 502) (some { tv_sec := 0, tv_usec := 500000 }) 5
      1000
      [{ available := 2, millis := 1100, connected := true },
       { available := 7, millis := 1200, connected := true }] (by decide)).2
      { available := 7, millis := 1200, connected := true } (by decide)).1 (by decide)⟩

/-- C24 as stated fails: with `length_to_read = 5` and a timeout of 0.5 s, a
transport that still has only 3 bytes available when the budget has elapsed
makes `_modbus_tcp_select` return the short count 3, not the timed-out
failure. -/
theorem select_returns_short_count :
    (1 : Int) ≤ 5 ∧
    ¬ (((1500 : Int) - 1000) % (ULONG_SIZE : Int) <
        (waitTime (some { tv_sec := 0, tv_usec := 500000 }) : Int)) ∧
    _modbus_tcp_select (modbus_new_tcp 502) (some { tv_sec := 0, tv_usec := 500000 }) 5 1000
        [{ available := 3, millis := 1100, connected := true },
         { available := 3, millis := 1500, connected := true }] =
      some { state := modbus_new_tcp 502, errno := none, ret := 3 } ∧
    (0 : Int) ≤ 3 ∧ ¬ ((3 : Int) ≥ 5) := by
  refine ⟨by decide, by decide, by decide, by decide, by decide⟩

/-! ## Flush -/

theorem flush_loop_nil (unread : List uint8_t) : _modbus_tcp_flush_loop unread = [] := by
  induction unread with
  | nil => rfl
  | cons _ rest ih => exact ih

/-- C25 (the code breaks it).  On every unread input `_modbus_tcp_flush` ends and
leaves the input empty, but it returns 0 whatever the number of bytes it
discarded: with 3 unread bytes the result is 0, not 3. -/
theorem flush_returns_zero :
    (∀ unread : List uint8_t,
      _modbus_tcp_flush unread = { state := [], errno := none, ret := 0 }) ∧
    _modbus_tcp_flush [1, 2, 3] = { state := [], errno := none, ret := 0 } ∧
    (_modbus_tcp_flush [1, 2, 3]).ret ≠ (([1, 2, 3] : List uint8_t).length : Int) := by
  refine ⟨fun unread => ?_, by decide, by decide⟩
  unfold _modbus_tcp_flush
  rw [flush_loop_nil]

/-! ## Confirmation -/

theorem pre_check_eq (ctx : modbus_t) (req rsp : List uint8_t) (rsp_length : Int)
    (hreq : 2 ≤ req.length) (hrsp : 4 ≤ rsp.length) :
    _modbus_tcp_pre_check_confirmation ctx req rsp rsp_length =
      some (if byteAt req 0 ≠ byteAt rsp 0 ∨ byteAt req 1 ≠ byteAt rsp 1 then
          { state := ctx, errno := some Errno.EMBBADDATA, ret := -1 }
        else if byteAt rsp 2 ≠ 0 ∧ byteAt rsp 3 ≠ 0 then
          { state := ctx, errno := some Errno.EMBBADDATA, ret := -1 }
        else { state := ctx, errno := none, ret := 0 }) := by
  obtain ⟨q0, lq0, vq0⟩ := load_nat req 0 (by omega)
  obtain ⟨q1, lq1, vq1⟩ := load_nat req 1 (by omega)
  obtain ⟨r0, lr0, vr0⟩ := load_nat rsp 0 (by omega)
  obtain ⟨r1, lr1, vr1⟩ := load_nat rsp 1 (by omega)
  obtain ⟨r2, lr2, vr2⟩ := load_nat rsp 2 (by omega)
  obtain ⟨r3, lr3, vr3⟩ := load_nat rsp 3 (by omega)
  simp only [Nat.cast_zero, Nat.cast_one, Nat.cast_ofNat] at lq0 lq1 lr0 lr1 lr2 lr3
  have e0 : (q0 ≠ r0) ↔ ((q0.val : Int) ≠ (r0.val : Int)) := by
    rw [Ne, Ne, Fin.ext_iff]; omega
  have e1 : (q1 ≠ r1) ↔ ((q1.val : Int) ≠ (r1.val : Int)) := by
    rw [Ne, Ne, Fin.ext_iff]; omega
  have e2 : (r2 ≠ 0) ↔ ((r2.val : Int) ≠ 0) := by
    rw [Ne, Ne, Fin.ext_iff]; simp
  have e3 : (r3 ≠ 0) ↔ ((r3.val : Int) ≠ 0) := by
    rw [Ne, Ne, Fin.ext_iff]; simp
  simp only [_modbus_tcp_pre_check_confirmation, lq0, lq1, lr0, lr1, lr2, lr3, vq0, vq1, vr0,
    vr1, vr2, vr3, Option.bind_eq_bind, Option.some_bind, Option.pure_def, ← e0, ← e1, ← e2,
    ← e3]
  by_cases h0 : q0 = r0 <;> by_cases h1 : q1 = r1 <;> by_cases h2 : r2 = 0 <;>
    by_cases h3 : r3 = 0 <;> simp [h0, h1, h2, h3]

/-- C26. The protocol id check inspects both bytes conjunctively: for every
request and response (of at least 4 bytes) whose transaction id bytes match,
`_modbus_tcp_pre_check_confirmation` rejects the response with the bad-data
error exactly when `rsp[2] ≠ 0` and `rsp[3] ≠ 0`, and accepts it with result 0
otherwise, so also when exactly one protocol id byte is nonzero; a transaction
id mismatch is rejected whatever the protocol id bytes are. -/
theorem protocol_id_conjunctive (ctx : modbus_t) (req rsp : List uint8_t) (rsp_length : Int)
    (hreq : 4 ≤ req.length) (hrsp : 4 ≤ rsp.length) :
    (byteAt rsp 0 = byteAt req 0 → byteAt rsp 1 = byteAt req 1 →
      (_modbus_tcp_pre_check_confirmation ctx req rsp rsp_length =
          some { state := ctx, errno := some Errno.EMBBADDATA, ret := -1 } ↔
        (byteAt rsp 2 ≠ 0 ∧ byteAt rsp 3 ≠ 0)) ∧
      (¬ (byteAt rsp 2 ≠ 0 ∧ byteAt rsp 3 ≠ 0) →
        _modbus_tcp_pre_check_confirmation ctx req rsp rsp_length =
          some { state := ctx, errno := none, ret := 0 })) ∧
    (byteAt rsp 0 ≠ byteAt req 0 ∨ byteAt rsp 1 ≠ byteAt req 1 →
      _modbus_tcp_pre_check_confirmation ctx req rsp rsp_length =
        some { state := ctx, errno := some Errno.EMBBADDATA, ret := -1 }) := by
  rw [pre_check_eq ctx req rsp rsp_length (by omega) hrsp]
  refine ⟨fun h0 h1 => ?_, fun h => ?_⟩
  · have hm : ¬ (byteAt req 0 ≠ byteAt rsp 0 ∨ byteAt req 1 ≠ byteAt rsp 1) := by
      rw [h0, h1]; simp
    rw [if_neg hm]
    by_cases hp : byteAt rsp 2 ≠ 0 ∧ byteAt rsp 3 ≠ 0
    · simp [hp]
    · simp [hp]
  · have hm : byteAt req 0 ≠ byteAt rsp 0 ∨ byteAt req 1 ≠ byteAt rsp 1 := by
      rcases h with h | h
      · exact Or.inl (Ne.symm h)
      · exact Or.inr (Ne.symm h)
    rw [if_pos hm]

theorem protocol_id_conjunctive_witness :
    4 ≤ ([0, 1, 0, 0, 0, 6] : List uint8_t).length ∧
    4 ≤ ([0, 1, 1, 0, 0, 6] : List uint8_t).length ∧
    byteAt [0, 1, 1, 0, 0, 6] 0 = byteAt [0, 1, 0, 0, 0, 6] 0 ∧
    byteAt [0, 1, 1, 0, 0, 6] 1 = byteAt [0, 1, 0, 0, 0, 6] 1 ∧
    ¬ (byteAt [0, 1, 1, 0, 0, 6] 2 ≠ 0 ∧ byteAt [0, 1, 1, 0, 0, 6] 3 ≠ 0) ∧
    _modbus_tcp_pre_check_confirmation (modbus_new_tcp 502) [0, 1, 0, 0, 0, 6]
        [0, 1, 1, 0, 0, 6] 6 =
      some { state := modbus_new_tcp 502, errno := none, ret := 0 } :=
  ⟨by decide, by decide, by decide, by decide, by decide,
   ((protocol_id_conjunctive (modbus_new_tcp 502) [0, 1, 0, 0, 0, 6] [0, 1, 1, 0, 0, 6] 6
      (by decide) (by decide)).1 (by decide) (by decide)).2 (by decide)⟩

/-! ## Table independence -/

/-- The first bytes of a response header carry the transaction id whose `int`
was given to `_modbus_tcp_build_response_basis`, and a protocol id of 0. -/
theorem build_response_tid (w : Nat) (hw : 16 ≤ w) (slave function x : Int)
    (rsp : List uint8_t) (h0 : 0 ≤ x) (h1 : x ≤ 65535) (hrsp : 8 ≤ rsp.length) :
    ∃ r,
      _modbus_tcp_build_response_basis
          { slave := slave, function := function, t_id := wrapInt w x } rsp =
        some { state := r, errno := none, ret := 8 } ∧
      r.length = rsp.length ∧ 256 * byteAt r 0 + byteAt r 1 = x ∧
      byteAt r 2 = 0 ∧ byteAt r 3 = 0 := by
  obtain ⟨hl, ⟨b0, b1, b2, b3, _, _⟩, _⟩ := response_bytes rsp _ _ _ _ _ _ hrsp _ rfl
  refine ⟨_, build_response_eq _ rsp hrsp, hl, ?_, b2, b3⟩
  rw [b0, b1, to_uint8_val, to_uint8_val]
  dsimp only
  rw [land_255_int, shiftRight_8]
  rcases (wrapInt_uint16 w hw x h0 h1).1 with h | h <;> rw [h] <;> omega

/-- C28 (amended). A faithful reply to one's own request is confirmed: where an
`int` has `w ≥ 16` bits, for every backend transaction id, unit id in
`[0, 247]` or 255, function code in `[0, 255]` and address and count in
`[0, 65535]`, with `req` built by `_modbus_tcp_build_request_basis` and `rsp`
built by `_modbus_tcp_build_response_basis` from the id
`_modbus_tcp_prepare_response_tid(req)`, `req[6]` and `req[7]`,
`_modbus_tcp_pre_check_confirmation(req, rsp)` returns 0.  The prepared id is
the `int` that the backend's current transaction id becomes: the id itself
where an `int` has more than 16 bits, and the id or the id less 65536 on a
16-bit `int`.  A reply built for the id of the request before is rejected with
the bad-data error. -/
theorem own_reply_confirmed (w : Nat) (hw : 16 ≤ w) (ctx : modbus_t) (function addr nb : Int)
    (req rsp : List uint8_t) (rsp_length : Int) (ht : ctx.backend_data.t_id ≤ 65535)
    (hunit : ValidUnit ctx.slave) (hfunction : 0 ≤ function ∧ function ≤ 255)
    (haddr : 0 ≤ addr ∧ addr ≤ 65535) (hnb : 0 ≤ nb ∧ nb ≤ 65535) (hreq : 12 ≤ req.length)
    (hrsp : 8 ≤ rsp.length) :
    ∃ ctx' req' t_id rsp' stale,
      _modbus_tcp_build_request_basis ctx function addr nb req =
        some { state := (ctx', req'), errno := none, ret := 12 } ∧
      _modbus_tcp_prepare_response_tid w req' = some t_id ∧
      t_id = wrapInt w (ctx'.backend_data.t_id : Int) ∧
      (17 ≤ w → t_id = (ctx'.backend_data.t_id : Int)) ∧
      (t_id = (ctx'.backend_data.t_id : Int) ∨
        t_id = (ctx'.backend_data.t_id : Int) - 65536) ∧
      _modbus_tcp_build_response_basis
          { slave := byteAt req' 6, function := byteAt req' 7, t_id := t_id } rsp =
        some { state := rsp', errno := none, ret := 8 } ∧
      _modbus_tcp_pre_check_confirmation ctx' req' rsp' rsp_length =
        some { state := ctx', errno := none, ret := 0 } ∧
      _modbus_tcp_build_response_basis
          { slave := byteAt req' 6, function := byteAt req' 7,
            t_id := wrapInt w (ctx.backend_data.t_id : Int) } rsp =
        some { state := stale, errno := none, ret := 8 } ∧
      _modbus_tcp_pre_check_confirmation ctx' req' stale rsp_length =
        some { state := ctx', errno := some Errno.EMBBADDATA, ret := -1 } := by
  obtain ⟨req', hbuild, hl, hid, _⟩ :=
    build_request_layout ctx function addr nb req hunit hfunction haddr hnb hreq
  obtain ⟨rsp', hreply, hl', m0, m1, m2, m3, _⟩ := build_response_layout w hw req' rsp hrsp
  obtain ⟨stale, hstale, sl, sid, _⟩ := build_response_tid w hw (byteAt req' 6)
    (byteAt req' 7) (ctx.backend_data.t_id : Int) rsp (by omega) (by omega) hrsp
  have hnext := next_t_id_mod ctx.backend_data.t_id ht
  have hle := next_t_id_le ctx.backend_data.t_id
  have hwrap := wrapInt_uint16 w hw ((next_t_id ctx.backend_data.t_id : Nat) : Int)
    (by omega) (by omega)
  have hprep := prepare_response_tid_eq w req' (by omega)
  rw [hid] at hprep hreply
  refine ⟨_, req', _, rsp', stale, hbuild, hprep, rfl, hwrap.2, hwrap.1, hreply, ?_, hstale,
    ?_⟩
  · rw [pre_check_eq _ req' rsp' rsp_length (by omega) (by omega)]
    have hm : ¬ (byteAt req' 0 ≠ byteAt rsp' 0 ∨ byteAt req' 1 ≠ byteAt rsp' 1) := by
      rw [m0, m1]; simp
    have hp : ¬ (byteAt rsp' 2 ≠ 0 ∧ byteAt rsp' 3 ≠ 0) := by
      rw [m2]; simp
    rw [if_neg hm, if_neg hp]
  · rw [pre_check_eq _ req' stale rsp_length (by omega) (by omega)]
    have hm : byteAt req' 0 ≠ byteAt stale 0 ∨ byteAt req' 1 ≠ byteAt stale 1 := by
      by_contra hcon
      have e0 : byteAt req' 0 = byteAt stale 0 := by
        by_contra h; exact hcon (Or.inl h)
      have e1 : byteAt req' 1 = byteAt stale 1 := by
        by_contra h; exact hcon (Or.inr h)
      rw [e0, e1] at hid
      omega
    rw [if_pos hm]

theorem own_reply_confirmed_witness :
    16 ≤ 32 ∧
    (modbus_new_tcp 502).backend_data.t_id ≤ 65535 ∧ ValidUnit (modbus_new_tcp 502).slave ∧
    ((0 : Int) ≤ 3 ∧ (3 : Int) ≤ 255) ∧ ((0 : Int) ≤ 4660 ∧ (4660 : Int) ≤ 65535) ∧
    ((0 : Int) ≤ 2 ∧ (2 : Int) ≤ 65535) ∧ 12 ≤ sampleRequest.length ∧
    8 ≤ sampleRequest.length ∧
    ∃ ctx' req' t_id rsp' stale,
      _modbus_tcp_build_request_basis (modbus_new_tcp 502) 3 4660 2 sampleRequest =
        some { state := (ctx', req'), errno := none, ret := 12 } ∧
      _modbus_tcp_prepare_response_tid 32 req' = some t_id ∧
      t_id = wrapInt 32 (ctx'.backend_data.t_id : Int) ∧
      (17 ≤ 32 → t_id = (ctx'.backend_data.t_id : Int)) ∧
      (t_id = (ctx'.backend_data.t_id : Int) ∨
        t_id = (ctx'.backend_data.t_id : Int) - 65536) ∧
      _modbus_tcp_build_response_basis
          { slave := byteAt req' 6, function := byteAt req' 7, t_id := t_id } sampleRequest =
        some { state := rsp', errno := none, ret := 8 } ∧
      _modbus_tcp_pre_check_confirmation ctx' req' rsp' 8 =
        some { state := ctx', errno := none, ret := 0 } ∧
      _modbus_tcp_build_response_basis
          { slave := byteAt req' 6, function := byteAt req' 7,
            t_id := wrapInt 32 ((modbus_new_tcp 502).backend_data.t_id : Int) }
          sampleRequest =
        some { state := stale, errno := none, ret := 8 } ∧
      _modbus_tcp_pre_check_confirmation ctx' req' stale 8 =
        some { state := ctx', errno := some Errno.EMBBADDATA, ret := -1 } :=
  ⟨by decide, by decide, by decide, by decide, by decide, by decide, by decide, by decide,
   own_reply_confirmed 32 (by decide) (modbus_new_tcp 502) 3 4660 2 sampleRequest
     sampleRequest 8 (by decide) (by decide) (by decide) (by decide) (by decide) (by decide)
     (by decide)⟩

/-- C28 as stated fails: with a 16-bit `int`, a backend whose transaction id is
32767 builds a request with the id 32768, bytes `0x80, 0x00`, and
`_modbus_tcp_prepare_response_tid` returns -32768 for that request, which is
not the backend's current transaction id 32768. -/
theorem prepared_id_differs_from_backend_id :
    _modbus_tcp_build_request_basis
        { modbus_new_tcp 502 with backend_data := { port := 502, t_id := 32767 } } 3 0 1
        sampleRequest =
      some {
        state :=
          ({ modbus_new_tcp 502 with backend_data := { port := 502, t_id := 32768 } },
            [128, 0, 0, 0, 9, 9, 255, 3, 0, 0, 0, 1]),
        errno := none, ret := 12 } ∧
    _modbus_tcp_prepare_response_tid 16 [128, 0, 0, 0, 9, 9, 255, 3, 0, 0, 0, 1] =
      some (-32768) ∧
    (-32768 : Int) ≠ ((32768 : Nat) : Int) := by
  refine ⟨by decide, by decide, by decide⟩

/-! ## In-band failure value -/

theorem inBand_of_check {n : Nat} (start count : Int) (values : List (Fin n))
    (self : ModbusServer) (a : Int) (hlen : (values.length : Int) = count) :
    InBand start count ((n : Int) - 1) a
      (if start > a ∨ (start + count) < (a + 1) then
        some { state := self, errno := some Errno.EMBXILADD, ret := -1 }
      else
        (load values (a - start)).map
          fun v => { state := self, errno := none, ret := (v.val : Int) }) := by
  by_cases hin : InSpan start count a
  · have hc : ¬ (start > a ∨ (start + count) < (a + 1)) := by
      unfold InSpan at hin; omega
    obtain ⟨v, _, hl⟩ := load_of_lt values (a - start) (by unfold InSpan at hin; omega)
      (by unfold InSpan at hin; omega)
    have hv := v.isLt
    rw [if_neg hc, hl]
    refine ⟨fun _ => ⟨_, rfl, ?_, ?_⟩, fun o ho => ?_, fun o ho => ?_⟩
    · show (0 : Int) ≤ (v.val : Int)
      omega
    · show (v.val : Int) ≤ (n : Int) - 1
      omega
    · cases ho
      constructor
      · intro h
        have h' : (v.val : Int) = -1 := h
        omega
      · intro h; exact absurd hin h
    · cases ho
      constructor
      · intro h
        have h' : (v.val : Int) < 0 := h
        omega
      · intro h; exact absurd hin h
  · have hc : start > a ∨ (start + count) < (a + 1) := by
      unfold InSpan at hin; omega
    rw [if_pos hc]
    refine ⟨fun h => absurd h hin, fun o ho => ?_, fun o ho => ?_⟩
    · cases ho
      exact ⟨fun _ => hin, fun _ => rfl⟩
    · cases ho
      exact ⟨fun _ => hin, fun _ => (by decide : (-1 : Int) < 0)⟩

theorem checked_of_read {n : Nat} (max : Int) (hmax : (n : Int) ≤ max + 1) (c : Prop)
    [Decidable c] (self : ModbusServer) (x : Option (Fin n)) :
    Checked max
      (if c then some { state := self, errno := some Errno.EMBXILADD, ret := -1 }
        else x.map fun v => { state := self, errno := none, ret := (v.val : Int) }) := by
  intro o ho
  rcases read_cases c self x o ho with h | ⟨v, h⟩
  · subst h
    have hn : (0 : Int) ≤ (n : Int) := Int.ofNat_nonneg n
    refine ⟨Or.inr rfl, le_refl _, ?_, ?_, ?_⟩
    · show (-1 : Int) ≤ max
      omega
    · exact ⟨fun _ => rfl, fun _ => rfl⟩
    · exact ⟨fun _ => rfl, fun _ => (by decide : (-1 : Int) < 0)⟩
  · subst h
    have hv := v.isLt
    refine ⟨Or.inl rfl, ?_, ?_, ?_, ?_⟩
    · show (-1 : Int) ≤ (v.val : Int)
      omega
    · show (v.val : Int) ≤ max
      omega
    · constructor
      · intro h
        have h' : (v.val : Int) = -1 := h
        omega
      · intro h
        cases h
    · constructor
      · intro h
        have h' : (v.val : Int) < 0 := h
        omega
      · intro h
        cases h

/-- C30 (amended). The in-band failure value is unambiguous: where an `int` has
`w ≥ 16` bits, on every store and at every address, a read returns a value in
`[-1, 255]` for `coilRead` and `discreteInputRead` and in `[-1, 65535]` for
`holdingRegisterRead` and `inputRegisterRead`, and the value is -1, or negative
as `registerMaskWrite` tests it, exactly when the range check rejected the
address.  On a store whose buffers have their tables' sizes and for a table that
ends within the `int`s (`start + count ≤ INT_MAX`), a read inside the span
returns a value in `[0, 255]`, or `[0, 65535]`, and a read returns -1, or a
negative value, exactly when the address is out of range. -/
theorem failure_value_unambiguous (w : Nat) (hw : 16 ≤ w) (self : ModbusServer)
    (hs : Sized self._mbMapping) (a : Int) :
    (Checked 255 (self.coilRead w a) ∧ Checked 255 (self.discreteInputRead w a) ∧
      Checked 65535 (self.holdingRegisterRead w a) ∧
      Checked 65535 (self.inputRegisterRead w a)) ∧
    (SpanFits w self._mbMapping.start_bits self._mbMapping.nb_bits →
      InBand self._mbMapping.start_bits self._mbMapping.nb_bits 255 a (self.coilRead w a)) ∧
    (SpanFits w self._mbMapping.start_input_bits self._mbMapping.nb_input_bits →
      InBand self._mbMapping.start_input_bits self._mbMapping.nb_input_bits 255 a
        (self.discreteInputRead w a)) ∧
    (SpanFits w self._mbMapping.start_registers self._mbMapping.nb_registers →
      InBand self._mbMapping.start_registers self._mbMapping.nb_registers 65535 a
        (self.holdingRegisterRead w a)) ∧
    (SpanFits w self._mbMapping.start_input_registers self._mbMapping.nb_input_registers →
      InBand self._mbMapping.start_input_registers self._mbMapping.nb_input_registers 65535 a
        (self.inputRegisterRead w a)) := by
  have h1 : 1 ≤ w := by omega
  refine ⟨⟨checked_of_read 255 (by decide) _ self _, checked_of_read 255 (by decide) _ self _,
    checked_of_read 65535 (by decide) _ self _, checked_of_read 65535 (by decide) _ self _⟩,
    fun hfit => ?_, fun hfit => ?_, fun hfit => ?_, fun hfit => ?_⟩
  · rw [coilRead_eq w h1 self a hfit]
    exact inBand_of_check _ _ _ self a hs.1
  · rw [discreteInputRead_eq w h1 self a hfit]
    exact inBand_of_check _ _ _ self a hs.2.1
  · rw [holdingRegisterRead_eq w h1 self a hfit]
    exact inBand_of_check _ _ _ self a hs.2.2.2
  · rw [inputRegisterRead_eq w h1 self a hfit]
    exact inBand_of_check _ _ _ self a hs.2.2.1

theorem failure_value_unambiguous_witness :
    16 ≤ 32 ∧ Sized sampleServer._mbMapping ∧
    SpanFits 32 0 4 ∧ InBand 0 4 255 2 (sampleServer.coilRead 32 2) ∧
    SpanFits 32 100 10 ∧ InBand 100 10 65535 2 (sampleServer.holdingRegisterRead 32 2) ∧
    Checked 65535 (sampleServer.inputRegisterRead 32 2) :=
  ⟨by decide, by decide, by decide,
   (failure_value_unambiguous 32 (by decide) sampleServer (by decide) 2).2.1 (by decide),
   by decide,
   (failure_value_unambiguous 32 (by decide) sampleServer (by decide) 2).2.2.2.1 (by decide),
   (failure_value_unambiguous 32 (by decide) sampleServer (by decide) 2).1.2.2.2⟩

/-- C30 as stated fails: with a 32-bit `int`, on a store whose tables are
`(2147483640, 8)` the address 2147483641 is in range, and `inputRegisterRead`
and `coilRead` at that address return -1. -/
theorem in_range_read_returns_failure_value :
    Sized topServer._mbMapping ∧
    InSpan topServer._mbMapping.start_input_registers
      topServer._mbMapping.nb_input_registers 2147483641 ∧
    InSpan topServer._mbMapping.start_bits topServer._mbMapping.nb_bits 2147483641 ∧
    topServer.inputRegisterRead 32 2147483641 =
      some { state := topServer, errno := some Errno.EMBXILADD, ret := -1 } ∧
    topServer.coilRead 32 2147483641 =
      some { state := topServer, errno := some Errno.EMBXILADD, ret := -1 } := by
  refine ⟨by decide, by decide, by decide, by decide, by decide⟩


end Modbus
